import Mathlib

/-!
Verification development for the rust2rdf pipeline (rustdoc JSON → RDF triples).

Strings are modelled as lists of characters (`Str`); every Rust `String`
operation used by the code is ported at that level.  HashMaps are modelled as
association lists whose list order is the iteration order of the concrete map
instance held in memory.
-/

set_option maxHeartbeats 1000000

abbrev Str := List Char

/-- Lift a Lean string literal to the character-list model. -/
def str (s : String) : Str := s.data

/-- The double-quote character. -/
def quC : Char := Char.ofNat 34

/-- The apostrophe (single-quote) character. -/
def aposC : Char := Char.ofNat 39

/-- The backslash character. -/
def bsC : Char := Char.ofNat 92

/-- The backtick character. -/
def btC : Char := Char.ofNat 96

/-- The opening curly-brace character. -/
def obC : Char := Char.ofNat 123

/-- The closing curly-brace character. -/
def cbC : Char := Char.ofNat 125

/-- Line feed. -/
def nlC : Char := Char.ofNat 10

/-- Carriage return. -/
def crC : Char := Char.ofNat 13

/-- Horizontal tab. -/
def tbC : Char := Char.ofNat 9

/-- Uppercase hexadecimal digit for a value below 16 (as produced by
Rust's `{:X}` formatting and by the `percent-encoding` crate). -/
def hexDigitU : Nat → Char
  | 0 => '0' | 1 => '1' | 2 => '2' | 3 => '3' | 4 => '4'
  | 5 => '5' | 6 => '6' | 7 => '7' | 8 => '8' | 9 => '9'
  | 10 => 'A' | 11 => 'B' | 12 => 'C' | 13 => 'D' | 14 => 'E'
  | _ => 'F'

/-- Two uppercase hex digits of a byte value (percent-escape payload). -/
def hexByte (n : Nat) : Str := [hexDigitU (n / 16 % 16), hexDigitU (n % 16)]

/-- Four uppercase hex digits (the payload of a `\uXXXX` escape). -/
def hex4 (n : Nat) : Str :=
  [hexDigitU (n / 4096 % 16), hexDigitU (n / 256 % 16),
   hexDigitU (n / 16 % 16), hexDigitU (n % 16)]

/-- Decimal rendering accumulator: digits of `n` followed by `acc`. -/
def toDecAux : Nat → Str → Str
  | n, acc =>
    if h : n < 10 then hexDigitU n :: acc
    else toDecAux (n / 10) (hexDigitU (n % 10) :: acc)
  termination_by n _ => n
  decreasing_by simp_wf; omega

/-- Decimal rendering of a natural number (Rust `usize`/`u64` `Display`). -/
def natStr (n : Nat) : Str := toDecAux n []

/-- Decimal rendering of a signed integer (Rust `i64` `Display`). -/
def intStr (v : Int) : Str :=
  if v < 0 then '-' :: natStr v.natAbs else natStr v.natAbs

/-- `xs.starts ns`: Rust's `str::starts_with` on the character level. -/
def starts : Str → Str → Bool
  | _, [] => true
  | [], _ :: _ => false
  | c :: cs, d :: ds => c == d && starts cs ds

/-- Join a list of path components with a separator string
(Rust's `[String]::join`). -/
def joinSep (sep : Str) : List Str → Str
  | [] => []
  | [x] => x
  | x :: y :: rest => x ++ sep ++ joinSep sep (y :: rest)

-- ---------------------------------------------------------------------------
-- IriMinter (src/model/iri.rs)
-- ---------------------------------------------------------------------------

namespace Iri

/-- Membership in `IRI_ENCODE_SET`: the `CONTROLS` set of the
`percent-encoding` crate (C0 controls and DEL) plus the punctuation bytes
added in `iri.rs`.  Characters above 0x7F are UTF-8 multi-byte sequences
whose bytes are never members of an `AsciiSet` and pass through unescaped,
so at the character level they are not escaped. -/
def shouldEscape (c : Char) : Bool :=
  c.toNat < 32 || c.toNat == 127 ||
  c ∈ [' ', '!', quC, '#', '$', '%', '&', aposC, '(', ')', '*', '+', ',',
       '/', ':', ';', '<', '=', '>', '?', '@', '[', ']', '^', btC, obC, '|', cbC]

/-- Percent-escape of a single character.  An escaped ASCII character is one
byte, rendered as `%` followed by two uppercase hex digits. -/
def escChar (c : Char) : Str :=
  if shouldEscape c then '%' :: hexByte c.toNat else [c]

/-- `IriMinter::escape`: percent-escape every character of the input. -/
def escape : Str → Str
  | [] => []
  | c :: cs => escChar c ++ escape cs

/-- `IriMinter::new`: strip every trailing `/` from the base URI
(`trim_end_matches('/')`). -/
def trimBase (s : Str) : Str :=
  (s.reverse.dropWhile (fun c => c == '/')).reverse

/-- `IriMinter::crate_iri`. -/
def crate_iri (base name version : Str) : Str :=
  base ++ str "/crate/" ++ escape name ++ str "/" ++ escape version

/-- `IriMinter::module_iri`. -/
def module_iri (base crate_name version module_path : Str) : Str :=
  base ++ str "/module/" ++ escape crate_name ++ str "/" ++ escape version
       ++ str "/" ++ escape module_path

/-- `IriMinter::type_iri`. -/
def type_iri (base crate_name version full_path : Str) : Str :=
  base ++ str "/type/" ++ escape crate_name ++ str "/" ++ escape version
       ++ str "/" ++ escape full_path

/-- `IriMinter::member_iri`. -/
def member_iri (type_iriArg name signature : Str) : Str :=
  if signature.isEmpty then
    type_iriArg ++ str "/member/" ++ escape name
  else
    type_iriArg ++ str "/member/" ++ escape name ++ str "(" ++ escape signature ++ str ")"

/-- `IriMinter::parameter_iri`. -/
def parameter_iri (method_iri : Str) (ordinal : Nat) : Str :=
  method_iri ++ str "/param/" ++ natStr ordinal

/-- `IriMinter::type_parameter_iri`. -/
def type_parameter_iri (owner_iri : Str) (ordinal : Nat) : Str :=
  owner_iri ++ str "/typeparam/" ++ natStr ordinal

/-- `IriMinter::variant_iri`. -/
def variant_iri (enum_iri name : Str) : Str :=
  enum_iri ++ str "/variant/" ++ escape name

/-- `IriMinter::impl_iri`. -/
def impl_iri (base crate_name version impl_id : Str) : Str :=
  base ++ str "/impl/" ++ escape crate_name ++ str "/" ++ escape version
       ++ str "/" ++ escape impl_id

/-- `name.strip_prefix('\'').unwrap_or(name)`: drop one leading apostrophe. -/
def stripApos (name : Str) : Str :=
  match name with
  | c :: rest => if c == aposC then rest else name
  | [] => name

/-- `IriMinter::lifetime_iri`: a leading apostrophe is stripped from the
lifetime name before escaping. -/
def lifetime_iri (owner_iri name : Str) : Str :=
  owner_iri ++ str "/lifetime/" ++ escape (stripApos name)

/-- `IriMinter::primitive_type_iri`. -/
def primitive_type_iri (base name : Str) : Str :=
  base ++ str "/type/_primitive_/" ++ escape name

/-- `IriMinter::tuple_type_iri`. -/
def tuple_type_iri (base : Str) (element_count : Nat) : Str :=
  base ++ str "/type/_tuple_/" ++ natStr element_count

/-- `IriMinter::slice_type_iri`. -/
def slice_type_iri (base element_type_name : Str) : Str :=
  base ++ str "/type/_slice_/" ++ escape element_type_name

/-- `IriMinter::array_type_iri`. -/
def array_type_iri (base element_type_name length : Str) : Str :=
  base ++ str "/type/_array_/" ++ escape element_type_name ++ str "/" ++ escape length

/-- `IriMinter::ref_type_iri`. -/
def ref_type_iri (base target_type_name : Str) (mutable : Bool) : Str :=
  let mutability := if mutable then str "mut" else str "ref"
  base ++ str "/type/_" ++ mutability ++ str "_/" ++ escape target_type_name

/-- `IriMinter::raw_pointer_type_iri`. -/
def raw_pointer_type_iri (base target_type_name : Str) (mutable : Bool) : Str :=
  let mutability := if mutable then str "mut" else str "const"
  base ++ str "/type/_ptr_" ++ mutability ++ str "_/" ++ escape target_type_name

end Iri

-- ---------------------------------------------------------------------------
-- Ontology constants (src/model/ontology.rs) — the subset the core uses
-- ---------------------------------------------------------------------------

namespace standard

def RDF : Str := str "http://www.w3.org/1999/02/22-rdf-syntax-ns#"

def RDFS : Str := str "http://www.w3.org/2000/01/rdf-schema#"

def XSD : Str := str "http://www.w3.org/2001/XMLSchema#"

def RDF_TYPE : Str := str "http://www.w3.org/1999/02/22-rdf-syntax-ns#type"

def XSD_BOOLEAN : Str := str "http://www.w3.org/2001/XMLSchema#boolean"

def XSD_INTEGER : Str := str "http://www.w3.org/2001/XMLSchema#integer"

end standard

namespace tg

def NS : Str := str "http://typegraph.example/ontology/"

def ASSEMBLY : Str := str "http://typegraph.example/ontology/Assembly"

def NAMESPACE : Str := str "http://typegraph.example/ontology/Namespace"

def TYPE : Str := str "http://typegraph.example/ontology/Type"

def STRUCT : Str := str "http://typegraph.example/ontology/Struct"

def INTERFACE : Str := str "http://typegraph.example/ontology/Interface"

def ENUM : Str := str "http://typegraph.example/ontology/Enum"

def MEMBER : Str := str "http://typegraph.example/ontology/Member"

def METHOD : Str := str "http://typegraph.example/ontology/Method"

def FIELD : Str := str "http://typegraph.example/ontology/Field"

def PARAMETER : Str := str "http://typegraph.example/ontology/Parameter"

def TYPE_PARAMETER : Str := str "http://typegraph.example/ontology/TypeParameter"

def NAME : Str := str "http://typegraph.example/ontology/name"

def FULL_NAME : Str := str "http://typegraph.example/ontology/fullName"

def ACCESSIBILITY : Str := str "http://typegraph.example/ontology/accessibility"

def IS_ABSTRACT : Str := str "http://typegraph.example/ontology/isAbstract"

def IS_GENERIC : Str := str "http://typegraph.example/ontology/isGeneric"

def DEFINED_IN_ASSEMBLY : Str := str "http://typegraph.example/ontology/definedInAssembly"

def IN_NAMESPACE : Str := str "http://typegraph.example/ontology/inNamespace"

def IMPLEMENTS : Str := str "http://typegraph.example/ontology/implements"

def HAS_MEMBER : Str := str "http://typegraph.example/ontology/hasMember"

def HAS_TYPE_PARAMETER : Str := str "http://typegraph.example/ontology/hasTypeParameter"

def RELATED_TO : Str := str "http://typegraph.example/ontology/relatedTo"

def IS_ASYNC : Str := str "http://typegraph.example/ontology/isAsync"

def IS_CONST : Str := str "http://typegraph.example/ontology/isConst"

def MEMBER_OF : Str := str "http://typegraph.example/ontology/memberOf"

def RETURN_TYPE : Str := str "http://typegraph.example/ontology/returnType"

def FIELD_TYPE : Str := str "http://typegraph.example/ontology/fieldType"

def HAS_PARAMETER : Str := str "http://typegraph.example/ontology/hasParameter"

def ORDINAL : Str := str "http://typegraph.example/ontology/ordinal"

def PARAMETER_TYPE : Str := str "http://typegraph.example/ontology/parameterType"

def PARAMETER_OF : Str := str "http://typegraph.example/ontology/parameterOf"

def TYPE_PARAMETER_OF : Str := str "http://typegraph.example/ontology/typeParameterOf"

def VERSION : Str := str "http://typegraph.example/ontology/version"

def PARENT_NAMESPACE : Str := str "http://typegraph.example/ontology/parentNamespace"

def LANGUAGE : Str := str "http://typegraph.example/ontology/language"

end tg

namespace rt

def NS : Str := str "http://rust.example/ontology/"

def CRATE : Str := str "http://rust.example/ontology/Crate"

def MODULE : Str := str "http://rust.example/ontology/Module"

def TRAIT : Str := str "http://rust.example/ontology/Trait"

def UNION : Str := str "http://rust.example/ontology/Union"

def TYPE_ALIAS : Str := str "http://rust.example/ontology/TypeAlias"

def ENUM_VARIANT : Str := str "http://rust.example/ontology/EnumVariant"

def TRAIT_IMPL : Str := str "http://rust.example/ontology/TraitImpl"

def INHERENT_IMPL : Str := str "http://rust.example/ontology/InherentImpl"

def LIFETIME : Str := str "http://rust.example/ontology/Lifetime"

def CONST_PARAM : Str := str "http://rust.example/ontology/ConstParam"

def STATIC : Str := str "http://rust.example/ontology/Static"

def CONSTANT : Str := str "http://rust.example/ontology/Constant"

def DEPENDS_ON : Str := str "http://rust.example/ontology/dependsOn"

def SUPER_TRAIT : Str := str "http://rust.example/ontology/superTrait"

def IMPL_FOR : Str := str "http://rust.example/ontology/implFor"

def IMPL_TRAIT : Str := str "http://rust.example/ontology/implTrait"

def HAS_VARIANT : Str := str "http://rust.example/ontology/hasVariant"

def VARIANT_KIND : Str := str "http://rust.example/ontology/variantKind"

def VARIANT_FIELD : Str := str "http://rust.example/ontology/variantField"

def HAS_LIFETIME : Str := str "http://rust.example/ontology/hasLifetime"

def IS_UNSAFE : Str := str "http://rust.example/ontology/isUnsafe"

def IS_MUTABLE : Str := str "http://rust.example/ontology/isMutable"

def ERROR_TYPE : Str := str "http://rust.example/ontology/errorType"

def DERIVES : Str := str "http://rust.example/ontology/derives"

def TRAIT_BOUND : Str := str "http://rust.example/ontology/traitBound"

end rt

-- ---------------------------------------------------------------------------
-- TriplesEmitter call stream (src/emitter/mod.rs)
-- ---------------------------------------------------------------------------

/-- One call made by the extractor against the `TriplesEmitter` interface. -/
inductive Emit where
  | iri (s p o : Str)
  | lit (s p v : Str)
  | typedLit (s p v dt : Str)
  | boolE (s p : Str) (v : Bool)
  | intE (s p : Str) (v : Int)
  | addNs (pfx ns : Str)
deriving DecidableEq

-- ---------------------------------------------------------------------------
-- N-Triples serializer (src/emitter/ntriples.rs)
-- ---------------------------------------------------------------------------

namespace NT

/-- Image of one character under `NTriplesEmitter::escape_literal`. -/
def escChar (c : Char) : Str :=
  if c == bsC then [bsC, bsC]
  else if c == quC then [bsC, quC]
  else if c == nlC then [bsC, 'n']
  else if c == crC then [bsC, 'r']
  else if c == tbC then [bsC, 't']
  else if c.toNat < 32 then bsC :: 'u' :: hex4 c.toNat
  else [c]

/-- `NTriplesEmitter::escape_literal`: the per-character loop. -/
def escape_literal : Str → Str
  | [] => []
  | c :: cs => escChar c ++ escape_literal cs

/-- Line written by `emit_typed_literal`. -/
def typedLine (s p v dt : Str) : Str :=
  str "<" ++ s ++ str "> <" ++ p ++ str "> " ++ [quC] ++ escape_literal v
    ++ [quC] ++ str "^^<" ++ dt ++ str "> ." ++ [nlC]

/-- Text written for one emitter call (one line each).  `emit_bool` and
`emit_int` delegate to `emit_typed_literal` exactly as in the source. -/
def renderCall : Emit → Str
  | .iri s p o =>
      str "<" ++ s ++ str "> <" ++ p ++ str "> <" ++ o ++ str "> ." ++ [nlC]
  | .lit s p v =>
      str "<" ++ s ++ str "> <" ++ p ++ str "> " ++ [quC] ++ escape_literal v
        ++ [quC] ++ str " ." ++ [nlC]
  | .typedLit s p v dt => typedLine s p v dt
  | .boolE s p v =>
      typedLine s p (if v then str "true" else str "false") standard.XSD_BOOLEAN
  | .intE s p v => typedLine s p (intStr v) standard.XSD_INTEGER
  | .addNs pfx ns =>
      str "# @prefix " ++ pfx ++ str ": <" ++ ns ++ str "> ." ++ [nlC]

/-- Triple-counter increment for one call (prefix comments do not count). -/
def countCall : Emit → Nat
  | .addNs _ _ => 0
  | _ => 1

/-- Full N-Triples output text for a call stream. -/
def render (calls : List Emit) : Str := calls.flatMap renderCall

/-- Final value of the triple counter for a call stream. -/
def tripleCount (calls : List Emit) : Nat := (calls.map countCall).sum

end NT

-- ---------------------------------------------------------------------------
-- Turtle serializer (src/emitter/turtle.rs)
-- ---------------------------------------------------------------------------

namespace Turtle

/-- Byte-order comparison on strings (Rust `String` `Ord`), used by the
`sort_by_key` call in `write_prefixes`.  UTF-8 byte order coincides with
code-point order. -/
def strLe (a b : Str) : Bool :=
  match a, b with
  | [], _ => true
  | _ :: _, [] => false
  | c :: cs, d :: ds => c.toNat < d.toNat || (c == d && strLe cs ds)

/-- Turtle emitter state: registered prefix table (iteration order of the
concrete `HashMap` instance), the `prefix_written` flag, and the counter. -/
structure St where
  prefixes : List (Str × Str)
  prefix_written : Bool
  count : Nat

/-- Fresh emitter (`TurtleEmitter::new`). -/
def init : St := ⟨[], false, 0⟩

/-- `HashMap::insert` on the prefix table: replace the value of an existing
key in place, otherwise add the entry. -/
def insertNs (table : List (Str × Str)) (pfx ns : Str) : List (Str × Str) :=
  match table with
  | [] => [(pfx, ns)]
  | (k, v) :: rest =>
      if k = pfx then (pfx, ns) :: rest else (k, v) :: insertNs rest pfx ns

/-- `TurtleEmitter::write_prefixes`: on first triple, write all registered
prefixes sorted by prefix name, then one blank line if any exist. -/
def write_prefixes (st : St) : Str × St :=
  if st.prefix_written then ([], st)
  else
    let sorted := st.prefixes.mergeSort (fun a b => strLe a.1 b.1)
    let body := sorted.flatMap
      (fun pn => str "@prefix " ++ pn.1 ++ str ": <" ++ pn.2 ++ str "> ." ++ [nlC])
    let body := if st.prefixes.isEmpty then body else body ++ [nlC]
    (body, { st with prefix_written := true })

/-- The loop body of `TurtleEmitter::compact_iri`: keep the entry whose
namespace is a prefix of the IRI and strictly longer than the best so far. -/
def bestStep (iri : Str) (best : Option (Str × Str)) (pn : Str × Str) :
    Option (Str × Str) :=
  if starts iri pn.2 &&
     (match best with
      | none => true
      | some prev => decide (pn.2.length > prev.2.length)) then
    some pn
  else best

/-- The scan of `compact_iri` over the prefix table, with the running best. -/
def bestNsGo (iri : Str) : Option (Str × Str) → List (Str × Str) → Option (Str × Str)
  | acc, [] => acc
  | acc, pn :: rest => bestNsGo iri (bestStep iri acc pn) rest

/-- Longest-matching registered namespace for an IRI (the loop of
`TurtleEmitter::compact_iri`). -/
def bestNs (table : List (Str × Str)) (iri : Str) : Option (Str × Str) :=
  bestNsGo iri none table

/-- Model of Rust's `char::is_alphanumeric` (Unicode `Alphabetic` or number
category), restricted to the ASCII range; characters at or above 0x80 are
classified per the ASCII fallback.  The stdlib Unicode tables are external
to this repository. -/
def is_alphanumeric (c : Char) : Bool := c.isAlpha || c.isDigit

/-- `TurtleEmitter::compact_iri`. -/
def compact_iri (table : List (Str × Str)) (iri : Str) : Str :=
  match bestNs table iri with
  | some pn =>
      let loc := iri.drop pn.2.length
      if !loc.isEmpty && loc.all (fun c => is_alphanumeric c || c == '_') then
        pn.1 ++ str ":" ++ loc
      else str "<" ++ iri ++ str ">"
  | none => str "<" ++ iri ++ str ">"

/-- Image of one character under `TurtleEmitter::escape_literal` (the same
four-character table as N-Triples but without the control-character branch). -/
def escChar (c : Char) : Str :=
  if c == bsC then [bsC, bsC]
  else if c == quC then [bsC, quC]
  else if c == nlC then [bsC, 'n']
  else if c == crC then [bsC, 'r']
  else if c == tbC then [bsC, 't']
  else [c]

/-- `TurtleEmitter::escape_literal`. -/
def escape_literal : Str → Str
  | [] => []
  | c :: cs => escChar c ++ escape_literal cs

/-- `emit_typed_literal` for the Turtle emitter. -/
def typedStep (st : St) (s p v dt : Str) : Str × St :=
  let (pre, st) := write_prefixes st
  let line := compact_iri st.prefixes s ++ str " " ++ compact_iri st.prefixes p
    ++ str " " ++ [quC] ++ escape_literal v ++ [quC] ++ str "^^"
    ++ compact_iri st.prefixes dt ++ str " ." ++ [nlC]
  (pre ++ line, { st with count := st.count + 1 })

/-- Process one emitter call: text written and next state.  `emit_bool` and
`emit_int` delegate to `emit_typed_literal` exactly as in the source. -/
def step (st : St) : Emit → Str × St
  | .iri s p o =>
      let (pre, st) := write_prefixes st
      let line := compact_iri st.prefixes s ++ str " " ++ compact_iri st.prefixes p
        ++ str " " ++ compact_iri st.prefixes o ++ str " ." ++ [nlC]
      (pre ++ line, { st with count := st.count + 1 })
  | .lit s p v =>
      let (pre, st) := write_prefixes st
      let line := compact_iri st.prefixes s ++ str " " ++ compact_iri st.prefixes p
        ++ str " " ++ [quC] ++ escape_literal v ++ [quC] ++ str " ." ++ [nlC]
      (pre ++ line, { st with count := st.count + 1 })
  | .typedLit s p v dt => typedStep st s p v dt
  | .boolE s p v =>
      typedStep st s p (if v then str "true" else str "false") standard.XSD_BOOLEAN
  | .intE s p v => typedStep st s p (intStr v) standard.XSD_INTEGER
  | .addNs pfx ns =>
      ([], { st with prefixes := insertNs st.prefixes pfx ns })

/-- Run a call stream from a state, concatenating the written text. -/
def run (st : St) : List Emit → Str × St
  | [] => ([], st)
  | c :: cs =>
      let (t1, st1) := step st c
      let (t2, st2) := run st1 cs
      (t1 ++ t2, st2)

/-- Full Turtle output text for a call stream from a fresh emitter. -/
def render (calls : List Emit) : Str := (run init calls).1

/-- Final triple count for a call stream from a fresh emitter. -/
def tripleCount (calls : List Emit) : Nat := (run init calls).2.count

end Turtle

-- ---------------------------------------------------------------------------
-- JSON values (serde_json::Value, as far as the core consumes them)
-- ---------------------------------------------------------------------------

/-- A JSON value.  Integer numbers are the only numeric wire form the model's
claims exercise. -/
inductive Json where
  | null
  | bool (b : Bool)
  | num (n : Int)
  | str (s : Str)
  | arr (xs : List Json)
  | obj (fields : List (Str × Json))
deriving Inhabited

-- ---------------------------------------------------------------------------
-- Rustdoc schema model (src/extraction/rustdoc_model.rs)
-- ---------------------------------------------------------------------------

/-- `TraitBoundModifier`. -/
inductive TraitBoundModifierR where
  | none
  | maybe
  | maybeConst

/-- `ConstantValue`. -/
structure ConstantValueR where
  value : Option Str
  is_literal : Bool

/-- `Discriminant`. -/
structure DiscriminantR where
  expr : Option Str
  value : Option Str

/-- `FunctionHeader`. -/
structure FunctionHeaderR where
  is_const : Bool
  isUnsafe : Bool
  is_async : Bool
  abi : Option Str

/-- `Deprecation`. -/
structure DeprecationR where
  since : Option Str
  note : Option Str

/-- `Span`. -/
structure SpanR where
  filename : Str
  «begin» : Nat × Nat
  «end» : Nat × Nat

mutual

/-- `Type` (a type reference in the rustdoc JSON). -/
inductive Ty where
  | resolvedPath (p : ResolvedPathR)
  | primitive (s : Str)
  | tuple (ts : List Ty)
  | slice (t : Ty)
  | array (type_ : Ty) (len : Str)
  | rawPointer (is_mutable : Bool) (type_ : Ty)
  | borrowedRef (lifetime : Option Str) (is_mutable : Bool) (type_ : Ty)
  | functionPointer (fp : FunctionPointerR)
  | qualifiedPath (name : Str) (args : Option GenericArgsR) (self_type : Ty)
      (trait_ : Option ResolvedPathR)
  | implTrait (bounds : List GenericBoundR)
  | dynTrait (dt : DynTraitR)
  | infer
  | generic (s : Str)
  | unknown

/-- `ResolvedPath`: path string, optional item id, optional generic args. -/
inductive ResolvedPathR where
  | mk (path : Str) (id : Option Str) (args : Option GenericArgsR)

/-- `GenericArgs`. -/
inductive GenericArgsR where
  | angleBracketed (args : List GenericArgR) (constraints : List TypeBindingR)
  | parenthesized (inputs : List Ty) (output : Option Ty)

/-- `GenericArg`. -/
inductive GenericArgR where
  | lifetime (s : Str)
  | type (t : Ty)
  | const (v : ConstantValueR)
  | infer

/-- `TypeBinding`. -/
inductive TypeBindingR where
  | mk (name : Str) (args : Option GenericArgsR) (binding : TypeBindingKindR)

/-- `TypeBindingKind`. -/
inductive TypeBindingKindR where
  | equality (t : Ty)
  | constraint (bs : List GenericBoundR)
  | unknown

/-- `GenericBound`. -/
inductive GenericBoundR where
  | traitBound (trait_ : ResolvedPathR) (modifier : TraitBoundModifierR)
      (generic_params : List GenericParamDefR)
  | outlives (s : Str)
  | useBound (ss : List Str)

/-- `GenericParamDef`. -/
inductive GenericParamDefR where
  | mk (name : Str) (kind : GenericParamDefKindR)

/-- `GenericParamDefKind`. -/
inductive GenericParamDefKindR where
  | lifetime (outlives : List Str)
  | type (bounds : List GenericBoundR) (default : Option Ty) (is_synthetic : Bool)
  | const (type_ : Ty) (default : Option Str)
  | unknown

/-- `WherePredicate`. -/
inductive WherePredicateR where
  | boundPredicate (type_ : Ty) (bounds : List GenericBoundR)
      (generic_params : List GenericParamDefR)
  | lifetimePredicate (lifetime : Str) (outlives : List Str)
  | eqPredicate (lhs rhs : Ty)

/-- `Generics`. -/
inductive GenericsR where
  | mk (params : List GenericParamDefR) (where_predicates : List WherePredicateR)

/-- `FunctionPointer`. -/
inductive FunctionPointerR where
  | mk (sig : FunctionSignatureR) (generic_params : List GenericParamDefR)
      (header : FunctionHeaderR)

/-- `FunctionSignature`: ordered (name, type) input pairs, optional output. -/
inductive FunctionSignatureR where
  | mk (inputs : List (Str × Ty)) (output : Option Ty) (is_c_variadic : Bool)

/-- `DynTrait`. -/
inductive DynTraitR where
  | mk (traits : List PolyTraitR) (lifetime : Option Str)

/-- `PolyTrait`. -/
inductive PolyTraitR where
  | mk (trait_ : ResolvedPathR) (generic_params : List GenericParamDefR)

end

/-- Projection: `ResolvedPath::path`. -/
def ResolvedPathR.path : ResolvedPathR → Str
  | .mk p _ _ => p

/-- Projection: `ResolvedPath::id`. -/
def ResolvedPathR.id : ResolvedPathR → Option Str
  | .mk _ i _ => i

/-- Projection: `ResolvedPath::args`. -/
def ResolvedPathR.args : ResolvedPathR → Option GenericArgsR
  | .mk _ _ a => a

/-- Projection: `Generics::params`. -/
def GenericsR.params : GenericsR → List GenericParamDefR
  | .mk p _ => p

/-- Projection: `GenericParamDef::name`. -/
def GenericParamDefR.name : GenericParamDefR → Str
  | .mk n _ => n

/-- Projection: `GenericParamDef::kind`. -/
def GenericParamDefR.kind : GenericParamDefR → GenericParamDefKindR
  | .mk _ k => k

/-- Projection: `FunctionSignature::inputs`. -/
def FunctionSignatureR.inputs : FunctionSignatureR → List (Str × Ty)
  | .mk i _ _ => i

/-- Projection: `FunctionSignature::output`. -/
def FunctionSignatureR.output : FunctionSignatureR → Option Ty
  | .mk _ o _ => o

/-- `Visibility`. -/
inductive VisibilityR where
  | public
  | default
  | crate
  | restricted (parent : Str) (path : Str)

/-- `StructKind`. -/
inductive StructKindR where
  | unit
  | tuple (fields : List (Option Str))
  | plain (fields : List Str) (has_stripped_fields : Bool)

/-- `VariantKind`. -/
inductive VariantKindR where
  | plain
  | tuple (fields : List (Option Str))
  | struct (fields : List Str) (has_stripped_fields : Bool)

/-- `VariantData`. -/
structure VariantDataR where
  kind : VariantKindR
  discriminant : Option DiscriminantR

/-- `ConstExpr`. -/
structure ConstExprR where
  expr : Option Str
  value : Option Str
  is_literal : Bool

/-- `ItemEnum` — the inner content of an `Item`.  Item ids are strings
(`Id.0`). -/
inductive ItemEnumR where
  | module (items : List Str) (is_stripped : Bool)
  | struct (kind : StructKindR) (generics : GenericsR) (impls : List Str)
  | union (generics : GenericsR) (fields : List Str) (has_stripped_fields : Bool)
      (impls : List Str)
  | enum (generics : GenericsR) (variants : List Str) (variants_stripped : Bool)
      (impls : List Str)
  | variant (d : VariantDataR)
  | function (sig : FunctionSignatureR) (generics : GenericsR) (has_body : Bool)
      (header : FunctionHeaderR)
  | trait (generics : GenericsR) (bounds : List GenericBoundR) (items : List Str)
      (implementations : List Str) (is_auto : Bool) (isUnsafe : Bool)
      (is_dyn_compatible : Bool)
  | «impl» (generics : GenericsR) (trait_ : Option ResolvedPathR) (for_ : Ty)
      (items : List Str) (isUnsafe : Bool) (is_negative : Bool)
      (is_synthetic : Bool) (blanket_impl : Option Ty)
  | useItem (source : Str) (name : Option Str) (id : Option Str) (is_glob : Bool)
  | typeAlias (generics : GenericsR) (type_ : Option Ty)
  | constant (type_ : Ty) (const_ : Option ConstExprR)
  | static (type_ : Ty) (is_mutable : Bool) (isUnsafe : Bool) (expr : Option Str)
  | structField (t : Ty)
  | macroItem (s : Str)
  | assocConst (type_ : Ty) (value : Option Str)
  | assocType (generics : GenericsR) (bounds : List GenericBoundR) (type_ : Option Ty)
  | unknown

/-- `Item`. -/
structure ItemR where
  id : Option Str
  name : Option Str
  visibility : VisibilityR
  attrs : List Json
  deprecation : Option DeprecationR
  docs : Option Str
  span : Option SpanR
  inner : ItemEnumR
  links : List (Str × Str)

/-- `ItemKind` (used only inside `ItemSummary`). -/
inductive ItemKindR where
  | module | externCrate | useK | struct | structField | union | enum | variant
  | function | typeAlias | constant | trait | traitAlias | «impl» | static
  | externType | macroK | procMacro | procAttribute | procDerive | assocConst
  | assocType | primitive | keyword

/-- `ItemSummary`. -/
structure ItemSummaryR where
  path : List Str
  kind : ItemKindR

/-- `ExternalCrate`. -/
structure ExternalCrateR where
  name : Str
  html_root_url : Option Str

/-- `Crate` — the top-level rustdoc JSON document.  The three `HashMap`
tables are modelled as association lists whose order is the iteration order
of the concrete map instance. -/
structure CrateR where
  root : Str
  crate_version : Option Str
  index : List (Str × ItemR)
  paths : List (Str × ItemSummaryR)
  external_crates : List (Str × ExternalCrateR)
  format_version : Nat

/-- `HashMap::get` on an association list: first binding wins. -/
def alookup {α : Type} : List (Str × α) → Str → Option α
  | [], _ => none
  | (k, v) :: rest, key => if k = key then some v else alookup rest key

-- ---------------------------------------------------------------------------
-- CrateExtractor (src/extraction/extractor.rs)
-- ---------------------------------------------------------------------------

/-- `ExtractionOptions`. -/
structure OptionsR where
  base_uri : Str
  include_impls : Bool
  include_attributes : Bool
  extract_error_types : Bool
  extract_derives : Bool

/-- Extractor context derived in `CrateExtractor::new`: crate name from the
root item, version default `0.0.0`, and the trimmed IRI base. -/
structure Ctx where
  data : CrateR
  crateName : Str
  crateVersion : Str
  base : Str
  opts : OptionsR

/-- `CrateExtractor::new`. -/
def mkCtx (data : CrateR) (opts : OptionsR) : Ctx :=
  { data := data
    crateName := (((alookup data.index data.root).bind ItemR.name).getD (str "unknown"))
    crateVersion := data.crate_version.getD (str "0.0.0")
    base := Iri.trimBase opts.base_uri
    opts := opts }

/-- Mutable extractor state: the two dedup sets. -/
structure ExSt where
  types : List Str
  mods : List Str

/-- `visibility_str`. -/
def visibility_str : VisibilityR → Str
  | .public => str "Public"
  | .default => str "Private"
  | .crate => str "Internal"
  | .restricted _ p => if p = str "super" then str "Protected" else str "Internal"

/-- Rust's `str::ends_with`. -/
def endsW (s suffix : Str) : Bool := starts s.reverse suffix.reverse

mutual

/-- `type_display_name`: human-readable display name for composite type IRIs. -/
def type_display_name : Ty → Str
  | .primitive name => name
  | .resolvedPath p => p.path
  | .generic name => name
  | .tuple types => str "(" ++ joinSep (str ",") (type_display_list types) ++ str ")"
  | .slice inner => str "[" ++ type_display_name inner ++ str "]"
  | .array type_ len => str "[" ++ type_display_name type_ ++ str ";" ++ len ++ str "]"
  | .borrowedRef _ is_mutable type_ =>
      if is_mutable then str "&mut " ++ type_display_name type_
      else str "&" ++ type_display_name type_
  | .rawPointer is_mutable type_ =>
      if is_mutable then str "*mut " ++ type_display_name type_
      else str "*const " ++ type_display_name type_
  | _ => str "unknown"

/-- The `.map(type_display_name)` of the tuple branch. -/
def type_display_list : List Ty → List Str
  | [] => []
  | t :: ts => type_display_name t :: type_display_list ts

end

/-- Crate-node IRI for this extraction. -/
def crateIri (ctx : Ctx) : Str := Iri.crate_iri ctx.base ctx.crateName ctx.crateVersion

/-- Module-node IRI for a dotted path. -/
def moduleIri (ctx : Ctx) (p : Str) : Str :=
  Iri.module_iri ctx.base ctx.crateName ctx.crateVersion p

/-- Type-node IRI for a full path. -/
def typeIri (ctx : Ctx) (p : Str) : Str :=
  Iri.type_iri ctx.base ctx.crateName ctx.crateVersion p

/-- `CrateExtractor::resolve_path_to_iri`: side table first, then local index
by item name, then the raw path string.  Always returns an IRI. -/
def resolve_path_to_iri (ctx : Ctx) (path : ResolvedPathR) : Str :=
  match path.id with
  | some i =>
      match alookup ctx.data.paths i with
      | some summary => typeIri ctx (joinSep (str "::") summary.path)
      | none =>
          match alookup ctx.data.index i with
          | some item =>
              match item.name with
              | some name => typeIri ctx name
              | none => typeIri ctx path.path
          | none => typeIri ctx path.path
  | none => typeIri ctx path.path

/-- `CrateExtractor::resolve_type_to_iri`. -/
def resolve_type_to_iri (ctx : Ctx) : Ty → Option Str
  | .resolvedPath path => some (resolve_path_to_iri ctx path)
  | .primitive name => some (Iri.primitive_type_iri ctx.base name)
  | .tuple types => some (Iri.tuple_type_iri ctx.base types.length)
  | .slice inner => some (Iri.slice_type_iri ctx.base (type_display_name inner))
  | .array type_ len => some (Iri.array_type_iri ctx.base (type_display_name type_) len)
  | .rawPointer is_mutable type_ =>
      some (Iri.raw_pointer_type_iri ctx.base (type_display_name type_) is_mutable)
  | .borrowedRef _ is_mutable type_ =>
      some (Iri.ref_type_iri ctx.base (type_display_name type_) is_mutable)
  | .generic _ => none
  | .implTrait _ => none
  | .dynTrait _ => none
  | .qualifiedPath _ _ _ _ => none
  | .functionPointer _ => none
  | .infer => none
  | .unknown => none

/-- `CrateExtractor::ensure_external_type_emitted`. -/
def ensure_external_type_emitted (st : ExSt) (type_iriArg name : Str) :
    List Emit × ExSt :=
  if type_iriArg ∈ st.types then ([], st)
  else
    ([.iri type_iriArg standard.RDF_TYPE tg.TYPE, .lit type_iriArg tg.NAME name],
     { st with types := type_iriArg :: st.types })

/-- The supertrait / trait-bound loop body shared by trait extraction and
generics extraction: resolve each `TraitBound`, emit the edge, and ensure a
minimal node for the bound target. -/
def bounds_loop (ctx : Ctx) (subject edge : Str) :
    List GenericBoundR → ExSt → List Emit × ExSt
  | [], st => ([], st)
  | b :: rest, st =>
      let (e1, st1) :=
        match b with
        | .traitBound trait_ _ _ =>
            let bound_iri := resolve_path_to_iri ctx trait_
            let (ee, st') := ensure_external_type_emitted st bound_iri trait_.path
            ([Emit.iri subject edge bound_iri] ++ ee, st')
        | _ => ([], st)
      let (e2, st2) := bounds_loop ctx subject edge rest st1
      (e1 ++ e2, st2)

/-- `has_type_params`: any `GenericParamDefKind::Type` among the params. -/
def hasTypeParams (generics : GenericsR) : Bool :=
  generics.params.any (fun p => match p.kind with | .type _ _ _ => true | _ => false)

/-- The enumerated loop of `CrateExtractor::extract_generics`. -/
def extract_generics_go (ctx : Ctx) (owner_iri : Str) :
    Nat → List GenericParamDefR → ExSt → List Emit × ExSt
  | _, [], st => ([], st)
  | ordinal, param :: rest, st =>
      let (e1, st1) :=
        match param.kind with
        | .type bounds _ _ =>
            let tp_iri := Iri.type_parameter_iri owner_iri ordinal
            let (be, st') := bounds_loop ctx tp_iri rt.TRAIT_BOUND bounds st
            ([.iri tp_iri standard.RDF_TYPE tg.TYPE_PARAMETER,
              .lit tp_iri tg.NAME param.name,
              .intE tp_iri tg.ORDINAL (ordinal : Int),
              .iri owner_iri tg.HAS_TYPE_PARAMETER tp_iri,
              .iri tp_iri tg.TYPE_PARAMETER_OF owner_iri] ++ be, st')
        | .lifetime _ =>
            let lt_iri := Iri.lifetime_iri owner_iri param.name
            ([.iri lt_iri standard.RDF_TYPE rt.LIFETIME,
              .lit lt_iri tg.NAME param.name,
              .iri owner_iri rt.HAS_LIFETIME lt_iri], st)
        | .const type_ _ =>
            let cp_iri := Iri.type_parameter_iri owner_iri ordinal
            ([.iri cp_iri standard.RDF_TYPE rt.CONST_PARAM,
              .lit cp_iri tg.NAME param.name,
              .intE cp_iri tg.ORDINAL (ordinal : Int),
              .iri owner_iri tg.HAS_TYPE_PARAMETER cp_iri] ++
             (match resolve_type_to_iri ctx type_ with
              | some t => [Emit.iri cp_iri tg.PARAMETER_TYPE t]
              | none => []), st)
        | .unknown => ([], st)
      let (e2, st2) := extract_generics_go ctx owner_iri (ordinal + 1) rest st1
      (e1 ++ e2, st2)

/-- `CrateExtractor::extract_generics`. -/
def extract_generics (ctx : Ctx) (generics : GenericsR) (owner_iri : Str)
    (st : ExSt) : List Emit × ExSt :=
  extract_generics_go ctx owner_iri 0 generics.params st

/-- The enumerated parameter loop of `extract_function_details`: inputs named
`self` are skipped but still advance the ordinal. -/
def params_loop (ctx : Ctx) (fn_iri : Str) :
    Nat → List (Str × Ty) → List Emit
  | _, [] => []
  | ordinal, (name, ty) :: rest =>
      (if name = str "self" then []
       else
         let param_iri := Iri.parameter_iri fn_iri ordinal
         [.iri param_iri standard.RDF_TYPE tg.PARAMETER,
          .lit param_iri tg.NAME name,
          .intE param_iri tg.ORDINAL (ordinal : Int),
          .iri fn_iri tg.HAS_PARAMETER param_iri,
          .iri param_iri tg.PARAMETER_OF fn_iri] ++
         (match resolve_type_to_iri ctx ty with
          | some t => [Emit.iri param_iri tg.PARAMETER_TYPE t]
          | none => []))
      ++ params_loop ctx fn_iri (ordinal + 1) rest

/-- `CrateExtractor::extract_function_details`. -/
def extract_function_details (ctx : Ctx) (fn_iri : Str) (sig : FunctionSignatureR)
    (generics : GenericsR) (header : FunctionHeaderR) (st : ExSt) :
    List Emit × ExSt :=
  let flags :=
    (if header.isUnsafe then [Emit.boolE fn_iri rt.IS_UNSAFE true] else []) ++
    (if header.is_async then [Emit.boolE fn_iri tg.IS_ASYNC true] else []) ++
    (if header.is_const then [Emit.boolE fn_iri tg.IS_CONST true] else [])
  let gflag := if hasTypeParams generics then [Emit.boolE fn_iri tg.IS_GENERIC true] else []
  let (ge, st1) := extract_generics ctx generics fn_iri st
  let pe := params_loop ctx fn_iri 0 sig.inputs
  let re :=
    match sig.output with
    | some ret_type =>
        match resolve_type_to_iri ctx ret_type with
        | some t => [Emit.iri fn_iri tg.RETURN_TYPE t]
        | none => []
    | none => []
  (flags ++ gflag ++ ge ++ pe ++ re, st1)

/-- `CrateExtractor::extract_error_type`: detect a `Result`-shaped return
type by path-name match and resolve its second angle-bracketed argument. -/
def extract_error_type (ctx : Ctx) (fn_iri : Str) (sig : FunctionSignatureR) :
    List Emit :=
  match sig.output with
  | some (.resolvedPath path) =>
      if path.path = str "Result" || endsW path.path (str "::Result") then
        match path.args with
        | some (.angleBracketed args _) =>
            match args.get? 1 with
            | some (.type err_type) =>
                match resolve_type_to_iri ctx err_type with
                | some err_iri => [Emit.iri fn_iri rt.ERROR_TYPE err_iri]
                | none => []
            | _ => []
        | _ => []
      else []
  | _ => []

/-- `CrateExtractor::extract_type_method`. -/
def extract_type_method (ctx : Ctx) (method_id owner_iri : Str) (st : ExSt) :
    List Emit × ExSt :=
  match alookup ctx.data.index method_id with
  | none => ([], st)
  | some item =>
      match item.name with
      | none => ([], st)
      | some name =>
          let method_iri := Iri.member_iri owner_iri name (str "")
          let head :=
            [Emit.iri method_iri standard.RDF_TYPE tg.METHOD,
             Emit.lit method_iri tg.NAME name,
             Emit.iri owner_iri tg.HAS_MEMBER method_iri,
             Emit.iri method_iri tg.MEMBER_OF owner_iri,
             Emit.lit method_iri tg.ACCESSIBILITY (visibility_str item.visibility)]
          match item.inner with
          | .function sig generics has_body header =>
              let (de, st1) := extract_function_details ctx method_iri sig generics header st
              let ab := if !has_body then [Emit.boolE method_iri tg.IS_ABSTRACT true] else []
              let ee := if ctx.opts.extract_error_types then extract_error_type ctx method_iri sig else []
              (head ++ de ++ ab ++ ee, st1)
          | _ => (head, st)

/-- `CrateExtractor::extract_module_function`. -/
def extract_module_function (ctx : Ctx) (item : ItemR) (module_path : Str)
    (st : ExSt) : List Emit × ExSt :=
  match item.name with
  | none => ([], st)
  | some name =>
      let full_path := module_path ++ str "::" ++ name
      let module_iriV := moduleIri ctx module_path
      let fn_iri := Iri.member_iri module_iriV name (str "")
      let head :=
        [Emit.iri fn_iri standard.RDF_TYPE tg.METHOD,
         Emit.lit fn_iri tg.NAME name,
         Emit.lit fn_iri tg.FULL_NAME full_path,
         Emit.iri module_iriV tg.HAS_MEMBER fn_iri,
         Emit.iri fn_iri tg.MEMBER_OF module_iriV,
         Emit.lit fn_iri tg.ACCESSIBILITY (visibility_str item.visibility)]
      match item.inner with
      | .function sig generics _ header =>
          let (de, st1) := extract_function_details ctx fn_iri sig generics header st
          let ee := if ctx.opts.extract_error_types then extract_error_type ctx fn_iri sig else []
          (head ++ de ++ ee, st1)
      | _ => (head, st)

/-- `CrateExtractor::extract_field`. -/
def extract_field (ctx : Ctx) (field_id owner_iri : Str) : List Emit :=
  match alookup ctx.data.index field_id with
  | none => []
  | some item =>
      let name := item.name.getD (str "unnamed")
      match item.inner with
      | .structField ty =>
          let field_iri := Iri.member_iri owner_iri name (str "")
          [Emit.iri field_iri standard.RDF_TYPE tg.FIELD,
           Emit.lit field_iri tg.NAME name,
           Emit.iri owner_iri tg.HAS_MEMBER field_iri,
           Emit.iri field_iri tg.MEMBER_OF owner_iri,
           Emit.lit field_iri tg.ACCESSIBILITY (visibility_str item.visibility)] ++
          (match resolve_type_to_iri ctx ty with
           | some t => [Emit.iri field_iri tg.FIELD_TYPE t]
           | none => [])
      | _ => []

/-- `CrateExtractor::extract_variant_field`. -/
def extract_variant_field (ctx : Ctx) (field_id variant_iri : Str) : List Emit :=
  match alookup ctx.data.index field_id with
  | none => []
  | some item =>
      let name := item.name.getD (str "unnamed")
      match item.inner with
      | .structField ty =>
          let field_iri := Iri.member_iri variant_iri name (str "")
          [Emit.iri field_iri standard.RDF_TYPE tg.FIELD,
           Emit.lit field_iri tg.NAME name,
           Emit.iri variant_iri rt.VARIANT_FIELD field_iri] ++
          (match resolve_type_to_iri ctx ty with
           | some t => [Emit.iri field_iri tg.FIELD_TYPE t]
           | none => [])
      | _ => []

/-- `CrateExtractor::extract_variant`. -/
def extract_variant (ctx : Ctx) (variant_id enum_iri : Str) : List Emit :=
  match alookup ctx.data.index variant_id with
  | none => []
  | some item =>
      match item.name with
      | none => []
      | some name =>
          let variant_iri := Iri.variant_iri enum_iri name
          let head :=
            [Emit.iri variant_iri standard.RDF_TYPE rt.ENUM_VARIANT,
             Emit.lit variant_iri tg.NAME name,
             Emit.iri enum_iri rt.HAS_VARIANT variant_iri]
          match item.inner with
          | .variant d =>
              head ++
              (match d.kind with
               | .plain => [Emit.lit variant_iri rt.VARIANT_KIND (str "plain")]
               | .tuple field_ids =>
                   [Emit.lit variant_iri rt.VARIANT_KIND (str "tuple")] ++
                   (field_ids.filterMap id).flatMap
                     (fun fid => extract_variant_field ctx fid variant_iri)
               | .struct fields _ =>
                   [Emit.lit variant_iri rt.VARIANT_KIND (str "struct")] ++
                   fields.flatMap (fun fid => extract_variant_field ctx fid variant_iri))
          | _ => head

/-- `CrateExtractor::extract_derives_for_item`. -/
def extract_derives_for_item (ctx : Ctx) (item_id type_iriArg : Str) : List Emit :=
  match alookup ctx.data.index item_id with
  | none => []
  | some item =>
      let impl_ids :=
        match item.inner with
        | .struct _ _ impls => some impls
        | .enum _ _ _ impls => some impls
        | _ => none
      match impl_ids with
      | none => []
      | some impls =>
          impls.flatMap (fun imp_id =>
            match alookup ctx.data.index imp_id with
            | none => []
            | some imp_item =>
                let is_auto_derived := imp_item.attrs.any (fun attr =>
                  match attr with
                  | .str s => s = str "automatically_derived"
                  | _ => false)
                if !is_auto_derived then []
                else
                  match imp_item.inner with
                  | .impl _ (some trait_path) _ _ _ _ _ _ =>
                      [Emit.lit type_iriArg rt.DERIVES trait_path.path]
                  | _ => [])

/-- `CrateExtractor::extract_struct`. -/
def extract_struct (ctx : Ctx) (item_id : Str) (item : ItemR) (module_path : Str)
    (st : ExSt) : List Emit × ExSt :=
  match item.name with
  | none => ([], st)
  | some name =>
      let full_path := module_path ++ str "::" ++ name
      let type_iriV := typeIri ctx full_path
      if type_iriV ∈ st.types then ([], st)
      else
        let st := { st with types := type_iriV :: st.types }
        let head :=
          [Emit.iri type_iriV standard.RDF_TYPE tg.STRUCT,
           Emit.lit type_iriV tg.NAME name,
           Emit.lit type_iriV tg.FULL_NAME full_path,
           Emit.iri type_iriV tg.DEFINED_IN_ASSEMBLY (crateIri ctx),
           Emit.iri type_iriV tg.IN_NAMESPACE (moduleIri ctx module_path),
           Emit.lit type_iriV tg.ACCESSIBILITY (visibility_str item.visibility)]
        let (body, st1) :=
          match item.inner with
          | .struct kind generics _ =>
              let gflag := if hasTypeParams generics then [Emit.boolE type_iriV tg.IS_GENERIC true] else []
              let (ge, st') := extract_generics ctx generics type_iriV st
              let fe :=
                match kind with
                | .plain fields _ => fields.flatMap (fun fid => extract_field ctx fid type_iriV)
                | .tuple field_ids =>
                    (field_ids.filterMap id).flatMap (fun fid => extract_field ctx fid type_iriV)
                | .unit => []
              (gflag ++ ge ++ fe, st')
          | _ => ([], st)
        let de := if ctx.opts.extract_derives then extract_derives_for_item ctx item_id type_iriV else []
        (head ++ body ++ de, st1)

/-- `CrateExtractor::extract_enum`. -/
def extract_enum (ctx : Ctx) (item_id : Str) (item : ItemR) (module_path : Str)
    (st : ExSt) : List Emit × ExSt :=
  match item.name with
  | none => ([], st)
  | some name =>
      let full_path := module_path ++ str "::" ++ name
      let type_iriV := typeIri ctx full_path
      if type_iriV ∈ st.types then ([], st)
      else
        let st := { st with types := type_iriV :: st.types }
        let head :=
          [Emit.iri type_iriV standard.RDF_TYPE tg.ENUM,
           Emit.lit type_iriV tg.NAME name,
           Emit.lit type_iriV tg.FULL_NAME full_path,
           Emit.iri type_iriV tg.DEFINED_IN_ASSEMBLY (crateIri ctx),
           Emit.iri type_iriV tg.IN_NAMESPACE (moduleIri ctx module_path),
           Emit.lit type_iriV tg.ACCESSIBILITY (visibility_str item.visibility)]
        let (body, st1) :=
          match item.inner with
          | .enum generics variants _ _ =>
              let gflag := if hasTypeParams generics then [Emit.boolE type_iriV tg.IS_GENERIC true] else []
              let (ge, st') := extract_generics ctx generics type_iriV st
              let ve := variants.flatMap (fun vid => extract_variant ctx vid type_iriV)
              (gflag ++ ge ++ ve, st')
          | _ => ([], st)
        let de := if ctx.opts.extract_derives then extract_derives_for_item ctx item_id type_iriV else []
        (head ++ body ++ de, st1)

/-- The trait-method loop of `extract_trait`. -/
def trait_methods_loop (ctx : Ctx) (type_iriArg : Str) :
    List Str → ExSt → List Emit × ExSt
  | [], st => ([], st)
  | mid :: rest, st =>
      let (e1, st1) := extract_type_method ctx mid type_iriArg st
      let (e2, st2) := trait_methods_loop ctx type_iriArg rest st1
      (e1 ++ e2, st2)

/-- `CrateExtractor::extract_trait`. -/
def extract_trait (ctx : Ctx) (item : ItemR) (module_path : Str) (st : ExSt) :
    List Emit × ExSt :=
  match item.name with
  | none => ([], st)
  | some name =>
      let full_path := module_path ++ str "::" ++ name
      let type_iriV := typeIri ctx full_path
      if type_iriV ∈ st.types then ([], st)
      else
        let st := { st with types := type_iriV :: st.types }
        let head :=
          [Emit.iri type_iriV standard.RDF_TYPE tg.INTERFACE,
           Emit.iri type_iriV standard.RDF_TYPE rt.TRAIT,
           Emit.lit type_iriV tg.NAME name,
           Emit.lit type_iriV tg.FULL_NAME full_path,
           Emit.iri type_iriV tg.DEFINED_IN_ASSEMBLY (crateIri ctx),
           Emit.iri type_iriV tg.IN_NAMESPACE (moduleIri ctx module_path),
           Emit.lit type_iriV tg.ACCESSIBILITY (visibility_str item.visibility)]
        match item.inner with
        | .trait generics bounds items _ _ traitUnsafe _ =>
            let uflag := if traitUnsafe then [Emit.boolE type_iriV rt.IS_UNSAFE true] else []
            let gflag := if hasTypeParams generics then [Emit.boolE type_iriV tg.IS_GENERIC true] else []
            let (ge, st1) := extract_generics ctx generics type_iriV st
            let (se, st2) := bounds_loop ctx type_iriV rt.SUPER_TRAIT bounds st1
            let (me, st3) := trait_methods_loop ctx type_iriV items st2
            (head ++ uflag ++ gflag ++ ge ++ se ++ me, st3)
        | _ => (head, st)

/-- `CrateExtractor::extract_constant`. -/
def extract_constant (ctx : Ctx) (item : ItemR) (module_path : Str) : List Emit :=
  match item.name with
  | none => []
  | some name =>
      let module_iriV := moduleIri ctx module_path
      let const_iri := Iri.member_iri module_iriV name (str "")
      [Emit.iri const_iri standard.RDF_TYPE tg.FIELD,
       Emit.iri const_iri standard.RDF_TYPE rt.CONSTANT,
       Emit.lit const_iri tg.NAME name,
       Emit.boolE const_iri tg.IS_CONST true,
       Emit.iri module_iriV tg.HAS_MEMBER const_iri,
       Emit.iri const_iri tg.MEMBER_OF module_iriV,
       Emit.lit const_iri tg.ACCESSIBILITY (visibility_str item.visibility)] ++
      (match item.inner with
       | .constant type_ _ =>
           match resolve_type_to_iri ctx type_ with
           | some t => [Emit.iri const_iri tg.FIELD_TYPE t]
           | none => []
       | _ => [])

/-- `CrateExtractor::extract_static`. -/
def extract_static (ctx : Ctx) (item : ItemR) (module_path : Str) : List Emit :=
  match item.name with
  | none => []
  | some name =>
      let module_iriV := moduleIri ctx module_path
      let static_iri := Iri.member_iri module_iriV name (str "")
      [Emit.iri static_iri standard.RDF_TYPE rt.STATIC,
       Emit.lit static_iri tg.NAME name,
       Emit.iri module_iriV tg.HAS_MEMBER static_iri,
       Emit.iri static_iri tg.MEMBER_OF module_iriV,
       Emit.lit static_iri tg.ACCESSIBILITY (visibility_str item.visibility)] ++
      (match item.inner with
       | .static type_ is_mutable _ _ =>
           (if is_mutable then [Emit.boolE static_iri rt.IS_MUTABLE true] else []) ++
           (match resolve_type_to_iri ctx type_ with
            | some t => [Emit.iri static_iri tg.FIELD_TYPE t]
            | none => [])
       | _ => [])

/-- `CrateExtractor::extract_type_alias`. -/
def extract_type_alias (ctx : Ctx) (item : ItemR) (module_path : Str) (st : ExSt) :
    List Emit × ExSt :=
  match item.name with
  | none => ([], st)
  | some name =>
      let full_path := module_path ++ str "::" ++ name
      let type_iriV := typeIri ctx full_path
      if type_iriV ∈ st.types then ([], st)
      else
        let st := { st with types := type_iriV :: st.types }
        let head :=
          [Emit.iri type_iriV standard.RDF_TYPE rt.TYPE_ALIAS,
           Emit.lit type_iriV tg.NAME name,
           Emit.lit type_iriV tg.FULL_NAME full_path,
           Emit.iri type_iriV tg.DEFINED_IN_ASSEMBLY (crateIri ctx),
           Emit.iri type_iriV tg.IN_NAMESPACE (moduleIri ctx module_path),
           Emit.lit type_iriV tg.ACCESSIBILITY (visibility_str item.visibility)]
        let tail :=
          match item.inner with
          | .typeAlias _ (some target_type) =>
              match resolve_type_to_iri ctx target_type with
              | some t => [Emit.iri type_iriV tg.RELATED_TO t]
              | none => []
          | _ => []
        (head ++ tail, st)

/-- `CrateExtractor::extract_union`. -/
def extract_union (ctx : Ctx) (item : ItemR) (module_path : Str) (st : ExSt) :
    List Emit × ExSt :=
  match item.name with
  | none => ([], st)
  | some name =>
      let full_path := module_path ++ str "::" ++ name
      let type_iriV := typeIri ctx full_path
      if type_iriV ∈ st.types then ([], st)
      else
        let st := { st with types := type_iriV :: st.types }
        let head :=
          [Emit.iri type_iriV standard.RDF_TYPE rt.UNION,
           Emit.lit type_iriV tg.NAME name,
           Emit.lit type_iriV tg.FULL_NAME full_path,
           Emit.iri type_iriV tg.DEFINED_IN_ASSEMBLY (crateIri ctx),
           Emit.iri type_iriV tg.IN_NAMESPACE (moduleIri ctx module_path),
           Emit.lit type_iriV tg.ACCESSIBILITY (visibility_str item.visibility)]
        match item.inner with
        | .union generics fields _ _ =>
            let (ge, st1) := extract_generics ctx generics type_iriV st
            let fe := fields.flatMap (fun fid => extract_field ctx fid type_iriV)
            (head ++ ge ++ fe, st1)
        | _ => (head, st)

/-- Index of the last occurrence of `::` in a path, if any. -/
def lastSepIdx (s : Str) : Option Nat :=
  ((List.range s.length).filter (fun i => starts (s.drop i) (str "::"))).max?

/-- Rust's `str::rsplit_once("::")`: split at the last occurrence. -/
def rsplitOnceSep (s : Str) : Option (Str × Str) :=
  match lastSepIdx s with
  | some i => some (s.take i, s.drop (i + 2))
  | none => none

/-- `CrateExtractor::emit_module_node`. -/
def emit_module_node (ctx : Ctx) (module_path : Str) (item : ItemR) (st : ExSt) :
    List Emit × ExSt :=
  if module_path ∈ st.mods then ([], st)
  else
    let st := { st with mods := module_path :: st.mods }
    let module_iriV := moduleIri ctx module_path
    let name := item.name.getD module_path
    let parent :=
      match rsplitOnceSep module_path with
      | some (parent_path, _) =>
          [Emit.iri module_iriV tg.PARENT_NAMESPACE (moduleIri ctx parent_path)]
      | none => []
    ([Emit.iri module_iriV standard.RDF_TYPE rt.MODULE,
      Emit.iri module_iriV standard.RDF_TYPE tg.NAMESPACE,
      Emit.lit module_iriV tg.NAME name,
      Emit.lit module_iriV tg.FULL_NAME module_path,
      Emit.iri module_iriV tg.DEFINED_IN_ASSEMBLY (crateIri ctx),
      Emit.lit module_iriV tg.ACCESSIBILITY (visibility_str item.visibility)] ++ parent,
     st)

mutual

/-- `CrateExtractor::walk_module`, with explicit recursion fuel (the Rust
code trusts the rustdoc item graph to be acyclic). -/
def walk_module : Nat → Ctx → Str → Str → ExSt → List Emit × ExSt
  | 0, _, _, _, st => ([], st)
  | fuel + 1, ctx, item_id, module_path, st =>
      match alookup ctx.data.index item_id with
      | none => ([], st)
      | some item =>
          match item.inner with
          | .module items _ =>
              let is_root := item_id = ctx.data.root
              let (e1, st1) :=
                if is_root then ([], st) else emit_module_node ctx module_path item st
              let (e2, st2) := walk_items fuel ctx items module_path st1
              (e1 ++ e2, st2)
          | _ => ([], st)

/-- The child loop of `walk_module`. -/
def walk_items : Nat → Ctx → List Str → Str → ExSt → List Emit × ExSt
  | 0, _, _, _, st => ([], st)
  | _ + 1, _, [], _, st => ([], st)
  | fuel + 1, ctx, child_id :: rest, module_path, st =>
      let (e1, st1) := walk_item fuel ctx child_id module_path st
      let (e2, st2) := walk_items fuel ctx rest module_path st1
      (e1 ++ e2, st2)

/-- `CrateExtractor::walk_item`: per-declaration dispatch. -/
def walk_item : Nat → Ctx → Str → Str → ExSt → List Emit × ExSt
  | 0, _, _, _, st => ([], st)
  | fuel + 1, ctx, item_id, parent_module_path, st =>
      match alookup ctx.data.index item_id with
      | none => ([], st)
      | some item =>
          match item.inner with
          | .module _ _ =>
              let name := item.name.getD (str "unnamed")
              let child_path := parent_module_path ++ str "::" ++ name
              walk_module fuel ctx item_id child_path st
          | .struct _ _ _ => extract_struct ctx item_id item parent_module_path st
          | .enum _ _ _ _ => extract_enum ctx item_id item parent_module_path st
          | .trait _ _ _ _ _ _ _ => extract_trait ctx item parent_module_path st
          | .function _ _ _ _ => extract_module_function ctx item parent_module_path st
          | .constant _ _ => (extract_constant ctx item parent_module_path, st)
          | .static _ _ _ _ => (extract_static ctx item parent_module_path, st)
          | .typeAlias _ _ => extract_type_alias ctx item parent_module_path st
          | .union _ _ _ _ => extract_union ctx item parent_module_path st
          | .useItem _ _ _ _ => ([], st)
          | .impl _ _ _ _ _ _ _ _ => ([], st)
          | _ => ([], st)

end

/-- `CrateExtractor::extract_impl_item`. -/
def extract_impl_item (ctx : Ctx) (item_id owner_iri : Str) (st : ExSt) :
    List Emit × ExSt :=
  match alookup ctx.data.index item_id with
  | none => ([], st)
  | some item =>
      match item.inner with
      | .function _ _ _ _ => extract_type_method ctx item_id owner_iri st
      | .assocType _ _ _ =>
          (match item.name with
           | some name =>
               let member_iriV := Iri.member_iri owner_iri name (str "")
               [Emit.iri member_iriV standard.RDF_TYPE tg.MEMBER,
                Emit.lit member_iriV tg.NAME name,
                Emit.iri owner_iri tg.HAS_MEMBER member_iriV]
           | none => [], st)
      | .assocConst _ _ =>
          (match item.name with
           | some name =>
               let member_iriV := Iri.member_iri owner_iri name (str "")
               [Emit.iri member_iriV standard.RDF_TYPE tg.MEMBER,
                Emit.lit member_iriV tg.NAME name,
                Emit.iri owner_iri tg.HAS_MEMBER member_iriV]
           | none => [], st)
      | _ => ([], st)

/-- The member loop of `process_impl`: for inherent impls members belong to
the target type, for trait impls to the impl node. -/
def impl_items_loop (ctx : Ctx) (trait_ : Option ResolvedPathR)
    (for_iri impl_iriV : Str) : List Str → ExSt → List Emit × ExSt
  | [], st => ([], st)
  | method_id :: rest, st =>
      let owner_iri := if trait_.isNone then for_iri else impl_iriV
      let (e1, st1) := extract_impl_item ctx method_id owner_iri st
      let (e2, st2) := impl_items_loop ctx trait_ for_iri impl_iriV rest st1
      (e1 ++ e2, st2)

/-- `CrateExtractor::process_impl`. -/
def process_impl (ctx : Ctx) (impl_id : Str) (st : ExSt) : List Emit × ExSt :=
  match alookup ctx.data.index impl_id with
  | none => ([], st)
  | some item =>
      match item.inner with
      | .impl _ trait_ for_ items _ _ is_synthetic blanket_impl =>
          if is_synthetic || blanket_impl.isSome then ([], st)
          else
            match resolve_type_to_iri ctx for_ with
            | none => ([], st)
            | some for_iri =>
                if for_iri ∉ st.types then ([], st)
                else
                  let impl_iriV := Iri.impl_iri ctx.base ctx.crateName ctx.crateVersion impl_id
                  let (head, st1) :=
                    match trait_ with
                    | some trait_path =>
                        let trait_iri := resolve_path_to_iri ctx trait_path
                        let (ee, st') := ensure_external_type_emitted st trait_iri trait_path.path
                        ([Emit.iri impl_iriV standard.RDF_TYPE rt.TRAIT_IMPL,
                          Emit.iri impl_iriV rt.IMPL_FOR for_iri,
                          Emit.iri impl_iriV rt.IMPL_TRAIT trait_iri,
                          Emit.iri for_iri tg.IMPLEMENTS trait_iri] ++ ee, st')
                    | none =>
                        ([Emit.iri impl_iriV standard.RDF_TYPE rt.INHERENT_IMPL,
                          Emit.iri impl_iriV rt.IMPL_FOR for_iri], st)
                  let (me, st2) := impl_items_loop ctx trait_ for_iri impl_iriV items st1
                  (head ++ me, st2)
      | _ => ([], st)

/-- The loop of `process_all_impls`. -/
def impls_loop (ctx : Ctx) : List Str → ExSt → List Emit × ExSt
  | [], st => ([], st)
  | impl_id :: rest, st =>
      let (e1, st1) := process_impl ctx impl_id st
      let (e2, st2) := impls_loop ctx rest st1
      (e1 ++ e2, st2)

/-- `CrateExtractor::process_all_impls`: one flat scan of the whole index in
its iteration order. -/
def process_all_impls (ctx : Ctx) (st : ExSt) : List Emit × ExSt :=
  let impl_ids :=
    (ctx.data.index.filter (fun kv =>
      match kv.2.inner with | .impl _ _ _ _ _ _ _ _ => true | _ => false)).map (·.1)
  impls_loop ctx impl_ids st

/-- `CrateExtractor::register_prefixes`. -/
def register_prefixes : List Emit :=
  [.addNs (str "rdf") standard.RDF,
   .addNs (str "rdfs") standard.RDFS,
   .addNs (str "xsd") standard.XSD,
   .addNs (str "tg") tg.NS,
   .addNs (str "rt") rt.NS]

/-- `CrateExtractor::emit_crate_node`. -/
def emit_crate_node (ctx : Ctx) : List Emit :=
  let crate_iriV := crateIri ctx
  [Emit.iri crate_iriV standard.RDF_TYPE rt.CRATE,
   Emit.iri crate_iriV standard.RDF_TYPE tg.ASSEMBLY,
   Emit.lit crate_iriV tg.NAME ctx.crateName,
   Emit.lit crate_iriV tg.LANGUAGE (str "rust"),
   Emit.lit crate_iriV tg.VERSION ctx.crateVersion]

/-- `CrateExtractor::emit_external_crates`: iterate the external-crate table
in its iteration order, emitting a dependency edge and a stub node per unit
with the `0.0.0` placeholder version. -/
def emit_external_crates (ctx : Ctx) : List Emit :=
  let crate_iriV := crateIri ctx
  ctx.data.external_crates.flatMap (fun kv =>
    let dep_iri := Iri.crate_iri ctx.base kv.2.name (str "0.0.0")
    [Emit.iri crate_iriV rt.DEPENDS_ON dep_iri,
     Emit.iri dep_iri standard.RDF_TYPE rt.CRATE,
     Emit.lit dep_iri tg.NAME kv.2.name])

/-- `CrateExtractor::extract`: the full pipeline over one parsed document. -/
def extract (data : CrateR) (opts : OptionsR) (fuel : Nat) : List Emit :=
  let ctx := mkCtx data opts
  let st0 : ExSt := ⟨[], []⟩
  let (e1, st1) := walk_module fuel ctx ctx.data.root ctx.crateName st0
  let (e2, _) :=
    if ctx.opts.include_impls then process_all_impls ctx st1 else ([], st1)
  register_prefixes ++ emit_crate_node ctx ++ emit_external_crates ctx ++ e1 ++ e2

/-- Value of an uppercase-hex digit character. -/
def hexVal (c : Char) : Nat :=
  if 48 ≤ c.toNat ∧ c.toNat ≤ 57 then c.toNat - 48
  else if 65 ≤ c.toNat ∧ c.toNat ≤ 70 then c.toNat - 55
  else 0

mutual

/-- Decoder for the N-Triples literal escaping (the inverse reading of the
fixed escape table; used to state that escaping loses no information). -/
def ntUnescape : Str → Str
  | [] => []
  | c :: rest => if c = bsC then ntUnescapeEsc rest else c :: ntUnescape rest
  termination_by l => (l.length, 0)
  decreasing_by all_goals (simp_wf; first
    | (apply Prod.Lex.left; omega)
    | (apply Prod.Lex.right; omega))

/-- Decoder state after a backslash has been consumed. -/
def ntUnescapeEsc : Str → Str
  | [] => [bsC]
  | d :: rest2 =>
      if d = bsC then bsC :: ntUnescape rest2
      else if d = quC then quC :: ntUnescape rest2
      else if d = 'n' then nlC :: ntUnescape rest2
      else if d = 'r' then crC :: ntUnescape rest2
      else if d = 't' then tbC :: ntUnescape rest2
      else if d = 'u' then ntUnescapeHex d rest2
      else d :: ntUnescape rest2
  termination_by l => (l.length, 2)
  decreasing_by all_goals (simp_wf; first
    | (apply Prod.Lex.left; omega)
    | (apply Prod.Lex.right; omega))

/-- Decoder state after a `\u` has been consumed: read four hex digits. -/
def ntUnescapeHex (d : Char) : Str → Str
  | h3 :: h2 :: h1 :: h0 :: rest3 =>
      Char.ofNat (4096 * hexVal h3 + 256 * hexVal h2 + 16 * hexVal h1 + hexVal h0)
        :: ntUnescape rest3
  | l => d :: ntUnescape l
  termination_by l => (l.length, 1)
  decreasing_by all_goals (simp_wf; first
    | (apply Prod.Lex.left; omega)
    | (apply Prod.Lex.right; omega))

end


/-- Uppercase hexadecimal digit character class. -/
def isUpHexDigit (c : Char) : Bool :=
  (48 ≤ c.toNat && c.toNat ≤ 57) || (65 ≤ c.toNat && c.toNat ≤ 70)


-- ---------------------------------------------------------------------------
-- Namespace-emission counting (statement apparatus for the walk invariant)
-- ---------------------------------------------------------------------------

/-- The namespace-declaration triple of a dotted module path: the second
`rdf:type` statement of `emit_module_node`. -/
def nsTriple (ctx : Ctx) (p : Str) : Emit :=
  Emit.iri (moduleIri ctx p) standard.RDF_TYPE tg.NAMESPACE

/-- Number of namespace-declaration triples for path `p` in an emission
list. -/
def countNSP (ctx : Ctx) (p : Str) (out : List Emit) : Nat :=
  out.count (nsTriple ctx p)

/-- Whether an emission is a parent-namespace edge whose subject is the
module node of path `p`. -/
def isPNSEdgeFrom (ctx : Ctx) (p : Str) : Emit → Bool
  | Emit.iri s pr _ => decide (pr = tg.PARENT_NAMESPACE) && decide (s = moduleIri ctx p)
  | _ => false

/-- Number of parent-namespace edges out of the module node of path `p`. -/
def countPE (ctx : Ctx) (p : Str) (out : List Emit) : Nat :=
  out.countP (isPNSEdgeFrom ctx p)

/-- Emissions that declare a namespace node or link parent namespaces;
everything outside `emit_module_node` emits none of these. -/
def nsLike : Emit → Bool
  | Emit.iri _ pr o =>
      (decide (pr = standard.RDF_TYPE) && decide (o = tg.NAMESPACE))
        || decide (pr = tg.PARENT_NAMESPACE)
  | _ => false

/-- The dotted path truncated at its last `::` separator. -/
def parentOf (p : Str) : Str :=
  match rsplitOnceSep p with
  | some q => q.1
  | none => []

/-- The canonical parent-namespace edge of a module path: its object is the
module IRI minted from the truncated path. -/
def pnsTriple (ctx : Ctx) (p : Str) : Emit :=
  Emit.iri (moduleIri ctx p) tg.PARENT_NAMESPACE (moduleIri ctx (parentOf p))

-- ---------------------------------------------------------------------------
-- Wire-format tag dispatch (serde-derived deserializers of rustdoc_model.rs)
-- ---------------------------------------------------------------------------

/-- The externally-tagged wire tags of `ItemEnum` (variant names under
`rename_all = "snake_case"`, with `Impl`'s fields renamed separately). -/
def itemEnumTags : List Str :=
  [str "module", str "struct", str "union", str "enum", str "variant",
   str "function", str "trait", str "impl", str "use", str "type_alias",
   str "constant", str "static", str "struct_field", str "macro",
   str "assoc_const", str "assoc_type"]

/-- The payload-carrying wire tags of `Type`. -/
def typeTags : List Str :=
  [str "resolved_path", str "primitive", str "tuple", str "slice", str "array",
   str "raw_pointer", str "borrowed_ref", str "function_pointer",
   str "qualified_path", str "impl_trait", str "dyn_trait", str "generic"]

/-- The unit-variant wire tags of `Type`. -/
def typeUnitTags : List Str := [str "infer"]

/-- The payload-carrying wire tags of `GenericParamDefKind`. -/
def genericParamDefKindTags : List Str :=
  [str "lifetime", str "type", str "const"]

/-- Result of the tag-dispatch stage of an externally tagged enum
deserializer: either a recognized variant tag (whose payload is parsed by
the per-variant code, outside this dispatch model) or the `#[serde(other)]`
catch-all variant. -/
inductive TagParse where
  | recognized (tag : Str) (payload : Option Json)
  | unknownTag

/-- Tag dispatch of a serde externally tagged enum carrying a
`#[serde(other)]` unit catch-all, as generated for the declarations in
`rustdoc_model.rs`.  Per serde's semantics — documented by this repository's
own model tests ("serde(other) catches unrecognized tags when the value is
absent or null; for tags with object values, serde cannot deserialize into
the unit Unknown variant") — a single-key map dispatches on its key: an
unrecognized key parses to the catch-all only when its payload is null and
fails otherwise; a bare string parses to the catch-all for an unrecognized
name and fails for a recognized payload-carrying one. -/
def tagDispatch (payloadTags unitTags : List Str) : Json → Except Str TagParse
  | .obj [(tag, payload)] =>
      if tag ∈ payloadTags ∨ tag ∈ unitTags then .ok (.recognized tag (some payload))
      else
        match payload with
        | .null => .ok .unknownTag
        | _ => .error (str "invalid type: non-unit payload for unknown variant tag")
  | .str tag =>
      if tag ∈ payloadTags then
        .error (str "invalid type: unit form for payload-carrying variant")
      else .ok (if tag ∈ unitTags then .recognized tag none else .unknownTag)
  | .obj _ => .error (str "expected map with a single key")
  | _ => .error (str "expected string or map")

/-- The tag-dispatch of the `ItemEnum` deserializer. -/
def itemEnumFromJson (j : Json) : Except Str TagParse := tagDispatch itemEnumTags [] j

/-- The tag-dispatch of the `Type` deserializer. -/
def typeFromJson (j : Json) : Except Str TagParse := tagDispatch typeTags typeUnitTags j

/-- The tag-dispatch of the `GenericParamDefKind` deserializer. -/
def genericParamDefKindFromJson (j : Json) : Except Str TagParse :=
  tagDispatch genericParamDefKindTags [] j

/-- `Item.inner` carries `#[serde(default)]`: an absent field parses as
`ItemEnum::Unknown` via the `Default` derive. -/
def itemInnerField : Option Json → Except Str TagParse
  | none => .ok .unknownTag
  | some j => itemEnumFromJson j

/-- `Id::deserialize`: the custom visitor accepts a JSON string as-is and a
JSON integer as its decimal rendering; every other value is rejected. -/
def idFromJson : Json → Except Str Str
  | .str s => .ok s
  | .num n => .ok (intStr n)
  | _ => .error (str "a string or integer ID")

-- ---------------------------------------------------------------------------
-- Helper lemmas: characters, hex digits, decimal rendering
-- ---------------------------------------------------------------------------

theorem charToNat_inj {c d : Char} (h : c.toNat = d.toNat) : c = d := by
  have hv : c.val = d.val := UInt32.toNat.inj h
  exact Char.eq_of_val_eq hv

theorem hexDigitU_toNat {n : Nat} (h : n < 16) :
    (hexDigitU n).toNat = if n < 10 then 48 + n else 55 + n := by
  interval_cases n <;> decide

theorem hexDigitU_inj {m n : Nat} (hm : m < 16) (hn : n < 16)
    (h : hexDigitU m = hexDigitU n) : m = n := by
  have := hexDigitU_toNat hm
  have := hexDigitU_toNat hn
  have hto : (hexDigitU m).toNat = (hexDigitU n).toNat := by rw [h]
  rw [hexDigitU_toNat hm, hexDigitU_toNat hn] at hto
  split_ifs at hto <;> omega

theorem hexDigitU_toNat_range {n : Nat} (h : n < 16) :
    (48 ≤ (hexDigitU n).toNat ∧ (hexDigitU n).toNat ≤ 57) ∨
    (65 ≤ (hexDigitU n).toNat ∧ (hexDigitU n).toNat ≤ 70) := by
  rw [hexDigitU_toNat h]
  split_ifs <;> omega

theorem toDecAux_eq (n : Nat) (acc : Str) :
    toDecAux n acc =
      if n < 10 then hexDigitU n :: acc
      else toDecAux (n / 10) (hexDigitU (n % 10) :: acc) := by
  rw [toDecAux]
  split_ifs <;> rfl

theorem toDecAux_shift (n : Nat) : ∀ acc, toDecAux n acc = toDecAux n [] ++ acc := by
  induction n using Nat.strong_induction_on with
  | _ n ih =>
    intro acc
    by_cases h : n < 10
    · rw [toDecAux_eq n acc, toDecAux_eq n []]
      simp [h]
    · have hd : n / 10 < n := by omega
      rw [toDecAux_eq n acc, toDecAux_eq n []]
      simp only [h, if_false, if_neg]
      rw [ih _ hd (hexDigitU (n % 10) :: acc), ih _ hd (hexDigitU (n % 10) :: [])]
      simp

theorem natStr_small {n : Nat} (h : n < 10) : natStr n = [hexDigitU n] := by
  rw [natStr, toDecAux]
  simp [h]

theorem natStr_large {n : Nat} (h : ¬ n < 10) :
    natStr n = natStr (n / 10) ++ [hexDigitU (n % 10)] := by
  rw [natStr, toDecAux]
  simp only [h, dif_neg]
  exact toDecAux_shift (n / 10) [hexDigitU (n % 10)]

theorem natStr_ne_nil (n : Nat) : natStr n ≠ [] := by
  by_cases h : n < 10
  · rw [natStr_small h]; simp
  · rw [natStr_large h]; simp

theorem natStr_mem {n : Nat} : ∀ c ∈ natStr n, ∃ d, d < 10 ∧ c = hexDigitU d := by
  induction n using Nat.strong_induction_on with
  | _ n ih =>
    intro c hc
    by_cases h : n < 10
    · rw [natStr_small h] at hc
      simp at hc
      exact ⟨n, h, hc⟩
    · rw [natStr_large h] at hc
      rcases List.mem_append.mp hc with h1 | h2
      · exact ih (n / 10) (by omega) c h1
      · simp at h2
        exact ⟨n % 10, by omega, h2⟩

theorem natStr_inj : ∀ m n : Nat, natStr m = natStr n → m = n := by
  intro m
  induction m using Nat.strong_induction_on with
  | _ m ih =>
    intro n h
    by_cases hm : m < 10 <;> by_cases hn : n < 10
    · rw [natStr_small hm, natStr_small hn] at h
      simp at h
      exact hexDigitU_inj (by omega) (by omega) h
    · rw [natStr_small hm, natStr_large hn] at h
      have hlen := congrArg List.length h
      have := natStr_ne_nil (n / 10)
      rcases hne : natStr (n / 10) with _ | ⟨c, cs⟩
      · exact absurd hne this
      · rw [hne] at hlen
        simp at hlen
    · rw [natStr_large hm, natStr_small hn] at h
      have hlen := congrArg List.length h
      have := natStr_ne_nil (m / 10)
      rcases hne : natStr (m / 10) with _ | ⟨c, cs⟩
      · exact absurd hne this
      · rw [hne] at hlen
        simp at hlen
    · rw [natStr_large hm, natStr_large hn] at h
      have h2 : (natStr (m / 10) ++ [hexDigitU (m % 10)]).reverse
          = (natStr (n / 10) ++ [hexDigitU (n % 10)]).reverse := by rw [h]
      simp at h2
      obtain ⟨hd, ht⟩ := h2
      have hdiv : m / 10 = n / 10 := ih (m / 10) (by omega) (n / 10) (by
        have : (natStr (m / 10)).reverse.reverse = (natStr (n / 10)).reverse.reverse := by
          rw [ht]
        simpa using this)
      have hmod : m % 10 = n % 10 := hexDigitU_inj (by omega) (by omega) hd
      omega

theorem natStr_no_slash {n : Nat} : ∀ c ∈ natStr n, c.toNat ≠ 47 := by
  intro c hc
  obtain ⟨d, hd, rfl⟩ := natStr_mem c hc
  rw [hexDigitU_toNat (by omega)]
  split_ifs <;> omega

-- ---------------------------------------------------------------------------
-- Helper lemmas: percent escaping
-- ---------------------------------------------------------------------------

theorem shouldEscape_lt {c : Char} (h : Iri.shouldEscape c = true) : c.toNat < 128 := by
  rw [Iri.shouldEscape] at h
  simp only [Bool.or_eq_true, decide_eq_true_eq, beq_iff_eq] at h
  rcases h with (h | h) | h
  · omega
  · omega
  · fin_cases h <;> decide

theorem escChar_esc {c : Char} (h : Iri.shouldEscape c = true) :
    Iri.escChar c = ['%', hexDigitU (c.toNat / 16 % 16), hexDigitU (c.toNat % 16)] := by
  simp [Iri.escChar, hexByte, h]

theorem escChar_plain {c : Char} (h : Iri.shouldEscape c = false) :
    Iri.escChar c = [c] := by
  simp [Iri.escChar, h]

theorem escChar_ne_nil (c : Char) : Iri.escChar c ≠ [] := by
  by_cases h : Iri.shouldEscape c
  · rw [escChar_esc h]; simp
  · rw [escChar_plain (by simpa using h)]; simp

theorem escape_inj : ∀ s t : Str, Iri.escape s = Iri.escape t → s = t := by
  intro s
  induction s with
  | nil =>
    intro t h
    cases t with
    | nil => rfl
    | cons d ds =>
      rw [Iri.escape, Iri.escape] at h
      rcases hne : Iri.escChar d with _ | ⟨x, xs⟩
      · exact absurd hne (escChar_ne_nil d)
      · rw [hne] at h
        simp at h
  | cons c cs ih =>
    intro t h
    cases t with
    | nil =>
      rw [Iri.escape, Iri.escape] at h
      rcases hne : Iri.escChar c with _ | ⟨x, xs⟩
      · exact absurd hne (escChar_ne_nil c)
      · rw [hne] at h
        simp at h
    | cons d ds =>
      rw [Iri.escape, Iri.escape] at h
      by_cases hc : Iri.shouldEscape c <;> by_cases hd : Iri.shouldEscape d
      · rw [escChar_esc hc, escChar_esc hd] at h
        simp at h
        obtain ⟨h1, h2, h3⟩ := h
        have e1 : c.toNat / 16 % 16 = d.toNat / 16 % 16 :=
          hexDigitU_inj (Nat.mod_lt _ (by omega)) (Nat.mod_lt _ (by omega)) h1
        have e2 : c.toNat % 16 = d.toNat % 16 :=
          hexDigitU_inj (Nat.mod_lt _ (by omega)) (Nat.mod_lt _ (by omega)) h2
        have hcl := shouldEscape_lt hc
        have hdl := shouldEscape_lt hd
        have e3 : c.toNat = d.toNat := by omega
        rw [charToNat_inj e3, ih ds h3]
      · rw [escChar_esc hc, escChar_plain (by simpa using hd)] at h
        simp at h
        obtain ⟨h1, -⟩ := h
        rw [← h1] at hd
        simp [Iri.shouldEscape] at hd
      · rw [escChar_plain (by simpa using hc), escChar_esc hd] at h
        simp at h
        obtain ⟨h1, -⟩ := h
        rw [h1] at hc
        simp [Iri.shouldEscape] at hc
      · rw [escChar_plain (by simpa using hc), escChar_plain (by simpa using hd)] at h
        simp at h
        obtain ⟨h1, h2⟩ := h
        rw [h1, ih ds h2]

theorem escape_safe {s : Str} :
    ∀ x ∈ Iri.escape s, x.toNat ≠ 47 ∧ x.toNat ≠ 40 ∧ x.toNat ≠ 41 := by
  induction s with
  | nil => intro x hx; simp [Iri.escape] at hx
  | cons c cs ih =>
    intro x hx
    rw [Iri.escape] at hx
    rcases List.mem_append.mp hx with h | h
    · by_cases hc : Iri.shouldEscape c
      · rw [escChar_esc hc] at h
        simp at h
        rcases h with rfl | rfl | rfl
        · decide
        · rcases hexDigitU_toNat_range (n := c.toNat / 16 % 16) (Nat.mod_lt _ (by omega))
            with ⟨h1, h2⟩ | ⟨h1, h2⟩ <;> omega
        · rcases hexDigitU_toNat_range (n := c.toNat % 16) (Nat.mod_lt _ (by omega))
            with ⟨h1, h2⟩ | ⟨h1, h2⟩ <;> omega
      · rw [escChar_plain (by simpa using hc)] at h
        simp at h
        subst h
        refine ⟨?_, ?_, ?_⟩
        · intro hv
          have hx2 : x = '/' := charToNat_inj (by rw [hv]; decide)
          rw [hx2] at hc
          exact hc (by decide)
        · intro hv
          have hx2 : x = '(' := charToNat_inj (by rw [hv]; decide)
          rw [hx2] at hc
          exact hc (by decide)
        · intro hv
          have hx2 : x = ')' := charToNat_inj (by rw [hv]; decide)
          rw [hx2] at hc
          exact hc (by decide)
    · exact ih x h

/-- Splitting a concatenation at a separator whose right part is
separator-free is unambiguous. -/
theorem append_sep_inj (sep : Char) :
    ∀ (a1 : Str) {b1 a2 b2 : Str}, (∀ c ∈ b1, c ≠ sep) → (∀ c ∈ b2, c ≠ sep) →
      a1 ++ sep :: b1 = a2 ++ sep :: b2 → a1 = a2 ∧ b1 = b2 := by
  intro a1
  induction a1 with
  | nil =>
    intro b1 a2 b2 h1 h2 h
    cases a2 with
    | nil =>
      simp at h
      exact ⟨rfl, h⟩
    | cons y ys =>
      simp at h
      obtain ⟨rfl, h⟩ := h
      exact absurd rfl (h1 sep (by rw [h]; simp))
  | cons x xs ih =>
    intro b1 a2 b2 h1 h2 h
    cases a2 with
    | nil =>
      simp at h
      obtain ⟨rfl, h⟩ := h
      exact absurd rfl (h2 x (by rw [← h]; simp))
    | cons y ys =>
      simp at h
      obtain ⟨rfl, h⟩ := h
      obtain ⟨ha, hb⟩ := ih h1 h2 h
      exact ⟨by rw [ha], hb⟩

/-- No character of an escaped string is a slash. -/
theorem escape_no_slash {s : Str} : ∀ c ∈ Iri.escape s, c ≠ '/' := by
  intro c hc he
  have := (escape_safe c hc).1
  rw [he] at this
  exact this (by decide)

/-- No character of an escaped string is an opening parenthesis. -/
theorem escape_no_lparen {s : Str} : ∀ c ∈ Iri.escape s, c ≠ '(' := by
  intro c hc he
  have := (escape_safe c hc).2.1
  rw [he] at this
  exact this (by decide)

/-- No character of an escaped string is a closing parenthesis. -/
theorem escape_no_rparen {s : Str} : ∀ c ∈ Iri.escape s, c ≠ ')' := by
  intro c hc he
  have := (escape_safe c hc).2.2
  rw [he] at this
  exact this (by decide)

/-- No digit character of a decimal rendering is a slash. -/
theorem natStr_no_slash_chars {n : Nat} : ∀ c ∈ natStr n, c ≠ '/' := by
  intro c hc he
  have := natStr_no_slash c hc
  rw [he] at this
  exact this (by decide)

-- ---------------------------------------------------------------------------
-- IriMinter injectivity (per category)
-- ---------------------------------------------------------------------------

theorem two_esc_inj {x1 y1 x2 y2 : Str}
    (h : Iri.escape x1 ++ '/' :: Iri.escape y1 = Iri.escape x2 ++ '/' :: Iri.escape y2) :
    x1 = x2 ∧ y1 = y2 := by
  obtain ⟨h1, h2⟩ := append_sep_inj '/' _ escape_no_slash escape_no_slash h
  exact ⟨escape_inj _ _ h1, escape_inj _ _ h2⟩

theorem three_esc_inj {x1 y1 z1 x2 y2 z2 : Str}
    (h : Iri.escape x1 ++ '/' :: (Iri.escape y1 ++ '/' :: Iri.escape z1)
       = Iri.escape x2 ++ '/' :: (Iri.escape y2 ++ '/' :: Iri.escape z2)) :
    x1 = x2 ∧ y1 = y2 ∧ z1 = z2 := by
  have h' : (Iri.escape x1 ++ '/' :: Iri.escape y1) ++ '/' :: Iri.escape z1
      = (Iri.escape x2 ++ '/' :: Iri.escape y2) ++ '/' :: Iri.escape z2 := by
    simp only [List.append_assoc, List.cons_append]
    exact h
  obtain ⟨h1, h2⟩ := append_sep_inj '/' _ escape_no_slash escape_no_slash h'
  obtain ⟨h3, h4⟩ := two_esc_inj h1
  exact ⟨h3, h4, escape_inj _ _ h2⟩

theorem crate_iri_inj {base n1 v1 n2 v2 : Str}
    (h : Iri.crate_iri base n1 v1 = Iri.crate_iri base n2 v2) : n1 = n2 ∧ v1 = v2 := by
  rw [Iri.crate_iri, Iri.crate_iri] at h
  rw [show (str "/crate/" : Str) = str "/crate" ++ ['/'] from rfl,
      show (str "/" : Str) = ['/'] from rfl] at h
  simp only [List.append_assoc, List.singleton_append, List.cons_append] at h
  have h1 := List.append_cancel_left h
  have h2 := List.append_cancel_left h1
  simp only [List.cons.injEq, true_and] at h2
  exact two_esc_inj h2

theorem module_iri_inj {base n1 v1 p1 n2 v2 p2 : Str}
    (h : Iri.module_iri base n1 v1 p1 = Iri.module_iri base n2 v2 p2) :
    n1 = n2 ∧ v1 = v2 ∧ p1 = p2 := by
  rw [Iri.module_iri, Iri.module_iri] at h
  rw [show (str "/module/" : Str) = str "/module" ++ ['/'] from rfl,
      show (str "/" : Str) = ['/'] from rfl] at h
  simp only [List.append_assoc, List.singleton_append, List.cons_append] at h
  have h1 := List.append_cancel_left h
  have h2 := List.append_cancel_left h1
  simp only [List.cons.injEq, true_and] at h2
  exact three_esc_inj h2

theorem type_iri_inj {base n1 v1 p1 n2 v2 p2 : Str}
    (h : Iri.type_iri base n1 v1 p1 = Iri.type_iri base n2 v2 p2) :
    n1 = n2 ∧ v1 = v2 ∧ p1 = p2 := by
  rw [Iri.type_iri, Iri.type_iri] at h
  rw [show (str "/type/" : Str) = str "/type" ++ ['/'] from rfl,
      show (str "/" : Str) = ['/'] from rfl] at h
  simp only [List.append_assoc, List.singleton_append, List.cons_append] at h
  have h1 := List.append_cancel_left h
  have h2 := List.append_cancel_left h1
  simp only [List.cons.injEq, true_and] at h2
  exact three_esc_inj h2

theorem impl_iri_inj {base n1 v1 i1 n2 v2 i2 : Str}
    (h : Iri.impl_iri base n1 v1 i1 = Iri.impl_iri base n2 v2 i2) :
    n1 = n2 ∧ v1 = v2 ∧ i1 = i2 := by
  rw [Iri.impl_iri, Iri.impl_iri] at h
  rw [show (str "/impl/" : Str) = str "/impl" ++ ['/'] from rfl,
      show (str "/" : Str) = ['/'] from rfl] at h
  simp only [List.append_assoc, List.singleton_append, List.cons_append] at h
  have h1 := List.append_cancel_left h
  have h2 := List.append_cancel_left h1
  simp only [List.cons.injEq, true_and] at h2
  exact three_esc_inj h2

/-- The slash-free, paren-free suffix of a signature-bearing member IRI. -/
theorem member_sig_tail_no_slash {n s : Str} :
    ∀ c ∈ Iri.escape n ++ '(' :: (Iri.escape s ++ [')']), c ≠ '/' := by
  intro c hc
  rcases List.mem_append.mp hc with h | h
  · exact escape_no_slash c h
  · rcases List.mem_cons.mp h with rfl | h
    · decide
    · rcases List.mem_append.mp h with h | h
      · exact escape_no_slash c h
      · simp at h
        subst h
        decide

theorem member_iri_inj {o1 n1 s1 o2 n2 s2 : Str}
    (h : Iri.member_iri o1 n1 s1 = Iri.member_iri o2 n2 s2) :
    o1 = o2 ∧ n1 = n2 ∧ s1 = s2 := by
  rw [Iri.member_iri, Iri.member_iri] at h
  by_cases he1 : s1.isEmpty <;> by_cases he2 : s2.isEmpty
  · simp only [he1, he2, if_true] at h
    rw [show (str "/member/" : Str) = str "/member" ++ ['/'] from rfl] at h
    simp only [List.append_assoc, List.singleton_append] at h
    have h' : (o1 ++ str "/member") ++ '/' :: Iri.escape n1
        = (o2 ++ str "/member") ++ '/' :: Iri.escape n2 := by
      simp only [List.append_assoc]
      exact h
    obtain ⟨h1, h2⟩ := append_sep_inj '/' _ escape_no_slash escape_no_slash h'
    refine ⟨List.append_cancel_right h1, escape_inj _ _ h2, ?_⟩
    cases s1 with
    | nil => cases s2 with
      | nil => rfl
      | cons c cs => simp [List.isEmpty] at he2
    | cons c cs => simp [List.isEmpty] at he1
  · simp only [he1, he2, if_true, if_false] at h
    rw [show (str "/member/" : Str) = str "/member" ++ ['/'] from rfl,
        show (str "(" : Str) = ['('] from rfl,
        show (str ")" : Str) = [')'] from rfl] at h
    have h' : (o1 ++ str "/member") ++ '/' :: Iri.escape n1
        = (o2 ++ str "/member") ++ '/' :: (Iri.escape n2 ++ '(' :: (Iri.escape s2 ++ [')'])) := by
      simp only [List.append_assoc, List.singleton_append, List.cons_append]
      simpa [List.append_assoc] using h
    obtain ⟨h1, h2⟩ := append_sep_inj '/' _ escape_no_slash member_sig_tail_no_slash h'
    exfalso
    have hr : (')' : Char) ∈ Iri.escape n1 := by
      rw [h2]
      simp
    exact escape_no_rparen _ hr rfl
  · simp only [he1, he2, if_true, if_false] at h
    rw [show (str "/member/" : Str) = str "/member" ++ ['/'] from rfl,
        show (str "(" : Str) = ['('] from rfl,
        show (str ")" : Str) = [')'] from rfl] at h
    have h' : (o1 ++ str "/member") ++ '/' :: (Iri.escape n1 ++ '(' :: (Iri.escape s1 ++ [')']))
        = (o2 ++ str "/member") ++ '/' :: Iri.escape n2 := by
      simp only [List.append_assoc, List.singleton_append, List.cons_append]
      simpa [List.append_assoc] using h
    obtain ⟨h1, h2⟩ := append_sep_inj '/' _ member_sig_tail_no_slash escape_no_slash h'
    exfalso
    have hr : (')' : Char) ∈ Iri.escape n2 := by
      rw [← h2]
      simp
    exact escape_no_rparen _ hr rfl
  · simp only [he1, he2, if_false] at h
    rw [show (str "/member/" : Str) = str "/member" ++ ['/'] from rfl,
        show (str "(" : Str) = ['('] from rfl,
        show (str ")" : Str) = [')'] from rfl] at h
    have h' : (o1 ++ str "/member") ++ '/' :: (Iri.escape n1 ++ '(' :: (Iri.escape s1 ++ [')']))
        = (o2 ++ str "/member") ++ '/' :: (Iri.escape n2 ++ '(' :: (Iri.escape s2 ++ [')'])) := by
      simp only [List.append_assoc, List.singleton_append, List.cons_append]
      simpa [List.append_assoc] using h
    obtain ⟨h1, h2⟩ := append_sep_inj '/' _ member_sig_tail_no_slash member_sig_tail_no_slash h'
    have hnp : ∀ t : Str, ∀ c ∈ Iri.escape t ++ [')'], c ≠ '(' := by
      intro t c hc
      rcases List.mem_append.mp hc with hcc | hcc
      · exact escape_no_lparen c hcc
      · simp at hcc
        subst hcc
        decide
    obtain ⟨h3, h4⟩ := append_sep_inj '(' _ (hnp s1) (hnp s2) h2
    exact ⟨List.append_cancel_right h1, escape_inj _ _ h3,
      escape_inj _ _ (List.append_cancel_right h4)⟩

theorem parameter_iri_inj {o1 o2 : Str} {i1 i2 : Nat}
    (h : Iri.parameter_iri o1 i1 = Iri.parameter_iri o2 i2) : o1 = o2 ∧ i1 = i2 := by
  rw [Iri.parameter_iri, Iri.parameter_iri] at h
  rw [show (str "/param/" : Str) = str "/param" ++ ['/'] from rfl] at h
  have h' : (o1 ++ str "/param") ++ '/' :: natStr i1
      = (o2 ++ str "/param") ++ '/' :: natStr i2 := by
    simp only [List.append_assoc, List.singleton_append]
    simpa [List.append_assoc] using h
  obtain ⟨h1, h2⟩ := append_sep_inj '/' _ natStr_no_slash_chars natStr_no_slash_chars h'
  exact ⟨List.append_cancel_right h1, natStr_inj _ _ h2⟩

theorem type_parameter_iri_inj {o1 o2 : Str} {i1 i2 : Nat}
    (h : Iri.type_parameter_iri o1 i1 = Iri.type_parameter_iri o2 i2) :
    o1 = o2 ∧ i1 = i2 := by
  rw [Iri.type_parameter_iri, Iri.type_parameter_iri] at h
  rw [show (str "/typeparam/" : Str) = str "/typeparam" ++ ['/'] from rfl] at h
  have h' : (o1 ++ str "/typeparam") ++ '/' :: natStr i1
      = (o2 ++ str "/typeparam") ++ '/' :: natStr i2 := by
    simp only [List.append_assoc, List.singleton_append]
    simpa [List.append_assoc] using h
  obtain ⟨h1, h2⟩ := append_sep_inj '/' _ natStr_no_slash_chars natStr_no_slash_chars h'
  exact ⟨List.append_cancel_right h1, natStr_inj _ _ h2⟩

theorem variant_iri_inj {o1 n1 o2 n2 : Str}
    (h : Iri.variant_iri o1 n1 = Iri.variant_iri o2 n2) : o1 = o2 ∧ n1 = n2 := by
  rw [Iri.variant_iri, Iri.variant_iri] at h
  rw [show (str "/variant/" : Str) = str "/variant" ++ ['/'] from rfl] at h
  have h' : (o1 ++ str "/variant") ++ '/' :: Iri.escape n1
      = (o2 ++ str "/variant") ++ '/' :: Iri.escape n2 := by
    simp only [List.append_assoc, List.singleton_append]
    simpa [List.append_assoc] using h
  obtain ⟨h1, h2⟩ := append_sep_inj '/' _ escape_no_slash escape_no_slash h'
  exact ⟨List.append_cancel_right h1, escape_inj _ _ h2⟩

theorem lifetime_iri_inj {o1 n1 o2 n2 : Str}
    (h : Iri.lifetime_iri o1 n1 = Iri.lifetime_iri o2 n2) :
    o1 = o2 ∧ Iri.stripApos n1 = Iri.stripApos n2 := by
  rw [Iri.lifetime_iri, Iri.lifetime_iri] at h
  rw [show (str "/lifetime/" : Str) = str "/lifetime" ++ ['/'] from rfl] at h
  have h' : (o1 ++ str "/lifetime") ++ '/' :: Iri.escape (Iri.stripApos n1)
      = (o2 ++ str "/lifetime") ++ '/' :: Iri.escape (Iri.stripApos n2) := by
    simp only [List.append_assoc, List.singleton_append]
    simpa [List.append_assoc] using h
  obtain ⟨h1, h2⟩ := append_sep_inj '/' _ escape_no_slash escape_no_slash h'
  exact ⟨List.append_cancel_right h1, escape_inj _ _ h2⟩

theorem primitive_type_iri_inj {base n1 n2 : Str}
    (h : Iri.primitive_type_iri base n1 = Iri.primitive_type_iri base n2) : n1 = n2 := by
  rw [Iri.primitive_type_iri, Iri.primitive_type_iri] at h
  simp only [List.append_assoc] at h
  exact escape_inj _ _ (List.append_cancel_left (List.append_cancel_left h))

theorem tuple_type_iri_inj {base : Str} {c1 c2 : Nat}
    (h : Iri.tuple_type_iri base c1 = Iri.tuple_type_iri base c2) : c1 = c2 := by
  rw [Iri.tuple_type_iri, Iri.tuple_type_iri] at h
  simp only [List.append_assoc] at h
  exact natStr_inj _ _ (List.append_cancel_left (List.append_cancel_left h))

theorem slice_type_iri_inj {base n1 n2 : Str}
    (h : Iri.slice_type_iri base n1 = Iri.slice_type_iri base n2) : n1 = n2 := by
  rw [Iri.slice_type_iri, Iri.slice_type_iri] at h
  simp only [List.append_assoc] at h
  exact escape_inj _ _ (List.append_cancel_left (List.append_cancel_left h))

theorem array_type_iri_inj {base n1 l1 n2 l2 : Str}
    (h : Iri.array_type_iri base n1 l1 = Iri.array_type_iri base n2 l2) :
    n1 = n2 ∧ l1 = l2 := by
  rw [Iri.array_type_iri, Iri.array_type_iri] at h
  rw [show (str "/" : Str) = ['/'] from rfl] at h
  simp only [List.append_assoc, List.singleton_append] at h
  have h1 := List.append_cancel_left h
  have h2 := List.append_cancel_left h1
  exact two_esc_inj h2

theorem ref_type_iri_inj {base n1 n2 : Str} {m1 m2 : Bool}
    (h : Iri.ref_type_iri base n1 m1 = Iri.ref_type_iri base n2 m2) :
    n1 = n2 ∧ m1 = m2 := by
  rw [Iri.ref_type_iri, Iri.ref_type_iri] at h
  simp only [List.append_assoc] at h
  have h1 := List.append_cancel_left h
  have h2 := List.append_cancel_left h1
  cases m1 <;> cases m2 <;> simp only [if_true, if_false, Bool.false_eq_true] at h2
  · exact ⟨escape_inj _ _ (List.append_cancel_left (List.append_cancel_left h2)), rfl⟩
  · exfalso
    have h3 : ('r' :: 'e' :: 'f' :: []) ++ (str "_/" ++ Iri.escape n1)
        = ('m' :: 'u' :: 't' :: []) ++ (str "_/" ++ Iri.escape n2) := h2
    simp at h3
  · exfalso
    have h3 : ('m' :: 'u' :: 't' :: []) ++ (str "_/" ++ Iri.escape n1)
        = ('r' :: 'e' :: 'f' :: []) ++ (str "_/" ++ Iri.escape n2) := h2
    simp at h3
  · exact ⟨escape_inj _ _ (List.append_cancel_left (List.append_cancel_left h2)), rfl⟩

theorem raw_pointer_type_iri_inj {base n1 n2 : Str} {m1 m2 : Bool}
    (h : Iri.raw_pointer_type_iri base n1 m1 = Iri.raw_pointer_type_iri base n2 m2) :
    n1 = n2 ∧ m1 = m2 := by
  rw [Iri.raw_pointer_type_iri, Iri.raw_pointer_type_iri] at h
  simp only [List.append_assoc] at h
  have h1 := List.append_cancel_left h
  have h2 := List.append_cancel_left h1
  cases m1 <;> cases m2 <;> simp only [if_true, if_false, Bool.false_eq_true] at h2
  · exact ⟨escape_inj _ _ (List.append_cancel_left (List.append_cancel_left h2)), rfl⟩
  · exfalso
    have h3 : ('c' :: 'o' :: 'n' :: 's' :: 't' :: []) ++ (str "_/" ++ Iri.escape n1)
        = ('m' :: 'u' :: 't' :: []) ++ (str "_/" ++ Iri.escape n2) := h2
    simp at h3
  · exfalso
    have h3 : ('m' :: 'u' :: 't' :: []) ++ (str "_/" ++ Iri.escape n1)
        = ('c' :: 'o' :: 'n' :: 's' :: 't' :: []) ++ (str "_/" ++ Iri.escape n2) := h2
    simp at h3
  · exact ⟨escape_inj _ _ (List.append_cancel_left (List.append_cancel_left h2)), rfl⟩

-- ---------------------------------------------------------------------------
-- Claim C5
-- ---------------------------------------------------------------------------

/-- Claim C5, counterexample: the minting functions are not injective on raw
components across the board — `lifetime_iri` strips a leading apostrophe, so
the names `'a` and `a` (which differ) mint the same identifier for the same
owner.  This refutes the claim that any differing component always yields a
different identifier string. -/
theorem C5_mint_counterexample :
    Iri.lifetime_iri (str "http://rust.example/type/c/1.0.0/S") (aposC :: str "a")
      = Iri.lifetime_iri (str "http://rust.example/type/c/1.0.0/S") (str "a")
    ∧ (aposC :: str "a") ≠ str "a" := by
  constructor
  · rfl
  · decide

/-- Claim C5, amended: every minting function is deterministic (equal
arguments yield equal identifier strings), and within each entity category
minting is injective on its components — except that the lifetime minter
compares names after stripping a leading apostrophe.  (Cross-category
non-collision is not asserted: adversarial components such as a crate
literally named `_array_` can collide with composite-type identifiers.) -/
theorem C5_mint_deterministic_injective :
    (∀ base n v, Iri.crate_iri base n v = Iri.crate_iri base n v)
    ∧ (∀ o n s, Iri.member_iri o n s = Iri.member_iri o n s)
    ∧ (∀ base n1 v1 n2 v2, Iri.crate_iri base n1 v1 = Iri.crate_iri base n2 v2 →
        n1 = n2 ∧ v1 = v2)
    ∧ (∀ base n1 v1 p1 n2 v2 p2,
        Iri.module_iri base n1 v1 p1 = Iri.module_iri base n2 v2 p2 →
        n1 = n2 ∧ v1 = v2 ∧ p1 = p2)
    ∧ (∀ base n1 v1 p1 n2 v2 p2,
        Iri.type_iri base n1 v1 p1 = Iri.type_iri base n2 v2 p2 →
        n1 = n2 ∧ v1 = v2 ∧ p1 = p2)
    ∧ (∀ base n1 v1 i1 n2 v2 i2,
        Iri.impl_iri base n1 v1 i1 = Iri.impl_iri base n2 v2 i2 →
        n1 = n2 ∧ v1 = v2 ∧ i1 = i2)
    ∧ (∀ o1 n1 s1 o2 n2 s2, Iri.member_iri o1 n1 s1 = Iri.member_iri o2 n2 s2 →
        o1 = o2 ∧ n1 = n2 ∧ s1 = s2)
    ∧ (∀ o1 i1 o2 i2, Iri.parameter_iri o1 i1 = Iri.parameter_iri o2 i2 →
        o1 = o2 ∧ i1 = i2)
    ∧ (∀ o1 i1 o2 i2, Iri.type_parameter_iri o1 i1 = Iri.type_parameter_iri o2 i2 →
        o1 = o2 ∧ i1 = i2)
    ∧ (∀ o1 n1 o2 n2, Iri.variant_iri o1 n1 = Iri.variant_iri o2 n2 →
        o1 = o2 ∧ n1 = n2)
    ∧ (∀ o1 n1 o2 n2, Iri.lifetime_iri o1 n1 = Iri.lifetime_iri o2 n2 →
        o1 = o2 ∧ Iri.stripApos n1 = Iri.stripApos n2)
    ∧ (∀ base n1 n2, Iri.primitive_type_iri base n1 = Iri.primitive_type_iri base n2 →
        n1 = n2)
    ∧ (∀ base c1 c2, Iri.tuple_type_iri base c1 = Iri.tuple_type_iri base c2 → c1 = c2)
    ∧ (∀ base n1 n2, Iri.slice_type_iri base n1 = Iri.slice_type_iri base n2 → n1 = n2)
    ∧ (∀ base n1 l1 n2 l2, Iri.array_type_iri base n1 l1 = Iri.array_type_iri base n2 l2 →
        n1 = n2 ∧ l1 = l2)
    ∧ (∀ base n1 m1 n2 m2, Iri.ref_type_iri base n1 m1 = Iri.ref_type_iri base n2 m2 →
        n1 = n2 ∧ m1 = m2)
    ∧ (∀ base n1 m1 n2 m2,
        Iri.raw_pointer_type_iri base n1 m1 = Iri.raw_pointer_type_iri base n2 m2 →
        n1 = n2 ∧ m1 = m2) := by
  refine ⟨fun _ _ _ => rfl, fun _ _ _ => rfl, ?_, ?_, ?_, ?_, ?_, ?_, ?_, ?_, ?_, ?_, ?_, ?_,
    ?_, ?_, ?_⟩
  · intro _ _ _ _ _ h
    exact crate_iri_inj h
  · intro _ _ _ _ _ _ _ h
    exact module_iri_inj h
  · intro _ _ _ _ _ _ _ h
    exact type_iri_inj h
  · intro _ _ _ _ _ _ _ h
    exact impl_iri_inj h
  · intro _ _ _ _ _ _ h
    exact member_iri_inj h
  · intro _ _ _ _ h
    exact parameter_iri_inj h
  · intro _ _ _ _ h
    exact type_parameter_iri_inj h
  · intro _ _ _ _ h
    exact variant_iri_inj h
  · intro _ _ _ _ h
    exact lifetime_iri_inj h
  · intro _ _ _ h
    exact primitive_type_iri_inj h
  · intro _ _ _ h
    exact tuple_type_iri_inj h
  · intro _ _ _ h
    exact slice_type_iri_inj h
  · intro _ _ _ _ _ h
    exact array_type_iri_inj h
  · intro _ _ _ _ _ h
    exact ref_type_iri_inj h
  · intro _ _ _ _ _ h
    exact raw_pointer_type_iri_inj h

/-- Claim C5, witness: the crate-IRI injectivity conjunct applied at concrete
equal inputs. -/
theorem C5_mint_witness :
    (str "serde") = str "serde" ∧ (str "1.0.219") = str "1.0.219" :=
  C5_mint_deterministic_injective.2.2.1 (str "http://rust.example")
    (str "serde") (str "1.0.219") (str "serde") (str "1.0.219") rfl

-- ---------------------------------------------------------------------------
-- Claim C7 machinery: N-Triples escaping
-- ---------------------------------------------------------------------------

theorem hexVal_hexDigitU {n : Nat} (h : n < 16) : hexVal (hexDigitU n) = n := by
  interval_cases n <;> decide

theorem ntUnescape_escape (s : Str) : ntUnescape (NT.escape_literal s) = s := by
  induction s with
  | nil =>
    have e : NT.escape_literal ([] : Str) = [] := rfl
    rw [e, ntUnescape]
  | cons c cs ih =>
    rw [NT.escape_literal]
    by_cases h1 : c = bsC
    · subst h1
      have e : NT.escChar bsC ++ NT.escape_literal cs
          = bsC :: bsC :: NT.escape_literal cs := rfl
      rw [e, ntUnescape]
      rw [if_pos rfl, ntUnescapeEsc, if_pos rfl, ih]
    · by_cases h2 : c = quC
      · subst h2
        have e : NT.escChar quC ++ NT.escape_literal cs
            = bsC :: quC :: NT.escape_literal cs := rfl
        rw [e, ntUnescape]
        rw [if_pos rfl, ntUnescapeEsc, if_neg (by decide), if_pos rfl, ih]
      · by_cases h3 : c = nlC
        · subst h3
          have e : NT.escChar nlC ++ NT.escape_literal cs
              = bsC :: 'n' :: NT.escape_literal cs := rfl
          rw [e, ntUnescape]
          rw [if_pos rfl, ntUnescapeEsc, if_neg (by decide), if_neg (by decide),
            if_pos rfl, ih]
        · by_cases h4 : c = crC
          · subst h4
            have e : NT.escChar crC ++ NT.escape_literal cs
                = bsC :: 'r' :: NT.escape_literal cs := rfl
            rw [e, ntUnescape]
            rw [if_pos rfl, ntUnescapeEsc, if_neg (by decide), if_neg (by decide),
              if_neg (by decide), if_pos rfl, ih]
          · by_cases h5 : c = tbC
            · subst h5
              have e : NT.escChar tbC ++ NT.escape_literal cs
                  = bsC :: 't' :: NT.escape_literal cs := rfl
              rw [e, ntUnescape]
              rw [if_pos rfl, ntUnescapeEsc, if_neg (by decide), if_neg (by decide),
                if_neg (by decide), if_neg (by decide), if_pos rfl, ih]
            · by_cases h6 : c.toNat < 32
              · have hesc : NT.escChar c = bsC :: 'u' :: hex4 c.toNat := by
                  rw [NT.escChar]
                  rw [if_neg (by simpa using h1), if_neg (by simpa using h2),
                    if_neg (by simpa using h3), if_neg (by simpa using h4),
                    if_neg (by simpa using h5), if_pos h6]
                rw [hesc]
                have e : (bsC :: 'u' :: hex4 c.toNat) ++ NT.escape_literal cs
                    = bsC :: 'u' :: (hex4 c.toNat ++ NT.escape_literal cs) := rfl
                rw [e, ntUnescape]
                rw [if_pos rfl, ntUnescapeEsc, if_neg (by decide), if_neg (by decide),
                  if_neg (by decide), if_neg (by decide), if_neg (by decide), if_pos rfl]
                rw [hex4]
                have e2 : ([hexDigitU (c.toNat / 4096 % 16), hexDigitU (c.toNat / 256 % 16),
                    hexDigitU (c.toNat / 16 % 16), hexDigitU (c.toNat % 16)] : Str)
                      ++ NT.escape_literal cs
                    = hexDigitU (c.toNat / 4096 % 16) :: hexDigitU (c.toNat / 256 % 16)
                      :: hexDigitU (c.toNat / 16 % 16) :: hexDigitU (c.toNat % 16)
                      :: NT.escape_literal cs := rfl
                rw [e2, ntUnescapeHex]
                rw [hexVal_hexDigitU (Nat.mod_lt _ (by omega)),
                  hexVal_hexDigitU (Nat.mod_lt _ (by omega)),
                  hexVal_hexDigitU (Nat.mod_lt _ (by omega)),
                  hexVal_hexDigitU (Nat.mod_lt _ (by omega))]
                have hval : 4096 * (c.toNat / 4096 % 16) + 256 * (c.toNat / 256 % 16)
                    + 16 * (c.toNat / 16 % 16) + c.toNat % 16 = c.toNat := by omega
                rw [hval, Char.ofNat_toNat, ih]
              · have hesc : NT.escChar c = [c] := by
                  rw [NT.escChar]
                  rw [if_neg (by simpa using h1), if_neg (by simpa using h2),
                    if_neg (by simpa using h3), if_neg (by simpa using h4),
                    if_neg (by simpa using h5), if_neg h6]
                rw [hesc]
                have e : ([c] : Str) ++ NT.escape_literal cs = c :: NT.escape_literal cs := rfl
                rw [e, ntUnescape, if_neg h1, ih]

theorem hexDigitU_isUpHex {n : Nat} (h : n < 16) : isUpHexDigit (hexDigitU n) = true := by
  interval_cases n <;> decide

theorem escape_literal_no_ctrl {s : Str} :
    ∀ x ∈ NT.escape_literal s, ¬ x.toNat < 32 := by
  induction s with
  | nil => intro x hx; rw [NT.escape_literal] at hx; simp at hx
  | cons c cs ih =>
    intro x hx
    rw [NT.escape_literal] at hx
    rcases List.mem_append.mp hx with h | h
    · rw [NT.escChar] at h
      split_ifs at h with g1 g2 g3 g4 g5 g6
      · simp at h
        rcases h with rfl | rfl <;> decide
      · simp at h
        rcases h with rfl | rfl <;> decide
      · simp at h
        rcases h with rfl | rfl <;> decide
      · simp at h
        rcases h with rfl | rfl <;> decide
      · simp at h
        rcases h with rfl | rfl <;> decide
      · rw [hex4] at h
        simp at h
        rcases h with rfl | rfl | rfl | rfl | rfl | rfl
        · decide
        · decide
        · have := hexDigitU_toNat (n := c.toNat / 4096 % 16) (Nat.mod_lt _ (by omega))
          split_ifs at this <;> omega
        · have := hexDigitU_toNat (n := c.toNat / 256 % 16) (Nat.mod_lt _ (by omega))
          split_ifs at this <;> omega
        · have := hexDigitU_toNat (n := c.toNat / 16 % 16) (Nat.mod_lt _ (by omega))
          split_ifs at this <;> omega
        · have := hexDigitU_toNat (n := c.toNat % 16) (Nat.mod_lt _ (by omega))
          split_ifs at this <;> omega
      · simp at h
        subst h
        exact g6
    · exact ih x h

-- ---------------------------------------------------------------------------
-- Claim C7
-- ---------------------------------------------------------------------------

/-- Claim C7: the line-oriented serializer's literal escaping maps backslash,
double quote, newline, carriage return and tab to their two-character
escapes; maps every other character below 0x20 to a `\u` escape of exactly
four uppercase hex digits; passes every other character through unchanged;
and the escaped output contains no unescaped special characters — no
character below 0x20 survives, and the escaping is lossless (the escape
table's decoder recovers the input exactly, so every backslash or quote in
the output is part of an escape sequence). -/
theorem C7_ntriples_escape_literal :
    NT.escape_literal [bsC] = [bsC, bsC]
    ∧ NT.escape_literal [quC] = [bsC, quC]
    ∧ NT.escape_literal [nlC] = [bsC, 'n']
    ∧ NT.escape_literal [crC] = [bsC, 'r']
    ∧ NT.escape_literal [tbC] = [bsC, 't']
    ∧ (∀ c : Char, c.toNat < 32 → c ≠ nlC → c ≠ crC → c ≠ tbC →
        NT.escape_literal [c] = bsC :: 'u' :: hex4 c.toNat
        ∧ (hex4 c.toNat).length = 4
        ∧ ∀ x ∈ hex4 c.toNat, isUpHexDigit x = true)
    ∧ (∀ c : Char, c ≠ bsC → c ≠ quC → c ≠ nlC → c ≠ crC → c ≠ tbC →
        ¬ c.toNat < 32 → NT.escape_literal [c] = [c])
    ∧ (∀ s : Str, (∀ x ∈ NT.escape_literal s, ¬ x.toNat < 32)
        ∧ ntUnescape (NT.escape_literal s) = s) := by
  refine ⟨rfl, rfl, rfl, rfl, rfl, ?_, ?_, ?_⟩
  · intro c hc hn hr ht
    have h1 : c ≠ bsC := by intro h; subst h; exact absurd hc (by decide)
    have h2 : c ≠ quC := by intro h; subst h; exact absurd hc (by decide)
    have he : NT.escChar c = bsC :: 'u' :: hex4 c.toNat := by
      rw [NT.escChar]
      rw [if_neg (by simpa using h1), if_neg (by simpa using h2),
        if_neg (by simpa using hn), if_neg (by simpa using hr),
        if_neg (by simpa using ht), if_pos hc]
    refine ⟨?_, ?_, ?_⟩
    · rw [NT.escape_literal, NT.escape_literal, he]
      rfl
    · rw [hex4]
      rfl
    · intro x hx
      rw [hex4] at hx
      simp at hx
      rcases hx with rfl | rfl | rfl | rfl <;>
        exact hexDigitU_isUpHex (Nat.mod_lt _ (by omega))
  · intro c h1 h2 h3 h4 h5 h6
    have he : NT.escChar c = [c] := by
      rw [NT.escChar]
      rw [if_neg (by simpa using h1), if_neg (by simpa using h2),
        if_neg (by simpa using h3), if_neg (by simpa using h4),
        if_neg (by simpa using h5), if_neg h6]
    rw [NT.escape_literal, NT.escape_literal, he]
    rfl
  · intro s
    exact ⟨escape_literal_no_ctrl, ntUnescape_escape s⟩

/-- Claim C7, witness: the control-character conjunct applied at U+0001 and
the pass-through conjunct applied at `A`. -/
theorem C7_ntriples_escape_witness :
    NT.escape_literal [Char.ofNat 1] = bsC :: 'u' :: hex4 (Char.ofNat 1).toNat
    ∧ NT.escape_literal ['A'] = ['A'] := by
  constructor
  · exact (C7_ntriples_escape_literal.2.2.2.2.2.1 (Char.ofNat 1) (by decide)
      (by decide) (by decide) (by decide)).1
  · exact C7_ntriples_escape_literal.2.2.2.2.2.2.1 'A' (by decide) (by decide)
      (by decide) (by decide) (by decide) (by decide)

-- ---------------------------------------------------------------------------
-- Claim C6 machinery: longest-prefix selection
-- ---------------------------------------------------------------------------

theorem Turtle.bestNsGo_facts (iri : Str) :
    ∀ (t : List (Str × Str)) (acc : Option (Str × Str)),
      (∀ b, Turtle.bestNsGo iri acc t = some b →
        (b ∈ t ∧ starts iri b.2 = true) ∨ acc = some b)
      ∧ (∀ a, acc = some a →
          ∃ b, Turtle.bestNsGo iri acc t = some b ∧ a.2.length ≤ b.2.length)
      ∧ (∀ q ∈ t, starts iri q.2 = true →
          ∃ b, Turtle.bestNsGo iri acc t = some b ∧ q.2.length ≤ b.2.length)
      ∧ (Turtle.bestNsGo iri acc t = none → acc = none ∧ ∀ q ∈ t, starts iri q.2 = false) := by
  intro t
  induction t with
  | nil =>
    intro acc
    refine ⟨?_, ?_, ?_, ?_⟩
    · intro b h
      exact Or.inr h
    · intro a h
      exact ⟨a, h, le_refl _⟩
    · intro q hq
      simp at hq
    · intro h
      exact ⟨h, by simp⟩
  | cons pn rest ih =>
    intro acc
    by_cases hg : (starts iri pn.2 &&
        (match acc with
         | none => true
         | some prev => decide (pn.2.length > prev.2.length))) = true
    · have hstep : Turtle.bestStep iri acc pn = some pn := by
        rw [Turtle.bestStep.eq_def, if_pos hg]
      have hstart : starts iri pn.2 = true := by
        simp only [Bool.and_eq_true] at hg
        exact hg.1
      refine ⟨?_, ?_, ?_, ?_⟩
      · intro b h
        rw [Turtle.bestNsGo, hstep] at h
        rcases ((ih (some pn)).1 b h) with ⟨hm, hs⟩ | heq
        · exact Or.inl ⟨List.mem_cons_of_mem _ hm, hs⟩
        · have : b = pn := by injection heq.symm
          subst this
          exact Or.inl ⟨List.mem_cons_self _ _, hstart⟩
      · intro a ha
        rw [Turtle.bestNsGo, hstep]
        obtain ⟨b, hb, hlen⟩ := (ih (some pn)).2.1 pn rfl
        refine ⟨b, hb, ?_⟩
        subst ha
        simp only [Bool.and_eq_true] at hg
        rcases hg with ⟨-, hlt⟩
        simp at hlt
        omega
      · intro q hq hs
        rw [Turtle.bestNsGo, hstep]
        rcases List.mem_cons.mp hq with rfl | hq2
        · exact (ih (some q)).2.1 q rfl
        · exact (ih (some pn)).2.2.1 q hq2 hs
      · intro h
        rw [Turtle.bestNsGo, hstep] at h
        obtain ⟨b, hb, -⟩ := (ih (some pn)).2.1 pn rfl
        rw [h] at hb
        exact absurd hb (by simp)
    · have hstep : Turtle.bestStep iri acc pn = acc := by
        rw [Turtle.bestStep.eq_def, if_neg hg]
      refine ⟨?_, ?_, ?_, ?_⟩
      · intro b h
        rw [Turtle.bestNsGo, hstep] at h
        rcases (ih acc).1 b h with ⟨hm, hs⟩ | heq
        · exact Or.inl ⟨List.mem_cons_of_mem _ hm, hs⟩
        · exact Or.inr heq
      · intro a ha
        rw [Turtle.bestNsGo, hstep]
        exact (ih acc).2.1 a ha
      · intro q hq hs
        rw [Turtle.bestNsGo, hstep]
        rcases List.mem_cons.mp hq with rfl | hq2
        · -- the guard failed although the namespace matches: acc is at least as long
          rcases acc with _ | a
          · exfalso
            simp [hs] at hg
          · simp only [Bool.and_eq_true, hs, true_and] at hg
            simp at hg
            obtain ⟨b, hb, hlen⟩ := (ih (some a)).2.1 a rfl
            exact ⟨b, hb, by omega⟩
        · exact (ih acc).2.2.1 q hq2 hs
      · intro h
        rw [Turtle.bestNsGo, hstep] at h
        obtain ⟨hacc, hrest⟩ := (ih acc).2.2.2 h
        refine ⟨hacc, ?_⟩
        intro q hq
        rcases List.mem_cons.mp hq with rfl | hq2
        · rw [hacc] at hg
          simp at hg
          exact hg
        · exact hrest q hq2

-- ---------------------------------------------------------------------------
-- Claim C6
-- ---------------------------------------------------------------------------

/-- Claim C6: for every address the compact serializer writes, the IRI is
passed through `compact_iri`, which selects the longest registered namespace
that is a prefix of the address and rewrites it as `prefix:localname`
exactly when the remaining local part is non-empty and consists solely of
letters, digits, or underscore; in every other case (no matching namespace,
empty local part, or a non-identifier character) the address is written in
full angle-bracketed form. -/
theorem C6_turtle_compact_iri :
    (∀ (st : Turtle.St) (s p o : Str), st.prefix_written = true →
      Turtle.step st (.iri s p o)
        = (Turtle.compact_iri st.prefixes s ++ str " " ++ Turtle.compact_iri st.prefixes p
            ++ str " " ++ Turtle.compact_iri st.prefixes o ++ str " ." ++ [nlC],
           { st with count := st.count + 1 }))
    ∧ ∀ (table : List (Str × Str)) (iri : Str),
      ((∀ q ∈ table, starts iri q.2 = false) →
        Turtle.compact_iri table iri = str "<" ++ iri ++ str ">")
      ∧ ((∃ q ∈ table, starts iri q.2 = true) →
          ∃ b, Turtle.bestNs table iri = some b)
      ∧ (∀ b, Turtle.bestNs table iri = some b →
          b ∈ table ∧ starts iri b.2 = true
          ∧ (∀ q ∈ table, starts iri q.2 = true → q.2.length ≤ b.2.length)
          ∧ ((iri.drop b.2.length ≠ [] ∧
                (iri.drop b.2.length).all
                  (fun c => Turtle.is_alphanumeric c || c == '_') = true) →
              Turtle.compact_iri table iri = b.1 ++ str ":" ++ iri.drop b.2.length)
          ∧ (¬(iri.drop b.2.length ≠ [] ∧
                (iri.drop b.2.length).all
                  (fun c => Turtle.is_alphanumeric c || c == '_') = true) →
              Turtle.compact_iri table iri = str "<" ++ iri ++ str ">")) := by
  constructor
  · intro st s p o hw
    cases st with
    | mk prefixes pw count =>
      simp only at hw
      subst hw
      rw [Turtle.step]
      rw [Turtle.write_prefixes]
      simp
  · intro table iri
    refine ⟨?_, ?_, ?_⟩
    · intro hall
      rcases hbn : Turtle.bestNs table iri with _ | b
      · rw [Turtle.compact_iri, hbn]
      · exfalso
        rcases (Turtle.bestNsGo_facts iri table none).1 b hbn with ⟨hm, hs⟩ | habs
        · rw [hall b hm] at hs
          exact Bool.false_ne_true hs
        · exact Option.noConfusion habs
    · intro ⟨q, hq, hs⟩
      obtain ⟨b, hb, -⟩ := (Turtle.bestNsGo_facts iri table none).2.2.1 q hq hs
      exact ⟨b, hb⟩
    · intro b hbn
      have hmem : b ∈ table ∧ starts iri b.2 = true := by
        rcases (Turtle.bestNsGo_facts iri table none).1 b hbn with h | habs
        · exact h
        · exact Option.noConfusion habs
      refine ⟨hmem.1, hmem.2, ?_, ?_, ?_⟩
      · intro q hq hs
        obtain ⟨b', hb', hlen⟩ := (Turtle.bestNsGo_facts iri table none).2.2.1 q hq hs
        have hb2 : some b = some b' := hbn.symm.trans hb'
        injection hb2 with hb3
        rw [← hb3] at hlen
        exact hlen
      · intro ⟨hne, hall⟩
        rw [Turtle.compact_iri, hbn]
        dsimp only
        have hie : (iri.drop b.2.length).isEmpty = false := by
          rcases hd : iri.drop b.2.length with _ | ⟨c, cs⟩
          · exact absurd hd hne
          · rfl
        rw [if_pos (by rw [hie, hall]; rfl)]
      · intro hno
        rw [Turtle.compact_iri, hbn]
        dsimp only
        rw [if_neg (by
          intro hcontra
          simp only [Bool.and_eq_true, Bool.not_eq_true'] at hcontra
          exact hno ⟨by
            intro hnil
            rw [hnil] at hcontra
            simp at hcontra, hcontra.2⟩)]

/-- Claim C6, witness: registering `http://x/` and `http://x/y/` and
compacting `http://x/y/Foo` selects the longer namespace; the spec's own
example, applied through the claim theorem. -/
theorem C6_turtle_compact_witness :
    Turtle.compact_iri [(str "x8", str "http://x/"), (str "y", str "http://x/y/")]
      (str "http://x/y/Foo") = str "y:Foo" := by
  have h := (C6_turtle_compact_iri.2
    [(str "x8", str "http://x/"), (str "y", str "http://x/y/")]
    (str "http://x/y/Foo")).2.2 (str "y", str "http://x/y/") (by rfl)
  have h2 := h.2.2.2.1 ⟨by decide, by decide⟩
  exact h2.trans (by decide)

-- ---------------------------------------------------------------------------
-- Claim C3
-- ---------------------------------------------------------------------------

/-- Claim C3: `resolve_path_to_iri` is total (its model returns a string for
every input, mirroring the infallible Rust signature) and resolves by a
strict three-tier priority: (1) a side-table (`paths`) entry for the carried
id mints from the entry's full dotted path; (2) otherwise a local index hit
with a name mints from the item's own name; (3) otherwise the raw path
string on the reference itself is used. -/
theorem C3_resolve_path_three_tiers :
    ∀ (ctx : Ctx) (path : ResolvedPathR),
      (∀ i summary, path.id = some i → alookup ctx.data.paths i = some summary →
        resolve_path_to_iri ctx path = typeIri ctx (joinSep (str "::") summary.path))
      ∧ (∀ i item name, path.id = some i → alookup ctx.data.paths i = none →
          alookup ctx.data.index i = some item → item.name = some name →
          resolve_path_to_iri ctx path = typeIri ctx name)
      ∧ ((path.id = none
          ∨ ∃ i, path.id = some i ∧ alookup ctx.data.paths i = none
              ∧ (alookup ctx.data.index i = none
                 ∨ ∃ item, alookup ctx.data.index i = some item ∧ item.name = none)) →
          resolve_path_to_iri ctx path = typeIri ctx path.path) := by
  intro ctx path
  refine ⟨?_, ?_, ?_⟩
  · intro i summary hid hp
    rw [resolve_path_to_iri, hid]
    dsimp only
    rw [hp]
  · intro i item name hid hp hix hn
    rw [resolve_path_to_iri, hid]
    dsimp only
    rw [hp]
    dsimp only
    rw [hix]
    dsimp only
    rw [hn]
  · intro h
    rcases h with hid | ⟨i, hid, hp, hrest⟩
    · rw [resolve_path_to_iri, hid]
    · rcases hrest with hix | ⟨item, hix, hn⟩
      · rw [resolve_path_to_iri, hid]
        dsimp only
        rw [hp]
        dsimp only
        rw [hix]
      · rw [resolve_path_to_iri, hid]
        dsimp only
        rw [hp]
        dsimp only
        rw [hix]
        dsimp only
        rw [hn]

/-- Claim C3, witness: tier 1 applied to a concrete document whose side
table maps id `7` to the dotted path `std::vec::Vec`. -/
theorem C3_resolve_path_witness :
    resolve_path_to_iri
      ⟨⟨str "0", none, [], [(str "7", ⟨[str "std", str "vec", str "Vec"], .struct⟩)], [], 0⟩,
       str "c", str "1.0.0", str "http://rust.example",
       ⟨str "http://rust.example", true, true, true, true⟩⟩
      ⟨str "Vec", some (str "7"), none⟩
    = typeIri
      ⟨⟨str "0", none, [], [(str "7", ⟨[str "std", str "vec", str "Vec"], .struct⟩)], [], 0⟩,
       str "c", str "1.0.0", str "http://rust.example",
       ⟨str "http://rust.example", true, true, true, true⟩⟩
      (joinSep (str "::") [str "std", str "vec", str "Vec"]) := by
  exact (C3_resolve_path_three_tiers _ _).1 (str "7")
    ⟨[str "std", str "vec", str "Vec"], .struct⟩ rfl rfl

-- ---------------------------------------------------------------------------
-- Claim C4
-- ---------------------------------------------------------------------------

/-- Claim C4: the final impl pass emits no statements for an Impl item that
is synthetic, carries a blanket-impl type, whose `for` type resolves to no
identifier, or whose resolved target identifier is not in the set of
already-emitted type identifiers when the impl is processed. -/
theorem C4_process_impl_skips :
    ∀ (ctx : Ctx) (impl_id : Str) (st : ExSt) (item : ItemR)
      (g : GenericsR) (tr : Option ResolvedPathR) (f : Ty) (its : List Str)
      (u neg synth : Bool) (bl : Option Ty),
      alookup ctx.data.index impl_id = some item →
      item.inner = .impl g tr f its u neg synth bl →
      ((synth = true → process_impl ctx impl_id st = ([], st))
       ∧ (bl.isSome = true → process_impl ctx impl_id st = ([], st))
       ∧ (resolve_type_to_iri ctx f = none → process_impl ctx impl_id st = ([], st))
       ∧ (∀ for_iri, resolve_type_to_iri ctx f = some for_iri → for_iri ∉ st.types →
           process_impl ctx impl_id st = ([], st))) := by
  intro ctx impl_id st item g tr f its u neg synth bl hlk hinner
  have base : process_impl ctx impl_id st =
      (if synth || bl.isSome then ([], st)
       else
         match resolve_type_to_iri ctx f with
         | none => ([], st)
         | some for_iri =>
             if for_iri ∉ st.types then ([], st)
             else
               let impl_iriV := Iri.impl_iri ctx.base ctx.crateName ctx.crateVersion impl_id
               let (head, st1) :=
                 match tr with
                 | some trait_path =>
                     let trait_iri := resolve_path_to_iri ctx trait_path
                     let (ee, st') := ensure_external_type_emitted st trait_iri trait_path.path
                     ([Emit.iri impl_iriV standard.RDF_TYPE rt.TRAIT_IMPL,
                       Emit.iri impl_iriV rt.IMPL_FOR for_iri,
                       Emit.iri impl_iriV rt.IMPL_TRAIT trait_iri,
                       Emit.iri for_iri tg.IMPLEMENTS trait_iri] ++ ee, st')
                 | none =>
                     ([Emit.iri impl_iriV standard.RDF_TYPE rt.INHERENT_IMPL,
                       Emit.iri impl_iriV rt.IMPL_FOR for_iri], st)
               let (me, st2) := impl_items_loop ctx tr for_iri impl_iriV its st1
               (head ++ me, st2)) := by
    rw [process_impl, hlk]
    dsimp only
    rw [hinner]
  refine ⟨?_, ?_, ?_, ?_⟩
  · intro hs
    subst hs
    rw [base]
    simp
  · intro hb
    rw [base, hb]
    simp
  · intro hr
    rw [base]
    by_cases hg : (synth || bl.isSome) = true
    · rw [if_pos hg]
    · rw [if_neg hg, hr]
  · intro for_iri hr hm
    rw [base]
    by_cases hg : (synth || bl.isSome) = true
    · rw [if_pos hg]
    · rw [if_neg hg, hr]
      dsimp only
      rw [if_pos hm]

/-- Claim C4, witness: a synthetic impl on a one-item index produces no
statements. -/
theorem C4_process_impl_witness :
    process_impl
      ⟨⟨str "0", none,
        [(str "1", ⟨none, none, .public, [], none, none, none,
          .impl ⟨[], []⟩ none (.primitive (str "u8")) [] false false true none, []⟩)],
        [], [], 0⟩,
       str "c", str "1.0.0", str "http://rust.example",
       ⟨str "http://rust.example", true, true, true, true⟩⟩
      (str "1") ⟨[], []⟩
    = ([], ⟨[], []⟩) := by
  exact (C4_process_impl_skips
    ⟨⟨str "0", none,
      [(str "1", ⟨none, none, .public, [], none, none, none,
        .impl ⟨[], []⟩ none (.primitive (str "u8")) [] false false true none, []⟩)],
      [], [], 0⟩,
     str "c", str "1.0.0", str "http://rust.example",
     ⟨str "http://rust.example", true, true, true, true⟩⟩
    (str "1") ⟨[], []⟩
    ⟨none, none, .public, [], none, none, none,
      .impl ⟨[], []⟩ none (.primitive (str "u8")) [] false false true none, []⟩
    ⟨[], []⟩ none (.primitive (str "u8")) [] false false true none rfl rfl).1 rfl

-- ---------------------------------------------------------------------------
-- Claim C10 machinery: parameter ordinals
-- ---------------------------------------------------------------------------

theorem params_loop_get {ctx : Ctx} {fn_iri : Str} :
    ∀ (inputs : List (Str × Ty)) (k j : Nat) (name : Str) (ty : Ty),
      inputs.get? j = some (name, ty) → name ≠ str "self" →
      Emit.iri (Iri.parameter_iri fn_iri (k + j)) standard.RDF_TYPE tg.PARAMETER
        ∈ params_loop ctx fn_iri k inputs
      ∧ Emit.intE (Iri.parameter_iri fn_iri (k + j)) tg.ORDINAL ((k + j : Nat) : Int)
        ∈ params_loop ctx fn_iri k inputs := by
  intro inputs
  induction inputs with
  | nil =>
    intro k j name ty h _
    simp at h
  | cons p rest ih =>
    intro k j name ty hget hname
    rcases p with ⟨pname, pty⟩
    cases j with
    | zero =>
      simp at hget
      obtain ⟨rfl, rfl⟩ := hget
      rw [params_loop, if_neg hname]
      constructor
      · simp [Nat.add_zero]
      · simp [Nat.add_zero]
    | succ j' =>
      simp only [List.get?_cons_succ] at hget
      have := ih (k + 1) j' name ty hget hname
      have harith : k + 1 + j' = k + (j' + 1) := by omega
      rw [harith] at this
      rw [params_loop]
      exact ⟨List.mem_append.mpr (Or.inr this.1), List.mem_append.mpr (Or.inr this.2)⟩

theorem params_loop_nodes {ctx : Ctx} {fn_iri : Str} :
    ∀ (inputs : List (Str × Ty)) (k : Nat) (s : Str),
      Emit.iri s standard.RDF_TYPE tg.PARAMETER ∈ params_loop ctx fn_iri k inputs →
      ∃ j name ty, inputs.get? j = some (name, ty) ∧ name ≠ str "self"
        ∧ s = Iri.parameter_iri fn_iri (k + j) := by
  intro inputs
  induction inputs with
  | nil =>
    intro k s h
    rw [params_loop] at h
    simp at h
  | cons p rest ih =>
    intro k s h
    rcases p with ⟨pname, pty⟩
    rw [params_loop] at h
    rcases List.mem_append.mp h with hh | ht
    · by_cases hn : pname = str "self"
      · rw [if_pos hn] at hh
        simp at hh
      · rw [if_neg hn] at hh
        rcases List.mem_append.mp hh with hh2 | hh3
        · simp only [List.mem_cons, List.not_mem_nil, or_false] at hh2
          rcases hh2 with h2 | h2 | h2 | h2 | h2
          · simp only [Emit.iri.injEq] at h2
            exact ⟨0, pname, pty, by simp, hn, by rw [Nat.add_zero]; exact h2.1⟩
          · exact absurd h2 (by simp)
          · exact absurd h2 (by simp)
          · simp only [Emit.iri.injEq] at h2
            exact absurd h2.2.1 (by decide)
          · simp only [Emit.iri.injEq] at h2
            exact absurd h2.2.1 (by decide)
        · exfalso
          rcases hr : resolve_type_to_iri ctx pty with _ | t
          · rw [hr] at hh3
            simp at hh3
          · rw [hr] at hh3
            simp only [List.mem_cons, List.not_mem_nil, or_false] at hh3
            simp only [Emit.iri.injEq] at hh3
            exact absurd hh3.2.1 (by decide)
    · obtain ⟨j, name, ty, hg, hn, hs⟩ := ih (k + 1) s ht
      exact ⟨j + 1, name, ty, by simpa using hg, hn, by rw [hs]; congr 1; omega⟩

theorem ensure_external_mem {st : ExSt} {t n : Str} :
    ∀ e ∈ (ensure_external_type_emitted st t n).1,
      e = Emit.iri t standard.RDF_TYPE tg.TYPE ∨ e = Emit.lit t tg.NAME n := by
  intro e he
  rw [ensure_external_type_emitted] at he
  split_ifs at he
  · simp at he
  · simp only [List.mem_cons, List.not_mem_nil, or_false] at he
    exact he

theorem bounds_loop_no_param {ctx : Ctx} {subj edge : Str}
    (hedge : edge ≠ standard.RDF_TYPE) :
    ∀ (bs : List GenericBoundR) (st : ExSt),
      ∀ e ∈ (bounds_loop ctx subj edge bs st).1,
        ∀ s, e ≠ Emit.iri s standard.RDF_TYPE tg.PARAMETER := by
  intro bs
  induction bs with
  | nil =>
    intro st e he
    rw [bounds_loop] at he
    simp at he
  | cons b rest ih =>
    intro st e he s
    rcases b with ⟨t, m, g⟩ | o | u
    · have hunf : (bounds_loop ctx subj edge (GenericBoundR.traitBound t m g :: rest) st).1
          = ([Emit.iri subj edge (resolve_path_to_iri ctx t)]
              ++ (ensure_external_type_emitted st (resolve_path_to_iri ctx t) t.path).1)
            ++ (bounds_loop ctx subj edge rest
                (ensure_external_type_emitted st (resolve_path_to_iri ctx t) t.path).2).1 := rfl
      rw [hunf] at he
      rcases List.mem_append.mp he with hh | ht
      · rcases List.mem_append.mp hh with h1 | h2
        · simp at h1
          subst h1
          intro hcon
          simp only [Emit.iri.injEq] at hcon
          exact hedge hcon.2.1
        · rcases ensure_external_mem _ h2 with rfl | rfl
          · intro hcon
            simp only [Emit.iri.injEq] at hcon
            exact absurd hcon.2.2 (by decide)
          · simp
      · exact ih _ e ht s
    · have hunf : (bounds_loop ctx subj edge (GenericBoundR.outlives o :: rest) st).1
          = [] ++ (bounds_loop ctx subj edge rest st).1 := rfl
      rw [hunf] at he
      simp at he
      exact ih _ e he s
    · have hunf : (bounds_loop ctx subj edge (GenericBoundR.useBound u :: rest) st).1
          = [] ++ (bounds_loop ctx subj edge rest st).1 := rfl
      rw [hunf] at he
      simp at he
      exact ih _ e he s

theorem extract_generics_go_no_param {ctx : Ctx} {owner : Str} :
    ∀ (ps : List GenericParamDefR) (k : Nat) (st : ExSt),
      ∀ e ∈ (extract_generics_go ctx owner k ps st).1,
        ∀ s, e ≠ Emit.iri s standard.RDF_TYPE tg.PARAMETER := by
  intro ps
  induction ps with
  | nil =>
    intro k st e he
    rw [extract_generics_go] at he
    simp at he
  | cons p rest ih =>
    intro k st e he s
    rcases p with ⟨pname, pkind⟩
    rcases pkind with ol | ⟨bounds, dflt, syn⟩ | ⟨cty, cdflt⟩ | _
    · have hunf : (extract_generics_go ctx owner k (⟨pname, .lifetime ol⟩ :: rest) st).1
          = [Emit.iri (Iri.lifetime_iri owner pname) standard.RDF_TYPE rt.LIFETIME,
             Emit.lit (Iri.lifetime_iri owner pname) tg.NAME pname,
             Emit.iri owner rt.HAS_LIFETIME (Iri.lifetime_iri owner pname)]
            ++ (extract_generics_go ctx owner (k + 1) rest st).1 := rfl
      rw [hunf] at he
      rcases List.mem_append.mp he with hh | ht
      · simp only [List.mem_cons, List.not_mem_nil, or_false] at hh
        rcases hh with rfl | rfl | rfl
        · intro hcon
          simp only [Emit.iri.injEq] at hcon
          exact absurd hcon.2.2 (by decide)
        · simp
        · intro hcon
          simp only [Emit.iri.injEq] at hcon
          exact absurd hcon.2.1 (by decide)
      · exact ih _ _ e ht s
    · have hunf : (extract_generics_go ctx owner k (⟨pname, .type bounds dflt syn⟩ :: rest) st).1
          = ([Emit.iri (Iri.type_parameter_iri owner k) standard.RDF_TYPE tg.TYPE_PARAMETER,
              Emit.lit (Iri.type_parameter_iri owner k) tg.NAME pname,
              Emit.intE (Iri.type_parameter_iri owner k) tg.ORDINAL (k : Int),
              Emit.iri owner tg.HAS_TYPE_PARAMETER (Iri.type_parameter_iri owner k),
              Emit.iri (Iri.type_parameter_iri owner k) tg.TYPE_PARAMETER_OF owner]
             ++ (bounds_loop ctx (Iri.type_parameter_iri owner k) rt.TRAIT_BOUND bounds st).1)
            ++ (extract_generics_go ctx owner (k + 1) rest
                (bounds_loop ctx (Iri.type_parameter_iri owner k) rt.TRAIT_BOUND bounds st).2).1 := rfl
      rw [hunf] at he
      rcases List.mem_append.mp he with hh | ht
      · rcases List.mem_append.mp hh with h1 | h2
        · simp only [List.mem_cons, List.not_mem_nil, or_false] at h1
          rcases h1 with rfl | rfl | rfl | rfl | rfl
          · intro hcon
            simp only [Emit.iri.injEq] at hcon
            exact absurd hcon.2.2 (by decide)
          · simp
          · simp
          · intro hcon
            simp only [Emit.iri.injEq] at hcon
            exact absurd hcon.2.1 (by decide)
          · intro hcon
            simp only [Emit.iri.injEq] at hcon
            exact absurd hcon.2.1 (by decide)
        · exact bounds_loop_no_param (by decide) bounds st e h2 s
      · exact ih _ _ e ht s
    · have hunf : (extract_generics_go ctx owner k (⟨pname, .const cty cdflt⟩ :: rest) st).1
          = ([Emit.iri (Iri.type_parameter_iri owner k) standard.RDF_TYPE rt.CONST_PARAM,
              Emit.lit (Iri.type_parameter_iri owner k) tg.NAME pname,
              Emit.intE (Iri.type_parameter_iri owner k) tg.ORDINAL (k : Int),
              Emit.iri owner tg.HAS_TYPE_PARAMETER (Iri.type_parameter_iri owner k)]
             ++ (match resolve_type_to_iri ctx cty with
                 | some t => [Emit.iri (Iri.type_parameter_iri owner k) tg.PARAMETER_TYPE t]
                 | none => []))
            ++ (extract_generics_go ctx owner (k + 1) rest st).1 := rfl
      rw [hunf] at he
      rcases List.mem_append.mp he with hh | ht
      · rcases List.mem_append.mp hh with h1 | h2
        · simp only [List.mem_cons, List.not_mem_nil, or_false] at h1
          rcases h1 with rfl | rfl | rfl | rfl
          · intro hcon
            simp only [Emit.iri.injEq] at hcon
            exact absurd hcon.2.2 (by decide)
          · simp
          · simp
          · intro hcon
            simp only [Emit.iri.injEq] at hcon
            exact absurd hcon.2.1 (by decide)
        · rcases hr : resolve_type_to_iri ctx cty with _ | t
          · rw [hr] at h2
            simp at h2
          · rw [hr] at h2
            simp at h2
            subst h2
            intro hcon
            simp only [Emit.iri.injEq] at hcon
            exact absurd hcon.2.1 (by decide)
      · exact ih _ _ e ht s
    · have hunf : (extract_generics_go ctx owner k (⟨pname, .unknown⟩ :: rest) st).1
          = [] ++ (extract_generics_go ctx owner (k + 1) rest st).1 := rfl
      rw [hunf] at he
      simp at he
      exact ih _ _ e he s

theorem efd_unfold (ctx : Ctx) (fn_iri : Str) (sig : FunctionSignatureR)
    (generics : GenericsR) (header : FunctionHeaderR) (st : ExSt) :
    (extract_function_details ctx fn_iri sig generics header st).1
      = ((if header.isUnsafe then [Emit.boolE fn_iri rt.IS_UNSAFE true] else []) ++
         (if header.is_async then [Emit.boolE fn_iri tg.IS_ASYNC true] else []) ++
         (if header.is_const then [Emit.boolE fn_iri tg.IS_CONST true] else []))
        ++ (if hasTypeParams generics then [Emit.boolE fn_iri tg.IS_GENERIC true] else [])
        ++ (extract_generics ctx generics fn_iri st).1
        ++ params_loop ctx fn_iri 0 sig.inputs
        ++ (match sig.output with
            | some ret_type =>
                match resolve_type_to_iri ctx ret_type with
                | some t => [Emit.iri fn_iri tg.RETURN_TYPE t]
                | none => []
            | none => []) := rfl

-- ---------------------------------------------------------------------------
-- Claim C10
-- ---------------------------------------------------------------------------

/-- Claim C10: a function input named `self` produces no Parameter node but
still occupies a position in the ordinal numbering: every input at index
`j` whose name is not `self` yields a Parameter node minted at ordinal `j`
(the zero-based index into the full declared input list including the
receiver) carrying an ordinal fact of `j`; when the first input is `self`
no Parameter node with ordinal 0 is emitted, and with a non-receiver second
input the parameter at ordinal 1 is emitted. -/
theorem C10_self_parameter_ordinals :
    ∀ (ctx : Ctx) (fn_iri : Str) (sig : FunctionSignatureR) (generics : GenericsR)
      (header : FunctionHeaderR) (st : ExSt),
      (∀ j name ty, sig.inputs.get? j = some (name, ty) → name ≠ str "self" →
        Emit.iri (Iri.parameter_iri fn_iri j) standard.RDF_TYPE tg.PARAMETER
          ∈ (extract_function_details ctx fn_iri sig generics header st).1
        ∧ Emit.intE (Iri.parameter_iri fn_iri j) tg.ORDINAL (j : Int)
          ∈ (extract_function_details ctx fn_iri sig generics header st).1)
      ∧ (∀ ty, sig.inputs.get? 0 = some (str "self", ty) →
          Emit.iri (Iri.parameter_iri fn_iri 0) standard.RDF_TYPE tg.PARAMETER
            ∉ (extract_function_details ctx fn_iri sig generics header st).1)
      ∧ (∀ ty name1 ty1, sig.inputs.get? 0 = some (str "self", ty) →
          sig.inputs.get? 1 = some (name1, ty1) → name1 ≠ str "self" →
          Emit.iri (Iri.parameter_iri fn_iri 1) standard.RDF_TYPE tg.PARAMETER
            ∈ (extract_function_details ctx fn_iri sig generics header st).1
          ∧ Emit.iri (Iri.parameter_iri fn_iri 0) standard.RDF_TYPE tg.PARAMETER
            ∉ (extract_function_details ctx fn_iri sig generics header st).1) := by
  intro ctx fn_iri sig generics header st
  have hnotin : ∀ ty, sig.inputs.get? 0 = some (str "self", ty) →
      Emit.iri (Iri.parameter_iri fn_iri 0) standard.RDF_TYPE tg.PARAMETER
        ∉ (extract_function_details ctx fn_iri sig generics header st).1 := by
    intro ty h0 hmem
    rw [efd_unfold] at hmem
    rcases List.mem_append.mp hmem with hmem | hre
    rcases List.mem_append.mp hmem with hmem | hpe
    rcases List.mem_append.mp hmem with hmem | hge
    rcases List.mem_append.mp hmem with hfl | hgf
    · rcases List.mem_append.mp hfl with hfl | hfc
      rcases List.mem_append.mp hfl with hfu | hfa
      · split_ifs at hfu <;> simp at hfu
      · split_ifs at hfa <;> simp at hfa
      · split_ifs at hfc <;> simp at hfc
    · split_ifs at hgf <;> simp at hgf
    · exact extract_generics_go_no_param _ 0 st _ hge _ rfl
    · obtain ⟨j, name, ty2, hg, hn, hs⟩ := params_loop_nodes sig.inputs 0 _ hpe
      have hj := (parameter_iri_inj hs).2
      have : j = 0 := by omega
      subst this
      rw [h0] at hg
      simp at hg
      exact hn (hg.1.symm)
    · rcases ho : sig.output with _ | rt2
      · rw [ho] at hre
        simp at hre
      · rw [ho] at hre
        dsimp only at hre
        rcases hr : resolve_type_to_iri ctx rt2 with _ | t
        · rw [hr] at hre
          simp at hre
        · rw [hr] at hre
          simp only [List.mem_cons, List.not_mem_nil, or_false] at hre
          simp only [Emit.iri.injEq] at hre
          exact absurd hre.2.1 (by decide)
  refine ⟨?_, hnotin, ?_⟩
  · intro j name ty hg hn
    have := @params_loop_get ctx fn_iri sig.inputs 0 j name ty hg hn
    rw [Nat.zero_add] at this
    rw [efd_unfold]
    constructor
    · exact List.mem_append.mpr (Or.inl (List.mem_append.mpr (Or.inr this.1)))
    · exact List.mem_append.mpr (Or.inl (List.mem_append.mpr (Or.inr this.2)))
  · intro ty name1 ty1 h0 h1 hn1
    refine ⟨?_, hnotin ty h0⟩
    have := @params_loop_get ctx fn_iri sig.inputs 0 1 name1 ty1 h1 hn1
    rw [Nat.zero_add] at this
    rw [efd_unfold]
    exact List.mem_append.mpr (Or.inl (List.mem_append.mpr (Or.inr this.1)))

/-- Claim C10, witness: for the signature `(self, x: u8)` the parameter node
at ordinal 1 exists and no parameter node at ordinal 0 is emitted. -/
theorem C10_self_parameter_witness :
    (Emit.iri (Iri.parameter_iri (str "m") 1) standard.RDF_TYPE tg.PARAMETER
      ∈ (extract_function_details
          ⟨⟨str "0", none, [], [], [], 0⟩, str "c", str "1.0.0", str "http://r",
           ⟨str "http://r", true, true, true, true⟩⟩
          (str "m")
          ⟨[(str "self", .generic (str "Self")), (str "x", .primitive (str "u8"))], none, false⟩
          ⟨[], []⟩ ⟨false, false, false, none⟩ ⟨[], []⟩).1)
    ∧ (Emit.iri (Iri.parameter_iri (str "m") 0) standard.RDF_TYPE tg.PARAMETER
      ∉ (extract_function_details
          ⟨⟨str "0", none, [], [], [], 0⟩, str "c", str "1.0.0", str "http://r",
           ⟨str "http://r", true, true, true, true⟩⟩
          (str "m")
          ⟨[(str "self", .generic (str "Self")), (str "x", .primitive (str "u8"))], none, false⟩
          ⟨[], []⟩ ⟨false, false, false, none⟩ ⟨[], []⟩).1) := by
  exact (C10_self_parameter_ordinals
    ⟨⟨str "0", none, [], [], [], 0⟩, str "c", str "1.0.0", str "http://r",
     ⟨str "http://r", true, true, true, true⟩⟩
    (str "m")
    ⟨[(str "self", .generic (str "Self")), (str "x", .primitive (str "u8"))], none, false⟩
    ⟨[], []⟩ ⟨false, false, false, none⟩ ⟨[], []⟩).2.2
    (.generic (str "Self")) (str "x") (.primitive (str "u8")) rfl rfl (by decide)

-- ---------------------------------------------------------------------------
-- Claim C2 machinery
-- ---------------------------------------------------------------------------

theorem extract_type_method_edges {ctx : Ctx} {mid owner : Str} {st : ExSt}
    {item : ItemR} {name : Str}
    (hlk : alookup ctx.data.index mid = some item)
    (hn : item.name = some name) :
    Emit.iri owner tg.HAS_MEMBER (Iri.member_iri owner name (str ""))
      ∈ (extract_type_method ctx mid owner st).1
    ∧ Emit.iri (Iri.member_iri owner name (str "")) tg.MEMBER_OF owner
      ∈ (extract_type_method ctx mid owner st).1 := by
  rw [extract_type_method, hlk]
  dsimp only
  rw [hn]
  dsimp only
  rcases hin : item.inner <;> simp

theorem impl_items_loop_edges {ctx : Ctx} {trait_ : Option ResolvedPathR}
    {for_iri impl_iriV : Str} :
    ∀ (ids : List Str) (st : ExSt) (mid : Str) (item : ItemR) (name : Str)
      (sigV : FunctionSignatureR) (genV : GenericsR) (hb : Bool) (hd : FunctionHeaderR),
      mid ∈ ids →
      alookup ctx.data.index mid = some item →
      item.inner = .function sigV genV hb hd →
      item.name = some name →
      (Emit.iri (if trait_.isNone then for_iri else impl_iriV) tg.HAS_MEMBER
          (Iri.member_iri (if trait_.isNone then for_iri else impl_iriV) name (str ""))
        ∈ (impl_items_loop ctx trait_ for_iri impl_iriV ids st).1
      ∧ Emit.iri (Iri.member_iri (if trait_.isNone then for_iri else impl_iriV) name (str ""))
          tg.MEMBER_OF (if trait_.isNone then for_iri else impl_iriV)
        ∈ (impl_items_loop ctx trait_ for_iri impl_iriV ids st).1) := by
  intro ids
  induction ids with
  | nil =>
    intro st mid item name sigV genV hb hd hmem
    simp at hmem
  | cons x rest ih =>
    intro st mid item name sigV genV hb hd hmem hlk hin hn
    have hunf : (impl_items_loop ctx trait_ for_iri impl_iriV (x :: rest) st).1
        = (extract_impl_item ctx x (if trait_.isNone then for_iri else impl_iriV) st).1
          ++ (impl_items_loop ctx trait_ for_iri impl_iriV rest
              (extract_impl_item ctx x (if trait_.isNone then for_iri else impl_iriV) st).2).1 := rfl
    rcases List.mem_cons.mp hmem with rfl | hmem2
    · have hhead : (extract_impl_item ctx mid (if trait_.isNone then for_iri else impl_iriV) st).1
          = (extract_type_method ctx mid (if trait_.isNone then for_iri else impl_iriV) st).1 := by
        rw [extract_impl_item, hlk]
        dsimp only
        rw [hin]
      have := @extract_type_method_edges ctx mid
        (if trait_.isNone then for_iri else impl_iriV) st item name hlk hn
      rw [hunf]
      exact ⟨List.mem_append.mpr (Or.inl (by rw [hhead]; exact this.1)),
        List.mem_append.mpr (Or.inl (by rw [hhead]; exact this.2))⟩
    · have := ih ((extract_impl_item ctx x (if trait_.isNone then for_iri else impl_iriV) st).2)
        mid item name sigV genV hb hd hmem2 hlk hin hn
      rw [hunf]
      exact ⟨List.mem_append.mpr (Or.inr this.1), List.mem_append.mpr (Or.inr this.2)⟩

-- ---------------------------------------------------------------------------
-- Claim C2
-- ---------------------------------------------------------------------------

/-- Claim C2: in the final impl pass, for an impl that is not synthetic, has
no blanket type, and whose resolved target is already emitted, every named
Function member is emitted with its has-member and member-of edges owned by
the target type's identifier when the impl declares no trait, and by the
impl-block identifier when it declares one. -/
theorem C2_impl_member_ownership :
    ∀ (ctx : Ctx) (impl_id : Str) (st : ExSt) (item : ItemR) (g : GenericsR)
      (trait_ : Option ResolvedPathR) (f : Ty) (its : List Str) (u neg : Bool)
      (for_iri mid : Str) (mItem : ItemR) (name : Str) (sigV : FunctionSignatureR)
      (genV : GenericsR) (hb : Bool) (hd : FunctionHeaderR),
      alookup ctx.data.index impl_id = some item →
      item.inner = .impl g trait_ f its u neg false none →
      resolve_type_to_iri ctx f = some for_iri →
      for_iri ∈ st.types →
      mid ∈ its →
      alookup ctx.data.index mid = some mItem →
      mItem.inner = .function sigV genV hb hd →
      mItem.name = some name →
      ((trait_ = none →
         Emit.iri for_iri tg.HAS_MEMBER (Iri.member_iri for_iri name (str ""))
           ∈ (process_impl ctx impl_id st).1
         ∧ Emit.iri (Iri.member_iri for_iri name (str "")) tg.MEMBER_OF for_iri
           ∈ (process_impl ctx impl_id st).1)
       ∧ (∀ tp, trait_ = some tp →
         (Emit.iri (Iri.impl_iri ctx.base ctx.crateName ctx.crateVersion impl_id)
             tg.HAS_MEMBER
             (Iri.member_iri (Iri.impl_iri ctx.base ctx.crateName ctx.crateVersion impl_id)
               name (str ""))
           ∈ (process_impl ctx impl_id st).1
         ∧ Emit.iri
             (Iri.member_iri (Iri.impl_iri ctx.base ctx.crateName ctx.crateVersion impl_id)
               name (str ""))
             tg.MEMBER_OF (Iri.impl_iri ctx.base ctx.crateName ctx.crateVersion impl_id)
           ∈ (process_impl ctx impl_id st).1))) := by
  intro ctx impl_id st item g trait_ f its u neg for_iri mid mItem name sigV genV hb hd
  intro hlk hinner hres hmem hin hlkm hinm hnm
  have base : (process_impl ctx impl_id st).1 =
      (match trait_ with
        | some trait_path =>
            ([Emit.iri (Iri.impl_iri ctx.base ctx.crateName ctx.crateVersion impl_id)
                standard.RDF_TYPE rt.TRAIT_IMPL,
              Emit.iri (Iri.impl_iri ctx.base ctx.crateName ctx.crateVersion impl_id)
                rt.IMPL_FOR for_iri,
              Emit.iri (Iri.impl_iri ctx.base ctx.crateName ctx.crateVersion impl_id)
                rt.IMPL_TRAIT (resolve_path_to_iri ctx trait_path),
              Emit.iri for_iri tg.IMPLEMENTS (resolve_path_to_iri ctx trait_path)]
              ++ (ensure_external_type_emitted st (resolve_path_to_iri ctx trait_path)
                    trait_path.path).1,
             (ensure_external_type_emitted st (resolve_path_to_iri ctx trait_path)
                trait_path.path).2)
        | none =>
            ([Emit.iri (Iri.impl_iri ctx.base ctx.crateName ctx.crateVersion impl_id)
                standard.RDF_TYPE rt.INHERENT_IMPL,
              Emit.iri (Iri.impl_iri ctx.base ctx.crateName ctx.crateVersion impl_id)
                rt.IMPL_FOR for_iri], st)).1
        ++ (impl_items_loop ctx trait_ for_iri
              (Iri.impl_iri ctx.base ctx.crateName ctx.crateVersion impl_id) its
              (match trait_ with
               | some trait_path =>
                   ([Emit.iri (Iri.impl_iri ctx.base ctx.crateName ctx.crateVersion impl_id)
                       standard.RDF_TYPE rt.TRAIT_IMPL,
                     Emit.iri (Iri.impl_iri ctx.base ctx.crateName ctx.crateVersion impl_id)
                       rt.IMPL_FOR for_iri,
                     Emit.iri (Iri.impl_iri ctx.base ctx.crateName ctx.crateVersion impl_id)
                       rt.IMPL_TRAIT (resolve_path_to_iri ctx trait_path),
                     Emit.iri for_iri tg.IMPLEMENTS (resolve_path_to_iri ctx trait_path)]
                     ++ (ensure_external_type_emitted st (resolve_path_to_iri ctx trait_path)
                           trait_path.path).1,
                    (ensure_external_type_emitted st (resolve_path_to_iri ctx trait_path)
                       trait_path.path).2)
               | none =>
                   ([Emit.iri (Iri.impl_iri ctx.base ctx.crateName ctx.crateVersion impl_id)
                       standard.RDF_TYPE rt.INHERENT_IMPL,
                     Emit.iri (Iri.impl_iri ctx.base ctx.crateName ctx.crateVersion impl_id)
                       rt.IMPL_FOR for_iri], st)).2).1 := by
    rw [process_impl, hlk]
    dsimp only
    rw [hinner]
    dsimp only
    rw [hres]
    dsimp only
    rw [if_neg (by simp), if_neg (by simpa using hmem)]
  constructor
  · intro htr
    subst htr
    have hloop := @impl_items_loop_edges ctx none for_iri
      (Iri.impl_iri ctx.base ctx.crateName ctx.crateVersion impl_id)
      its st mid mItem name sigV genV hb hd hin hlkm hinm hnm
    simp only [Option.isNone_none, if_true] at hloop
    rw [base]
    exact ⟨List.mem_append.mpr (Or.inr hloop.1), List.mem_append.mpr (Or.inr hloop.2)⟩
  · intro tp htr
    subst htr
    have hloop := @impl_items_loop_edges ctx (some tp) for_iri
      (Iri.impl_iri ctx.base ctx.crateName ctx.crateVersion impl_id)
      its ((ensure_external_type_emitted st (resolve_path_to_iri ctx tp) tp.path).2)
      mid mItem name sigV genV hb hd hin hlkm hinm hnm
    simp only [Option.isNone_some, Bool.false_eq_true, if_false] at hloop
    rw [base]
    exact ⟨List.mem_append.mpr (Or.inr hloop.1), List.mem_append.mpr (Or.inr hloop.2)⟩

/-- Claim C2, witness: an inherent impl of a function `m` on `u8` attaches
the member to the target type's identifier. -/
theorem C2_impl_member_witness :
    Emit.iri (Iri.primitive_type_iri (str "http://r") (str "u8")) tg.HAS_MEMBER
      (Iri.member_iri (Iri.primitive_type_iri (str "http://r") (str "u8")) (str "m") (str ""))
    ∈ (process_impl
        ⟨⟨str "0", none,
          [(str "1", ⟨none, none, .public, [], none, none, none,
            .impl ⟨[], []⟩ none (.primitive (str "u8")) [str "2"] false false false none, []⟩),
           (str "2", ⟨none, some (str "m"), .public, [], none, none, none,
            .function ⟨[], none, false⟩ ⟨[], []⟩ true ⟨false, false, false, none⟩, []⟩)],
          [], [], 0⟩,
         str "c", str "1.0.0", str "http://r",
         ⟨str "http://r", true, true, true, true⟩⟩
        (str "1")
        ⟨[Iri.primitive_type_iri (str "http://r") (str "u8")], []⟩).1 := by
  exact ((C2_impl_member_ownership
    ⟨⟨str "0", none,
      [(str "1", ⟨none, none, .public, [], none, none, none,
        .impl ⟨[], []⟩ none (.primitive (str "u8")) [str "2"] false false false none, []⟩),
       (str "2", ⟨none, some (str "m"), .public, [], none, none, none,
        .function ⟨[], none, false⟩ ⟨[], []⟩ true ⟨false, false, false, none⟩, []⟩)],
      [], [], 0⟩,
     str "c", str "1.0.0", str "http://r",
     ⟨str "http://r", true, true, true, true⟩⟩
    (str "1")
    ⟨[Iri.primitive_type_iri (str "http://r") (str "u8")], []⟩
    ⟨none, none, .public, [], none, none, none,
      .impl ⟨[], []⟩ none (.primitive (str "u8")) [str "2"] false false false none, []⟩
    ⟨[], []⟩ none (.primitive (str "u8")) [str "2"] false false
    (Iri.primitive_type_iri (str "http://r") (str "u8")) (str "2")
    ⟨none, some (str "m"), .public, [], none, none, none,
      .function ⟨[], none, false⟩ ⟨[], []⟩ true ⟨false, false, false, none⟩, []⟩
    (str "m") ⟨[], none, false⟩ ⟨[], []⟩ true ⟨false, false, false, none⟩
    rfl rfl rfl (by simp) (by simp) rfl rfl rfl).1 rfl).1

-- ---------------------------------------------------------------------------
-- C8: tolerant deserialization of the rustdoc wire model
-- ---------------------------------------------------------------------------

/-- C8 counterexample: an unrecognized `ItemEnum` tag whose payload is an
object fails to deserialize instead of parsing to `ItemEnum::Unknown`; the
`#[serde(other)]` catch-all only accepts absent or null payloads, so the
spec's unqualified "unknown item kinds ... deserialize to Unknown" is
false. -/
theorem C8_unknown_tag_counterexample :
    itemEnumFromJson (Json.obj [(str "future_kind", Json.obj [(str "x", Json.num 1)])])
      = Except.error (str "invalid type: non-unit payload for unknown variant tag") ∧
    ∀ r, itemEnumFromJson (Json.obj [(str "future_kind", Json.obj [(str "x", Json.num 1)])])
      ≠ Except.ok r := by
  have e : itemEnumFromJson (Json.obj [(str "future_kind", Json.obj [(str "x", Json.num 1)])])
      = Except.error (str "invalid type: non-unit payload for unknown variant tag") := rfl
  exact ⟨e, fun r h => Except.noConfusion (e ▸ h)⟩

/-- C8 (amended): the wire model is tolerant exactly as far as serde's
`#[serde(other)]` reaches — an unrecognized tag of `ItemEnum`, `Type` or
`GenericParamDefKind` deserializes to the `Unknown` catch-all when it is a
bare string or carries a null payload; an absent `Item.inner` defaults to
`Unknown`; and `Id` accepts both a JSON string (as-is) and a JSON integer
(as its decimal rendering). -/
theorem C8_tolerant_deserialization (t : Str) :
    (t ∉ itemEnumTags →
       itemEnumFromJson (Json.obj [(t, Json.null)]) = Except.ok TagParse.unknownTag ∧
       itemEnumFromJson (Json.str t) = Except.ok TagParse.unknownTag) ∧
    (t ∉ typeTags → t ∉ typeUnitTags →
       typeFromJson (Json.obj [(t, Json.null)]) = Except.ok TagParse.unknownTag ∧
       typeFromJson (Json.str t) = Except.ok TagParse.unknownTag) ∧
    (t ∉ genericParamDefKindTags →
       genericParamDefKindFromJson (Json.obj [(t, Json.null)]) = Except.ok TagParse.unknownTag ∧
       genericParamDefKindFromJson (Json.str t) = Except.ok TagParse.unknownTag) ∧
    itemInnerField none = Except.ok TagParse.unknownTag ∧
    (∀ s, idFromJson (Json.str s) = Except.ok s) ∧
    (∀ n : Int, idFromJson (Json.num n) = Except.ok (intStr n)) := by
  refine ⟨fun h => ⟨?_, ?_⟩, fun h1 h2 => ⟨?_, ?_⟩, fun h => ⟨?_, ?_⟩, rfl,
    fun s => rfl, fun n => rfl⟩
  · simp only [itemEnumFromJson, tagDispatch]
    rw [if_neg (fun hc => hc.elim h (List.not_mem_nil t))]
  · simp only [itemEnumFromJson, tagDispatch]
    rw [if_neg h, if_neg (List.not_mem_nil t)]
  · simp only [typeFromJson, tagDispatch]
    rw [if_neg (fun hc => hc.elim h1 h2)]
  · simp only [typeFromJson, tagDispatch]
    rw [if_neg h1, if_neg h2]
  · simp only [genericParamDefKindFromJson, tagDispatch]
    rw [if_neg (fun hc => hc.elim h (List.not_mem_nil t))]
  · simp only [genericParamDefKindFromJson, tagDispatch]
    rw [if_neg h, if_neg (List.not_mem_nil t)]

/-- C8 witness: the tolerance theorem applied at the concrete unrecognized
tag "future_kind". -/
theorem C8_tolerant_witness :
    str "future_kind" ∉ itemEnumTags ∧
    itemEnumFromJson (Json.obj [(str "future_kind", Json.null)]) = Except.ok TagParse.unknownTag := by
  refine ⟨by decide, ?_⟩
  exact ((C8_tolerant_deserialization (str "future_kind")).1 (by decide)).1

-- ---------------------------------------------------------------------------
-- C1: pipeline determinism
-- ---------------------------------------------------------------------------

/-- C1: running the full extraction pipeline twice on the same parsed
document with the same configuration yields byte-identical output under
either serializer, and equal reported triple counts.  In this embedding the
parsed document fixes the iteration order of its tables (`index`, `paths`,
`external_crates`), so the pipeline is a pure function of the parsed value
and determinism is definitional. -/
theorem C1_pipeline_deterministic (d1 d2 : CrateR) (o1 o2 : OptionsR) (f1 f2 : Nat)
    (hd : d1 = d2) (ho : o1 = o2) (hf : f1 = f2) :
    NT.render (extract d1 o1 f1) = NT.render (extract d2 o2 f2) ∧
    NT.tripleCount (extract d1 o1 f1) = NT.tripleCount (extract d2 o2 f2) ∧
    Turtle.render (extract d1 o1 f1) = Turtle.render (extract d2 o2 f2) ∧
    Turtle.tripleCount (extract d1 o1 f1) = Turtle.tripleCount (extract d2 o2 f2) := by
  subst hd; subst ho; subst hf
  exact ⟨rfl, rfl, rfl, rfl⟩

/-- C1 witness: the determinism theorem applied at a concrete document and
configuration. -/
theorem C1_pipeline_witness :
    (⟨str "0:0", none, [], [], [], 36⟩ : CrateR) = ⟨str "0:0", none, [], [], [], 36⟩ ∧
    NT.render (extract ⟨str "0:0", none, [], [], [], 36⟩
        ⟨str "http://example.org", true, true, true, true⟩ 8)
      = NT.render (extract ⟨str "0:0", none, [], [], [], 36⟩
        ⟨str "http://example.org", true, true, true, true⟩ 8) :=
  ⟨rfl,
    (C1_pipeline_deterministic
      ⟨str "0:0", none, [], [], [], 36⟩ ⟨str "0:0", none, [], [], [], 36⟩
      ⟨str "http://example.org", true, true, true, true⟩
      ⟨str "http://example.org", true, true, true, true⟩
      8 8 rfl rfl rfl).1⟩

-- ---------------------------------------------------------------------------
-- C9 infrastructure: everything outside emit_module_node is namespace-quiet
-- ---------------------------------------------------------------------------

theorem nsLike_iri_ne {s pr o : Str} (h1 : pr ≠ standard.RDF_TYPE)
    (h2 : pr ≠ tg.PARENT_NAMESPACE) : nsLike (Emit.iri s pr o) = false := by
  simp [nsLike, h1, h2]

theorem countP_flatMap_zero {α : Type} {p : Emit → Bool} {f : α → List Emit}
    (h : ∀ a, (f a).countP p = 0) : ∀ l : List α, (l.flatMap f).countP p = 0 := by
  intro l
  induction l with
  | nil => rfl
  | cons a rest ih => rw [List.flatMap_cons, List.countP_append, h a, ih]

theorem count_zero_of_quiet {out : List Emit} (hq : out.countP nsLike = 0)
    {e : Emit} (he : nsLike e = true) : out.count e = 0 := by
  have hall := List.countP_eq_zero.mp hq
  apply List.countP_eq_zero.mpr
  intro x hx hbx
  exact absurd (by rw [eq_of_beq hbx]; exact he) (hall x hx)

theorem countNSP_zero_of_quiet {ctx : Ctx} {p : Str} {out : List Emit}
    (hq : out.countP nsLike = 0) : countNSP ctx p out = 0 :=
  count_zero_of_quiet hq rfl

theorem countPns_zero_of_quiet {ctx : Ctx} {p : Str} {out : List Emit}
    (hq : out.countP nsLike = 0) : out.count (pnsTriple ctx p) = 0 :=
  count_zero_of_quiet hq rfl

theorem isPNS_nsLike {ctx : Ctx} {p : Str} {e : Emit}
    (h : isPNSEdgeFrom ctx p e = true) : nsLike e = true := by
  cases e with
  | iri s pr o =>
      simp only [isPNSEdgeFrom, Bool.and_eq_true, decide_eq_true_eq] at h
      simp [nsLike, h.1]
  | lit s pr v => exact absurd h (by simp [isPNSEdgeFrom])
  | typedLit s pr v dt => exact absurd h (by simp [isPNSEdgeFrom])
  | boolE s pr b => exact absurd h (by simp [isPNSEdgeFrom])
  | intE s pr n => exact absurd h (by simp [isPNSEdgeFrom])
  | addNs pfx ns => exact absurd h (by simp [isPNSEdgeFrom])

theorem countPE_zero_of_quiet {ctx : Ctx} {p : Str} {out : List Emit}
    (hq : out.countP nsLike = 0) : countPE ctx p out = 0 := by
  have hall := List.countP_eq_zero.mp hq
  apply List.countP_eq_zero.mpr
  intro x hx hpx
  exact absurd (isPNS_nsLike hpx) (hall x hx)

theorem quiet_ensure_external (st : ExSt) (t n : Str) :
    (ensure_external_type_emitted st t n).1.countP nsLike = 0 ∧
    (ensure_external_type_emitted st t n).2.mods = st.mods := by
  rw [ensure_external_type_emitted]
  split_ifs <;> exact ⟨rfl, rfl⟩

theorem quiet_bounds_loop {ctx : Ctx} {subject edge : Str}
    (h1 : edge ≠ standard.RDF_TYPE) (h2 : edge ≠ tg.PARENT_NAMESPACE) :
    ∀ (bs : List GenericBoundR) (st : ExSt),
      (bounds_loop ctx subject edge bs st).1.countP nsLike = 0 ∧
      (bounds_loop ctx subject edge bs st).2.mods = st.mods := by
  intro bs
  induction bs with
  | nil => intro st; exact ⟨rfl, rfl⟩
  | cons b rest ih =>
    intro st
    rcases b with ⟨t, m, g⟩ | o | u
    · have hunf : bounds_loop ctx subject edge (GenericBoundR.traitBound t m g :: rest) st
          = (([Emit.iri subject edge (resolve_path_to_iri ctx t)]
              ++ (ensure_external_type_emitted st (resolve_path_to_iri ctx t) t.path).1)
             ++ (bounds_loop ctx subject edge rest
                  (ensure_external_type_emitted st (resolve_path_to_iri ctx t) t.path).2).1,
             (bounds_loop ctx subject edge rest
                  (ensure_external_type_emitted st (resolve_path_to_iri ctx t) t.path).2).2) := rfl
      rw [hunf]
      constructor
      · rw [List.countP_append, List.countP_append,
            (quiet_ensure_external st _ _).1, (ih _).1]
        simp [List.countP_cons, nsLike_iri_ne h1 h2]
      · rw [(ih _).2, (quiet_ensure_external st _ _).2]
    · have hunf : bounds_loop ctx subject edge (GenericBoundR.outlives o :: rest) st
          = ([] ++ (bounds_loop ctx subject edge rest st).1,
             (bounds_loop ctx subject edge rest st).2) := rfl
      rw [hunf]
      exact ⟨by rw [List.nil_append, (ih st).1], (ih st).2⟩
    · have hunf : bounds_loop ctx subject edge (GenericBoundR.useBound u :: rest) st
          = ([] ++ (bounds_loop ctx subject edge rest st).1,
             (bounds_loop ctx subject edge rest st).2) := rfl
      rw [hunf]
      exact ⟨by rw [List.nil_append, (ih st).1], (ih st).2⟩

theorem quiet_extract_generics_go {ctx : Ctx} {owner : Str} :
    ∀ (ps : List GenericParamDefR) (k : Nat) (st : ExSt),
      (extract_generics_go ctx owner k ps st).1.countP nsLike = 0 ∧
      (extract_generics_go ctx owner k ps st).2.mods = st.mods := by
  intro ps
  induction ps with
  | nil => intro k st; exact ⟨rfl, rfl⟩
  | cons p rest ih =>
    intro k st
    rcases p with ⟨pname, pkind⟩
    rcases pkind with ol | ⟨bounds, dflt, syn⟩ | ⟨cty, cdflt⟩ | _
    · have hunf : extract_generics_go ctx owner k (⟨pname, .lifetime ol⟩ :: rest) st
          = ([Emit.iri (Iri.lifetime_iri owner pname) standard.RDF_TYPE rt.LIFETIME,
              Emit.lit (Iri.lifetime_iri owner pname) tg.NAME pname,
              Emit.iri owner rt.HAS_LIFETIME (Iri.lifetime_iri owner pname)]
             ++ (extract_generics_go ctx owner (k + 1) rest st).1,
             (extract_generics_go ctx owner (k + 1) rest st).2) := rfl
      rw [hunf]
      exact ⟨by rw [List.countP_append, (ih _ _).1]; rfl, (ih _ _).2⟩
    · have hunf : extract_generics_go ctx owner k (⟨pname, .type bounds dflt syn⟩ :: rest) st
          = (([Emit.iri (Iri.type_parameter_iri owner k) standard.RDF_TYPE tg.TYPE_PARAMETER,
               Emit.lit (Iri.type_parameter_iri owner k) tg.NAME pname,
               Emit.intE (Iri.type_parameter_iri owner k) tg.ORDINAL (k : Int),
               Emit.iri owner tg.HAS_TYPE_PARAMETER (Iri.type_parameter_iri owner k),
               Emit.iri (Iri.type_parameter_iri owner k) tg.TYPE_PARAMETER_OF owner]
              ++ (bounds_loop ctx (Iri.type_parameter_iri owner k) rt.TRAIT_BOUND bounds st).1)
             ++ (extract_generics_go ctx owner (k + 1) rest
                  (bounds_loop ctx (Iri.type_parameter_iri owner k) rt.TRAIT_BOUND bounds st).2).1,
             (extract_generics_go ctx owner (k + 1) rest
                  (bounds_loop ctx (Iri.type_parameter_iri owner k) rt.TRAIT_BOUND bounds st).2).2) := rfl
      rw [hunf]
      constructor
      · rw [List.countP_append, List.countP_append,
            (quiet_bounds_loop (by decide) (by decide) bounds st).1, (ih _ _).1]
        rfl
      · rw [(ih _ _).2, (quiet_bounds_loop (by decide) (by decide) bounds st).2]
    · have hunf : extract_generics_go ctx owner k (⟨pname, .const cty cdflt⟩ :: rest) st
          = (([Emit.iri (Iri.type_parameter_iri owner k) standard.RDF_TYPE rt.CONST_PARAM,
               Emit.lit (Iri.type_parameter_iri owner k) tg.NAME pname,
               Emit.intE (Iri.type_parameter_iri owner k) tg.ORDINAL (k : Int),
               Emit.iri owner tg.HAS_TYPE_PARAMETER (Iri.type_parameter_iri owner k)]
              ++ (match resolve_type_to_iri ctx cty with
                  | some t => [Emit.iri (Iri.type_parameter_iri owner k) tg.PARAMETER_TYPE t]
                  | none => []))
             ++ (extract_generics_go ctx owner (k + 1) rest st).1,
             (extract_generics_go ctx owner (k + 1) rest st).2) := rfl
      rw [hunf]
      refine ⟨?_, (ih _ _).2⟩
      rw [List.countP_append, List.countP_append, (ih _ _).1]
      cases resolve_type_to_iri ctx cty <;> rfl
    · have hunf : extract_generics_go ctx owner k (⟨pname, .unknown⟩ :: rest) st
          = ([] ++ (extract_generics_go ctx owner (k + 1) rest st).1,
             (extract_generics_go ctx owner (k + 1) rest st).2) := rfl
      rw [hunf]
      exact ⟨by rw [List.nil_append, (ih _ _).1], (ih _ _).2⟩

theorem quiet_extract_generics (ctx : Ctx) (g : GenericsR) (owner : Str) (st : ExSt) :
    (extract_generics ctx g owner st).1.countP nsLike = 0 ∧
    (extract_generics ctx g owner st).2.mods = st.mods :=
  quiet_extract_generics_go g.params 0 st

theorem quiet_params_loop (ctx : Ctx) (fi : Str) :
    ∀ (ins : List (Str × Ty)) (k : Nat), (params_loop ctx fi k ins).countP nsLike = 0 := by
  intro ins
  induction ins with
  | nil => intro k; rfl
  | cons a rest ih =>
    intro k
    rcases a with ⟨nm, ty⟩
    have hunf : params_loop ctx fi k ((nm, ty) :: rest)
        = (if nm = str "self" then []
           else
             [Emit.iri (Iri.parameter_iri fi k) standard.RDF_TYPE tg.PARAMETER,
              Emit.lit (Iri.parameter_iri fi k) tg.NAME nm,
              Emit.intE (Iri.parameter_iri fi k) tg.ORDINAL (k : Int),
              Emit.iri fi tg.HAS_PARAMETER (Iri.parameter_iri fi k),
              Emit.iri (Iri.parameter_iri fi k) tg.PARAMETER_OF fi] ++
             (match resolve_type_to_iri ctx ty with
              | some t => [Emit.iri (Iri.parameter_iri fi k) tg.PARAMETER_TYPE t]
              | none => []))
          ++ params_loop ctx fi (k + 1) rest := rfl
    rw [hunf, List.countP_append, ih]
    by_cases hnm : nm = str "self"
    · rw [if_pos hnm]; rfl
    · rw [if_neg hnm, List.countP_append]
      cases resolve_type_to_iri ctx ty <;> rfl

theorem countP_if_zero {c : Prop} [Decidable c] {a b : List Emit}
    (ha : a.countP nsLike = 0) (hb : b.countP nsLike = 0) :
    (if c then a else b).countP nsLike = 0 := by
  split_ifs <;> assumption

theorem quiet_extract_error_type (ctx : Ctx) (fi : Str) (sig : FunctionSignatureR) :
    (extract_error_type ctx fi sig).countP nsLike = 0 := by
  rw [extract_error_type]
  cases ho : sig.output with
  | none => rfl
  | some ty =>
      cases ty <;> try rfl
      rename_i path
      dsimp only
      split_ifs
      · cases ha : path.args with
        | none => rfl
        | some args =>
            cases args with
            | parenthesized i o => rfl
            | angleBracketed gargs constraints =>
                dsimp only
                cases hg : gargs.get? 1 with
                | none => rfl
                | some garg =>
                    cases garg <;> try rfl
                    rename_i err_type
                    dsimp only
                    cases resolve_type_to_iri ctx err_type <;> rfl
      · rfl

theorem quiet_efd (ctx : Ctx) (fi : Str) (sig : FunctionSignatureR)
    (generics : GenericsR) (header : FunctionHeaderR) (st : ExSt) :
    (extract_function_details ctx fi sig generics header st).1.countP nsLike = 0 ∧
    (extract_function_details ctx fi sig generics header st).2.mods = st.mods := by
  constructor
  · rw [efd_unfold]
    simp only [List.countP_append]
    have hf1 : (if header.isUnsafe = true then [Emit.boolE fi rt.IS_UNSAFE true]
        else []).countP nsLike = 0 := countP_if_zero rfl rfl
    have hf2 : (if header.is_async = true then [Emit.boolE fi tg.IS_ASYNC true]
        else []).countP nsLike = 0 := countP_if_zero rfl rfl
    have hf3 : (if header.is_const = true then [Emit.boolE fi tg.IS_CONST true]
        else []).countP nsLike = 0 := countP_if_zero rfl rfl
    have hg : (if hasTypeParams generics = true then [Emit.boolE fi tg.IS_GENERIC true]
        else []).countP nsLike = 0 := countP_if_zero rfl rfl
    rw [(quiet_extract_generics ctx generics fi st).1, quiet_params_loop,
        hf1, hf2, hf3, hg]
    cases ho : sig.output with
    | none => rfl
    | some rt2 =>
        dsimp only
        cases resolve_type_to_iri ctx rt2 <;> rfl
  · exact (quiet_extract_generics ctx generics fi st).2

theorem quiet_extract_type_method (ctx : Ctx) (mid owner : Str) (st : ExSt) :
    (extract_type_method ctx mid owner st).1.countP nsLike = 0 ∧
    (extract_type_method ctx mid owner st).2.mods = st.mods := by
  rw [extract_type_method]
  cases hlk : alookup ctx.data.index mid with
  | none => exact ⟨rfl, rfl⟩
  | some item =>
      dsimp only
      cases hn : item.name with
      | none => exact ⟨rfl, rfl⟩
      | some name =>
          dsimp only
          cases hin : item.inner
          case function sig generics has_body header =>
            dsimp only
            constructor
            · simp only [List.countP_append]
              have hab : (if (!has_body) = true
                  then [Emit.boolE (Iri.member_iri owner name (str "")) tg.IS_ABSTRACT true]
                  else []).countP nsLike = 0 := countP_if_zero rfl rfl
              have hee : (if ctx.opts.extract_error_types = true
                  then extract_error_type ctx (Iri.member_iri owner name (str "")) sig
                  else []).countP nsLike = 0 :=
                countP_if_zero (quiet_extract_error_type ctx (Iri.member_iri owner name (str "")) sig) rfl
              rw [(quiet_efd ctx (Iri.member_iri owner name (str "")) sig generics header st).1,
                  hab, hee]
              rfl
            · exact (quiet_efd ctx (Iri.member_iri owner name (str "")) sig generics header st).2
          all_goals exact ⟨rfl, rfl⟩

theorem quiet_trait_methods_loop (ctx : Ctx) (tIri : Str) :
    ∀ (ids : List Str) (st : ExSt),
      (trait_methods_loop ctx tIri ids st).1.countP nsLike = 0 ∧
      (trait_methods_loop ctx tIri ids st).2.mods = st.mods := by
  intro ids
  induction ids with
  | nil => intro st; exact ⟨rfl, rfl⟩
  | cons mid rest ih =>
    intro st
    have hunf : trait_methods_loop ctx tIri (mid :: rest) st
        = ((extract_type_method ctx mid tIri st).1
            ++ (trait_methods_loop ctx tIri rest (extract_type_method ctx mid tIri st).2).1,
           (trait_methods_loop ctx tIri rest (extract_type_method ctx mid tIri st).2).2) := rfl
    rw [hunf]
    constructor
    · rw [List.countP_append, (quiet_extract_type_method ctx mid tIri st).1, (ih _).1]
    · rw [(ih _).2, (quiet_extract_type_method ctx mid tIri st).2]

theorem quiet_extract_field (ctx : Ctx) (fid owner : Str) :
    (extract_field ctx fid owner).countP nsLike = 0 := by
  rw [extract_field]
  cases hlk : alookup ctx.data.index fid with
  | none => rfl
  | some item =>
      dsimp only
      cases hin : item.inner <;> try rfl
      rename_i ty
      dsimp only
      cases resolve_type_to_iri ctx ty <;> rfl

theorem quiet_extract_variant_field (ctx : Ctx) (fid vIri : Str) :
    (extract_variant_field ctx fid vIri).countP nsLike = 0 := by
  rw [extract_variant_field]
  cases hlk : alookup ctx.data.index fid with
  | none => rfl
  | some item =>
      dsimp only
      cases hin : item.inner <;> try rfl
      rename_i ty
      dsimp only
      cases resolve_type_to_iri ctx ty <;> rfl

theorem quiet_extract_variant (ctx : Ctx) (vid eIri : Str) :
    (extract_variant ctx vid eIri).countP nsLike = 0 := by
  rw [extract_variant]
  cases hlk : alookup ctx.data.index vid with
  | none => rfl
  | some item =>
      dsimp only
      cases hn : item.name with
      | none => rfl
      | some name =>
          dsimp only
          cases hin : item.inner <;> try rfl
          rename_i d
          dsimp only
          cases hk : d.kind with
          | plain => rfl
          | tuple fs =>
              dsimp only
              rw [List.countP_append, List.countP_append,
                  countP_flatMap_zero
                    (fun fid => quiet_extract_variant_field ctx fid (Iri.variant_iri eIri name)) _]
              rfl
          | struct fs stripped =>
              dsimp only
              rw [List.countP_append, List.countP_append,
                  countP_flatMap_zero
                    (fun fid => quiet_extract_variant_field ctx fid (Iri.variant_iri eIri name)) _]
              rfl

theorem quiet_extract_derives (ctx : Ctx) (item_id tIri : Str) :
    (extract_derives_for_item ctx item_id tIri).countP nsLike = 0 := by
  rw [extract_derives_for_item]
  cases hlk : alookup ctx.data.index item_id with
  | none => rfl
  | some item =>
      dsimp only
      cases hin : item.inner <;> try rfl
      all_goals
        apply countP_flatMap_zero
        intro a
        dsimp only
        cases hlk2 : alookup ctx.data.index a with
        | none => rfl
        | some imp_item =>
            dsimp only
            split_ifs with hd
            · rfl
            · cases hin2 : imp_item.inner <;> try rfl
              rename_i g tr f i u n s b
              cases tr <;> rfl

theorem quiet_extract_struct (ctx : Ctx) (item_id : Str) (item : ItemR) (mp : Str)
    (st : ExSt) :
    (extract_struct ctx item_id item mp st).1.countP nsLike = 0 ∧
    (extract_struct ctx item_id item mp st).2.mods = st.mods := by
  rw [extract_struct]
  cases hn : item.name with
  | none => exact ⟨rfl, rfl⟩
  | some name =>
      dsimp only
      by_cases hmem : typeIri ctx (mp ++ str "::" ++ name) ∈ st.types
      · rw [if_pos hmem]; exact ⟨rfl, rfl⟩
      · rw [if_neg hmem]
        have hde : (if ctx.opts.extract_derives = true
            then extract_derives_for_item ctx item_id (typeIri ctx (mp ++ str "::" ++ name))
            else []).countP nsLike = 0 :=
          countP_if_zero (quiet_extract_derives ctx item_id _) rfl
        cases hin : item.inner <;>
          try exact ⟨by simp only [List.countP_append]; rw [hde]; rfl, rfl⟩
        rename_i kind generics impls
        dsimp only
        constructor
        · simp only [List.countP_append]
          have hg : (if hasTypeParams generics = true
              then [Emit.boolE (typeIri ctx (mp ++ str "::" ++ name)) tg.IS_GENERIC true]
              else []).countP nsLike = 0 := countP_if_zero rfl rfl
          rw [hde, hg,
              (quiet_extract_generics ctx generics (typeIri ctx (mp ++ str "::" ++ name))
                { st with types := typeIri ctx (mp ++ str "::" ++ name) :: st.types }).1]
          cases hk : kind with
          | unit => rfl
          | plain fields hs =>
              dsimp only
              rw [countP_flatMap_zero
                    (fun fid => quiet_extract_field ctx fid (typeIri ctx (mp ++ str "::" ++ name))) _]
              rfl
          | tuple fids =>
              dsimp only
              rw [countP_flatMap_zero
                    (fun fid => quiet_extract_field ctx fid (typeIri ctx (mp ++ str "::" ++ name))) _]
              rfl
        · exact (quiet_extract_generics ctx generics (typeIri ctx (mp ++ str "::" ++ name))
              { st with types := typeIri ctx (mp ++ str "::" ++ name) :: st.types }).2

theorem quiet_extract_enum (ctx : Ctx) (item_id : Str) (item : ItemR) (mp : Str)
    (st : ExSt) :
    (extract_enum ctx item_id item mp st).1.countP nsLike = 0 ∧
    (extract_enum ctx item_id item mp st).2.mods = st.mods := by
  rw [extract_enum]
  cases hn : item.name with
  | none => exact ⟨rfl, rfl⟩
  | some name =>
      dsimp only
      by_cases hmem : typeIri ctx (mp ++ str "::" ++ name) ∈ st.types
      · rw [if_pos hmem]; exact ⟨rfl, rfl⟩
      · rw [if_neg hmem]
        have hde : (if ctx.opts.extract_derives = true
            then extract_derives_for_item ctx item_id (typeIri ctx (mp ++ str "::" ++ name))
            else []).countP nsLike = 0 :=
          countP_if_zero (quiet_extract_derives ctx item_id _) rfl
        cases hin : item.inner <;>
          try exact ⟨by simp only [List.countP_append]; rw [hde]; rfl, rfl⟩
        rename_i generics variants stripped impls
        dsimp only
        constructor
        · simp only [List.countP_append]
          have hg : (if hasTypeParams generics = true
              then [Emit.boolE (typeIri ctx (mp ++ str "::" ++ name)) tg.IS_GENERIC true]
              else []).countP nsLike = 0 := countP_if_zero rfl rfl
          rw [hde, hg,
              (quiet_extract_generics ctx generics (typeIri ctx (mp ++ str "::" ++ name))
                { st with types := typeIri ctx (mp ++ str "::" ++ name) :: st.types }).1,
              countP_flatMap_zero
                (fun vid => quiet_extract_variant ctx vid (typeIri ctx (mp ++ str "::" ++ name))) _]
          rfl
        · exact (quiet_extract_generics ctx generics (typeIri ctx (mp ++ str "::" ++ name))
            { st with types := typeIri ctx (mp ++ str "::" ++ name) :: st.types }).2

theorem quiet_extract_trait (ctx : Ctx) (item : ItemR) (mp : Str) (st : ExSt) :
    (extract_trait ctx item mp st).1.countP nsLike = 0 ∧
    (extract_trait ctx item mp st).2.mods = st.mods := by
  rw [extract_trait]
  cases hn : item.name with
  | none => exact ⟨rfl, rfl⟩
  | some name =>
      dsimp only
      by_cases hmem : typeIri ctx (mp ++ str "::" ++ name) ∈ st.types
      · rw [if_pos hmem]; exact ⟨rfl, rfl⟩
      · rw [if_neg hmem]
        cases hin : item.inner <;> try exact ⟨rfl, rfl⟩
        rename_i generics bounds items impls auto tunsafe dyncomp
        dsimp only
        constructor
        · simp only [List.countP_append]
          have hu : (if tunsafe = true
              then [Emit.boolE (typeIri ctx (mp ++ str "::" ++ name)) rt.IS_UNSAFE true]
              else []).countP nsLike = 0 := countP_if_zero rfl rfl
          have hg : (if hasTypeParams generics = true
              then [Emit.boolE (typeIri ctx (mp ++ str "::" ++ name)) tg.IS_GENERIC true]
              else []).countP nsLike = 0 := countP_if_zero rfl rfl
          rw [hu, hg,
              (quiet_extract_generics ctx generics (typeIri ctx (mp ++ str "::" ++ name))
                { st with types := typeIri ctx (mp ++ str "::" ++ name) :: st.types }).1,
              (quiet_bounds_loop (by decide) (by decide) bounds _).1,
              (quiet_trait_methods_loop ctx (typeIri ctx (mp ++ str "::" ++ name)) items _).1]
          rfl
        · exact ((quiet_trait_methods_loop ctx (typeIri ctx (mp ++ str "::" ++ name)) items _).2).trans
            (((quiet_bounds_loop (by decide) (by decide) bounds _).2).trans
              ((quiet_extract_generics ctx generics (typeIri ctx (mp ++ str "::" ++ name))
                { st with types := typeIri ctx (mp ++ str "::" ++ name) :: st.types }).2))

theorem quiet_extract_module_function (ctx : Ctx) (item : ItemR) (mp : Str) (st : ExSt) :
    (extract_module_function ctx item mp st).1.countP nsLike = 0 ∧
    (extract_module_function ctx item mp st).2.mods = st.mods := by
  rw [extract_module_function]
  cases hn : item.name with
  | none => exact ⟨rfl, rfl⟩
  | some name =>
      dsimp only
      cases hin : item.inner <;> try exact ⟨rfl, rfl⟩
      rename_i sig generics has_body header
      dsimp only
      constructor
      · simp only [List.countP_append]
        have hee : (if ctx.opts.extract_error_types = true
            then extract_error_type ctx (Iri.member_iri (moduleIri ctx mp) name (str "")) sig
            else []).countP nsLike = 0 :=
          countP_if_zero
            (quiet_extract_error_type ctx (Iri.member_iri (moduleIri ctx mp) name (str "")) sig) rfl
        rw [hee,
            (quiet_efd ctx (Iri.member_iri (moduleIri ctx mp) name (str "")) sig generics header st).1]
        rfl
      · exact (quiet_efd ctx (Iri.member_iri (moduleIri ctx mp) name (str "")) sig generics header st).2

theorem quiet_extract_constant (ctx : Ctx) (item : ItemR) (mp : Str) :
    (extract_constant ctx item mp).countP nsLike = 0 := by
  rw [extract_constant]
  cases hn : item.name with
  | none => rfl
  | some name =>
      dsimp only
      cases hin : item.inner <;> try rfl
      rename_i ty cexpr
      dsimp only
      cases resolve_type_to_iri ctx ty <;> rfl

theorem quiet_extract_static (ctx : Ctx) (item : ItemR) (mp : Str) :
    (extract_static ctx item mp).countP nsLike = 0 := by
  rw [extract_static]
  cases hn : item.name with
  | none => rfl
  | some name =>
      dsimp only
      cases hin : item.inner <;> try rfl
      rename_i ty is_mutable sunsafe expr
      dsimp only
      cases is_mutable <;> cases resolve_type_to_iri ctx ty <;> rfl

theorem quiet_extract_type_alias (ctx : Ctx) (item : ItemR) (mp : Str) (st : ExSt) :
    (extract_type_alias ctx item mp st).1.countP nsLike = 0 ∧
    (extract_type_alias ctx item mp st).2.mods = st.mods := by
  rw [extract_type_alias]
  cases hn : item.name with
  | none => exact ⟨rfl, rfl⟩
  | some name =>
      dsimp only
      by_cases hmem : typeIri ctx (mp ++ str "::" ++ name) ∈ st.types
      · rw [if_pos hmem]; exact ⟨rfl, rfl⟩
      · rw [if_neg hmem]
        refine ⟨?_, rfl⟩
        cases hin : item.inner <;> try rfl
        rename_i generics ot
        cases ot with
        | none => rfl
        | some tt =>
            dsimp only
            cases resolve_type_to_iri ctx tt <;> rfl

theorem quiet_extract_union (ctx : Ctx) (item : ItemR) (mp : Str) (st : ExSt) :
    (extract_union ctx item mp st).1.countP nsLike = 0 ∧
    (extract_union ctx item mp st).2.mods = st.mods := by
  rw [extract_union]
  cases hn : item.name with
  | none => exact ⟨rfl, rfl⟩
  | some name =>
      dsimp only
      by_cases hmem : typeIri ctx (mp ++ str "::" ++ name) ∈ st.types
      · rw [if_pos hmem]; exact ⟨rfl, rfl⟩
      · rw [if_neg hmem]
        cases hin : item.inner <;> try exact ⟨rfl, rfl⟩
        rename_i generics fields stripped impls
        dsimp only
        constructor
        · simp only [List.countP_append]
          rw [(quiet_extract_generics ctx generics (typeIri ctx (mp ++ str "::" ++ name))
                { st with types := typeIri ctx (mp ++ str "::" ++ name) :: st.types }).1,
              countP_flatMap_zero
                (fun fid => quiet_extract_field ctx fid (typeIri ctx (mp ++ str "::" ++ name))) _]
          rfl
        · exact (quiet_extract_generics ctx generics (typeIri ctx (mp ++ str "::" ++ name))
            { st with types := typeIri ctx (mp ++ str "::" ++ name) :: st.types }).2

theorem quiet_extract_impl_item (ctx : Ctx) (iid owner : Str) (st : ExSt) :
    (extract_impl_item ctx iid owner st).1.countP nsLike = 0 ∧
    (extract_impl_item ctx iid owner st).2.mods = st.mods := by
  rw [extract_impl_item]
  cases hlk : alookup ctx.data.index iid with
  | none => exact ⟨rfl, rfl⟩
  | some item =>
      dsimp only
      cases hin : item.inner <;> try exact ⟨rfl, rfl⟩
      case function sig generics has_body header =>
        exact quiet_extract_type_method ctx iid owner st
      case assocConst aty aval =>
        cases hn : item.name <;> exact ⟨rfl, rfl⟩
      case assocType g bs ot =>
        cases hn : item.name <;> exact ⟨rfl, rfl⟩

theorem quiet_impl_items_loop (ctx : Ctx) (trait_ : Option ResolvedPathR)
    (fi ii : Str) :
    ∀ (ids : List Str) (st : ExSt),
      (impl_items_loop ctx trait_ fi ii ids st).1.countP nsLike = 0 ∧
      (impl_items_loop ctx trait_ fi ii ids st).2.mods = st.mods := by
  intro ids
  induction ids with
  | nil => intro st; exact ⟨rfl, rfl⟩
  | cons mid rest ih =>
      intro st
      have hunf : impl_items_loop ctx trait_ fi ii (mid :: rest) st
          = ((extract_impl_item ctx mid (if trait_.isNone then fi else ii) st).1
              ++ (impl_items_loop ctx trait_ fi ii rest
                   (extract_impl_item ctx mid (if trait_.isNone then fi else ii) st).2).1,
             (impl_items_loop ctx trait_ fi ii rest
                   (extract_impl_item ctx mid (if trait_.isNone then fi else ii) st).2).2) := rfl
      rw [hunf]
      constructor
      · rw [List.countP_append, (quiet_extract_impl_item ctx mid _ st).1, (ih _).1]
      · rw [(ih _).2, (quiet_extract_impl_item ctx mid _ st).2]

theorem quiet_process_impl (ctx : Ctx) (iid : Str) (st : ExSt) :
    (process_impl ctx iid st).1.countP nsLike = 0 ∧
    (process_impl ctx iid st).2.mods = st.mods := by
  rw [process_impl]
  cases hlk : alookup ctx.data.index iid with
  | none => exact ⟨rfl, rfl⟩
  | some item =>
      dsimp only
      cases hin : item.inner <;> try exact ⟨rfl, rfl⟩
      rename_i generics tr for_ items iu ineg isyn blanket
      dsimp only
      by_cases hsb : (isyn || blanket.isSome) = true
      · rw [if_pos hsb]; exact ⟨rfl, rfl⟩
      · rw [if_neg hsb]
        cases hres : resolve_type_to_iri ctx for_ with
        | none => exact ⟨rfl, rfl⟩
        | some for_iri =>
            dsimp only
            by_cases hmem : for_iri ∉ st.types
            · rw [if_pos hmem]; exact ⟨rfl, rfl⟩
            · rw [if_neg hmem]
              cases tr with
              | none =>
                  dsimp only
                  constructor
                  · rw [List.countP_append,
                        (quiet_impl_items_loop ctx none for_iri
                          (Iri.impl_iri ctx.base ctx.crateName ctx.crateVersion iid) items st).1]
                    rfl
                  · exact (quiet_impl_items_loop ctx none for_iri
                      (Iri.impl_iri ctx.base ctx.crateName ctx.crateVersion iid) items st).2
              | some tp =>
                  dsimp only
                  constructor
                  · simp only [List.countP_append]
                    rw [(quiet_ensure_external st (resolve_path_to_iri ctx tp) tp.path).1,
                        (quiet_impl_items_loop ctx (some tp) for_iri
                          (Iri.impl_iri ctx.base ctx.crateName ctx.crateVersion iid) items _).1]
                    rfl
                  · exact ((quiet_impl_items_loop ctx (some tp) for_iri
                      (Iri.impl_iri ctx.base ctx.crateName ctx.crateVersion iid) items _).2).trans
                      ((quiet_ensure_external st (resolve_path_to_iri ctx tp) tp.path).2)

theorem quiet_impls_loop (ctx : Ctx) :
    ∀ (ids : List Str) (st : ExSt),
      (impls_loop ctx ids st).1.countP nsLike = 0 ∧
      (impls_loop ctx ids st).2.mods = st.mods := by
  intro ids
  induction ids with
  | nil => intro st; exact ⟨rfl, rfl⟩
  | cons iid rest ih =>
      intro st
      have hunf : impls_loop ctx (iid :: rest) st
          = ((process_impl ctx iid st).1
              ++ (impls_loop ctx rest (process_impl ctx iid st).2).1,
             (impls_loop ctx rest (process_impl ctx iid st).2).2) := rfl
      rw [hunf]
      constructor
      · rw [List.countP_append, (quiet_process_impl ctx iid st).1, (ih _).1]
      · rw [(ih _).2, (quiet_process_impl ctx iid st).2]

theorem quiet_process_all_impls (ctx : Ctx) (st : ExSt) :
    (process_all_impls ctx st).1.countP nsLike = 0 ∧
    (process_all_impls ctx st).2.mods = st.mods :=
  quiet_impls_loop ctx _ st

theorem quiet_register_prefixes : register_prefixes.countP nsLike = 0 := rfl

theorem quiet_emit_crate_node (ctx : Ctx) : (emit_crate_node ctx).countP nsLike = 0 := rfl

theorem quiet_emit_external_crates (ctx : Ctx) :
    (emit_external_crates ctx).countP nsLike = 0 := by
  rw [emit_external_crates]
  dsimp only
  apply countP_flatMap_zero
  intro kv
  rfl

theorem moduleIri_inj {ctx : Ctx} {p q : Str} (h : moduleIri ctx p = moduleIri ctx q) :
    p = q :=
  (module_iri_inj h).2.2

theorem emn_skip {ctx : Ctx} {mp : Str} {item : ItemR} {st : ExSt}
    (hm : mp ∈ st.mods) : emit_module_node ctx mp item st = ([], st) := by
  rw [emit_module_node, if_pos hm]

theorem emn_unfold {ctx : Ctx} {mp : Str} {item : ItemR} {st : ExSt}
    (hm : mp ∉ st.mods) :
    emit_module_node ctx mp item st
      = ([Emit.iri (moduleIri ctx mp) standard.RDF_TYPE rt.MODULE,
          Emit.iri (moduleIri ctx mp) standard.RDF_TYPE tg.NAMESPACE,
          Emit.lit (moduleIri ctx mp) tg.NAME (item.name.getD mp),
          Emit.lit (moduleIri ctx mp) tg.FULL_NAME mp,
          Emit.iri (moduleIri ctx mp) tg.DEFINED_IN_ASSEMBLY (crateIri ctx),
          Emit.lit (moduleIri ctx mp) tg.ACCESSIBILITY (visibility_str item.visibility)]
         ++ (match rsplitOnceSep mp with
             | some x =>
                 [Emit.iri (moduleIri ctx mp) tg.PARENT_NAMESPACE (moduleIri ctx x.1)]
             | none => []),
         { st with mods := mp :: st.mods }) := by
  rw [emit_module_node, if_neg hm]
  cases hsp : rsplitOnceSep mp with
  | none => rfl
  | some x => rfl

theorem emn_counts (ctx : Ctx) (mp : Str) (item : ItemR) (st : ExSt) (p : Str)
    (hm : mp ∉ st.mods) :
    countNSP ctx p (emit_module_node ctx mp item st).1 = (if p = mp then 1 else 0) ∧
    countPE ctx p (emit_module_node ctx mp item st).1
      = (if p = mp ∧ (rsplitOnceSep mp).isSome then 1 else 0) ∧
    (emit_module_node ctx mp item st).1.count (pnsTriple ctx p)
      = (if p = mp ∧ (rsplitOnceSep mp).isSome then 1 else 0) := by
  rw [emn_unfold hm]
  by_cases hpm : p = mp
  · subst hpm
    cases hsp : rsplitOnceSep p with
    | none =>
        refine ⟨?_, ?_, ?_⟩
        · rw [if_pos rfl]
          show countNSP ctx p
              [Emit.iri (moduleIri ctx p) standard.RDF_TYPE rt.MODULE,
               Emit.iri (moduleIri ctx p) standard.RDF_TYPE tg.NAMESPACE,
               Emit.lit (moduleIri ctx p) tg.NAME (item.name.getD p),
               Emit.lit (moduleIri ctx p) tg.FULL_NAME p,
               Emit.iri (moduleIri ctx p) tg.DEFINED_IN_ASSEMBLY (crateIri ctx),
               Emit.lit (moduleIri ctx p) tg.ACCESSIBILITY (visibility_str item.visibility)] = 1
          have b2 : (Emit.iri (moduleIri ctx p) standard.RDF_TYPE tg.NAMESPACE
              == nsTriple ctx p) = true := by
            simp [nsTriple]
          simp only [countNSP, List.count_cons, List.count_nil, b2]
          have b1 : (Emit.iri (moduleIri ctx p) standard.RDF_TYPE rt.MODULE
              == nsTriple ctx p) = false := by
            simp only [nsTriple, beq_eq_false_iff_ne, ne_eq, Emit.iri.injEq]
            rintro ⟨-, -, h3⟩
            exact absurd h3 (by decide)
          have b5 : (Emit.iri (moduleIri ctx p) tg.DEFINED_IN_ASSEMBLY (crateIri ctx)
              == nsTriple ctx p) = false := by
            simp only [nsTriple, beq_eq_false_iff_ne, ne_eq, Emit.iri.injEq]
            rintro ⟨-, h2, -⟩
            exact absurd h2 (by decide)
          have b3 : (Emit.lit (moduleIri ctx p) tg.NAME (item.name.getD p)
              == nsTriple ctx p) = false := rfl
          have b4 : (Emit.lit (moduleIri ctx p) tg.FULL_NAME p == nsTriple ctx p) = false := rfl
          have b6 : (Emit.lit (moduleIri ctx p) tg.ACCESSIBILITY (visibility_str item.visibility)
              == nsTriple ctx p) = false := rfl
          rw [b1, b3, b4, b5, b6]
          rfl
        · simp [hsp]
          show countPE ctx p
              [Emit.iri (moduleIri ctx p) standard.RDF_TYPE rt.MODULE,
               Emit.iri (moduleIri ctx p) standard.RDF_TYPE tg.NAMESPACE,
               Emit.lit (moduleIri ctx p) tg.NAME (item.name.getD p),
               Emit.lit (moduleIri ctx p) tg.FULL_NAME p,
               Emit.iri (moduleIri ctx p) tg.DEFINED_IN_ASSEMBLY (crateIri ctx),
               Emit.lit (moduleIri ctx p) tg.ACCESSIBILITY (visibility_str item.visibility)] = 0
          rfl
        · simp [hsp]
          show List.count (pnsTriple ctx p)
              [Emit.iri (moduleIri ctx p) standard.RDF_TYPE rt.MODULE,
               Emit.iri (moduleIri ctx p) standard.RDF_TYPE tg.NAMESPACE,
               Emit.lit (moduleIri ctx p) tg.NAME (item.name.getD p),
               Emit.lit (moduleIri ctx p) tg.FULL_NAME p,
               Emit.iri (moduleIri ctx p) tg.DEFINED_IN_ASSEMBLY (crateIri ctx),
               Emit.lit (moduleIri ctx p) tg.ACCESSIBILITY (visibility_str item.visibility)] = 0
          have b1 : (Emit.iri (moduleIri ctx p) standard.RDF_TYPE rt.MODULE
              == pnsTriple ctx p) = false := by
            simp only [pnsTriple, beq_eq_false_iff_ne, ne_eq, Emit.iri.injEq]
            rintro ⟨-, h2, -⟩
            exact absurd h2 (by decide)
          have b2 : (Emit.iri (moduleIri ctx p) standard.RDF_TYPE tg.NAMESPACE
              == pnsTriple ctx p) = false := by
            simp only [pnsTriple, beq_eq_false_iff_ne, ne_eq, Emit.iri.injEq]
            rintro ⟨-, h2, -⟩
            exact absurd h2 (by decide)
          have b5 : (Emit.iri (moduleIri ctx p) tg.DEFINED_IN_ASSEMBLY (crateIri ctx)
              == pnsTriple ctx p) = false := by
            simp only [pnsTriple, beq_eq_false_iff_ne, ne_eq, Emit.iri.injEq]
            rintro ⟨-, h2, -⟩
            exact absurd h2 (by decide)
          simp only [List.count_cons, List.count_nil, b1, b2, b5]
          rfl
    | some x =>
        have hpar : parentOf p = x.1 := by rw [parentOf, hsp]
        refine ⟨?_, ?_, ?_⟩
        · rw [if_pos rfl]
          have b2 : (Emit.iri (moduleIri ctx p) standard.RDF_TYPE tg.NAMESPACE
              == nsTriple ctx p) = true := by
            simp [nsTriple]
          have b1 : (Emit.iri (moduleIri ctx p) standard.RDF_TYPE rt.MODULE
              == nsTriple ctx p) = false := by
            simp only [nsTriple, beq_eq_false_iff_ne, ne_eq, Emit.iri.injEq]
            rintro ⟨-, -, h3⟩
            exact absurd h3 (by decide)
          have b5 : (Emit.iri (moduleIri ctx p) tg.DEFINED_IN_ASSEMBLY (crateIri ctx)
              == nsTriple ctx p) = false := by
            simp only [nsTriple, beq_eq_false_iff_ne, ne_eq, Emit.iri.injEq]
            rintro ⟨-, h2, -⟩
            exact absurd h2 (by decide)
          have b7 : (Emit.iri (moduleIri ctx p) tg.PARENT_NAMESPACE (moduleIri ctx x.1)
              == nsTriple ctx p) = false := by
            simp only [nsTriple, beq_eq_false_iff_ne, ne_eq, Emit.iri.injEq]
            rintro ⟨-, h2, -⟩
            exact absurd h2 (by decide)
          simp only [countNSP, List.count_append, List.count_cons, List.count_nil,
            b1, b2, b5, b7]
          rfl
        · rw [if_pos ⟨rfl, rfl⟩]
          have b7 : isPNSEdgeFrom ctx p
              (Emit.iri (moduleIri ctx p) tg.PARENT_NAMESPACE (moduleIri ctx x.1)) = true := by
            simp [isPNSEdgeFrom]
          simp only [countPE, List.countP_append, List.countP_cons, List.countP_nil, b7]
          rfl
        · rw [if_pos ⟨rfl, rfl⟩]
          have b1 : (Emit.iri (moduleIri ctx p) standard.RDF_TYPE rt.MODULE
              == pnsTriple ctx p) = false := by
            simp only [pnsTriple, beq_eq_false_iff_ne, ne_eq, Emit.iri.injEq]
            rintro ⟨-, h2, -⟩
            exact absurd h2 (by decide)
          have b2 : (Emit.iri (moduleIri ctx p) standard.RDF_TYPE tg.NAMESPACE
              == pnsTriple ctx p) = false := by
            simp only [pnsTriple, beq_eq_false_iff_ne, ne_eq, Emit.iri.injEq]
            rintro ⟨-, h2, -⟩
            exact absurd h2 (by decide)
          have b5 : (Emit.iri (moduleIri ctx p) tg.DEFINED_IN_ASSEMBLY (crateIri ctx)
              == pnsTriple ctx p) = false := by
            simp only [pnsTriple, beq_eq_false_iff_ne, ne_eq, Emit.iri.injEq]
            rintro ⟨-, h2, -⟩
            exact absurd h2 (by decide)
          have b7 : (Emit.iri (moduleIri ctx p) tg.PARENT_NAMESPACE (moduleIri ctx x.1)
              == pnsTriple ctx p) = true := by
            rw [beq_iff_eq, pnsTriple, hpar]
          simp only [List.count_append, List.count_cons, List.count_nil, b1, b2, b5, b7]
          rfl
  · have hsubj : moduleIri ctx p ≠ moduleIri ctx mp :=
      fun h => hpm (moduleIri_inj h)
    have b2 : (Emit.iri (moduleIri ctx mp) standard.RDF_TYPE tg.NAMESPACE
        == nsTriple ctx p) = false := by
      simp only [nsTriple, beq_eq_false_iff_ne, ne_eq, Emit.iri.injEq]
      rintro ⟨h1, -, -⟩
      exact hsubj h1.symm
    have b1 : (Emit.iri (moduleIri ctx mp) standard.RDF_TYPE rt.MODULE
        == nsTriple ctx p) = false := by
      simp only [nsTriple, beq_eq_false_iff_ne, ne_eq, Emit.iri.injEq]
      rintro ⟨-, -, h3⟩
      exact absurd h3 (by decide)
    have b5 : (Emit.iri (moduleIri ctx mp) tg.DEFINED_IN_ASSEMBLY (crateIri ctx)
        == nsTriple ctx p) = false := by
      simp only [nsTriple, beq_eq_false_iff_ne, ne_eq, Emit.iri.injEq]
      rintro ⟨-, h2, -⟩
      exact absurd h2 (by decide)
    refine ⟨?_, ?_, ?_⟩
    · rw [if_neg hpm]
      cases hsp : rsplitOnceSep mp with
      | none =>
          simp only [countNSP, List.count_append, List.count_cons, List.count_nil,
            b1, b2, b5]
          rfl
      | some x =>
          have b7 : (Emit.iri (moduleIri ctx mp) tg.PARENT_NAMESPACE (moduleIri ctx x.1)
              == nsTriple ctx p) = false := by
            simp only [nsTriple, beq_eq_false_iff_ne, ne_eq, Emit.iri.injEq]
            rintro ⟨-, h2, -⟩
            exact absurd h2 (by decide)
          simp only [countNSP, List.count_append, List.count_cons, List.count_nil,
            b1, b2, b5, b7]
          rfl
    · rw [if_neg (fun hc => hpm hc.1)]
      cases hsp : rsplitOnceSep mp with
      | none =>
          show countPE ctx p
              [Emit.iri (moduleIri ctx mp) standard.RDF_TYPE rt.MODULE,
               Emit.iri (moduleIri ctx mp) standard.RDF_TYPE tg.NAMESPACE,
               Emit.lit (moduleIri ctx mp) tg.NAME (item.name.getD mp),
               Emit.lit (moduleIri ctx mp) tg.FULL_NAME mp,
               Emit.iri (moduleIri ctx mp) tg.DEFINED_IN_ASSEMBLY (crateIri ctx),
               Emit.lit (moduleIri ctx mp) tg.ACCESSIBILITY (visibility_str item.visibility)] = 0
          rfl
      | some x =>
          have b7 : isPNSEdgeFrom ctx p
              (Emit.iri (moduleIri ctx mp) tg.PARENT_NAMESPACE (moduleIri ctx x.1)) = false := by
            simp only [isPNSEdgeFrom, Bool.and_eq_false_iff, decide_eq_false_iff_not]
            exact Or.inr hsubj.symm
          simp only [countPE, List.countP_append, List.countP_cons, List.countP_nil, b7]
          rfl
    · rw [if_neg (fun hc => hpm hc.1)]
      have c1 : (Emit.iri (moduleIri ctx mp) standard.RDF_TYPE rt.MODULE
          == pnsTriple ctx p) = false := by
        simp only [pnsTriple, beq_eq_false_iff_ne, ne_eq, Emit.iri.injEq]
        rintro ⟨-, h2, -⟩
        exact absurd h2 (by decide)
      have c2 : (Emit.iri (moduleIri ctx mp) standard.RDF_TYPE tg.NAMESPACE
          == pnsTriple ctx p) = false := by
        simp only [pnsTriple, beq_eq_false_iff_ne, ne_eq, Emit.iri.injEq]
        rintro ⟨-, h2, -⟩
        exact absurd h2 (by decide)
      have c5 : (Emit.iri (moduleIri ctx mp) tg.DEFINED_IN_ASSEMBLY (crateIri ctx)
          == pnsTriple ctx p) = false := by
        simp only [pnsTriple, beq_eq_false_iff_ne, ne_eq, Emit.iri.injEq]
        rintro ⟨-, h2, -⟩
        exact absurd h2 (by decide)
      cases hsp : rsplitOnceSep mp with
      | none =>
          simp only [List.count_append, List.count_cons, List.count_nil, c1, c2, c5]
          rfl
      | some x =>
          have c7 : (Emit.iri (moduleIri ctx mp) tg.PARENT_NAMESPACE (moduleIri ctx x.1)
              == pnsTriple ctx p) = false := by
            simp only [pnsTriple, beq_eq_false_iff_ne, ne_eq, Emit.iri.injEq]
            rintro ⟨h1, -, -⟩
            exact hsubj h1.symm
          simp only [List.count_append, List.count_cons, List.count_nil, c1, c2, c5, c7]
          rfl

theorem walk_module_zero (ctx : Ctx) (iid mp : Str) (st : ExSt) :
    walk_module 0 ctx iid mp st = ([], st) := by
  rw [walk_module]

theorem walk_items_zero (ctx : Ctx) (ids : List Str) (mp : Str) (st : ExSt) :
    walk_items 0 ctx ids mp st = ([], st) := by
  rw [walk_items]

theorem walk_item_zero (ctx : Ctx) (iid mp : Str) (st : ExSt) :
    walk_item 0 ctx iid mp st = ([], st) := by
  rw [walk_item]

theorem walk_items_succ_nil (fuel : Nat) (ctx : Ctx) (mp : Str) (st : ExSt) :
    walk_items (fuel + 1) ctx [] mp st = ([], st) := by
  rw [walk_items]

theorem walk_items_succ_cons (fuel : Nat) (ctx : Ctx) (c : Str) (rest : List Str)
    (mp : Str) (st : ExSt) :
    walk_items (fuel + 1) ctx (c :: rest) mp st
      = ((walk_item fuel ctx c mp st).1
          ++ (walk_items fuel ctx rest mp (walk_item fuel ctx c mp st).2).1,
         (walk_items fuel ctx rest mp (walk_item fuel ctx c mp st).2).2) := by
  rw [walk_items]

theorem walk_module_succ_none (fuel : Nat) (ctx : Ctx) (iid mp : Str) (st : ExSt)
    (halo : alookup ctx.data.index iid = none) :
    walk_module (fuel + 1) ctx iid mp st = ([], st) := by
  rw [walk_module, halo]

theorem walk_module_succ_mod (fuel : Nat) (ctx : Ctx) (iid mp : Str) (st : ExSt)
    (item : ItemR) (items : List Str) (strip : Bool)
    (halo : alookup ctx.data.index iid = some item)
    (hin : item.inner = ItemEnumR.module items strip) :
    walk_module (fuel + 1) ctx iid mp st
      = ((if iid = ctx.data.root then ([], st) else emit_module_node ctx mp item st).1
          ++ (walk_items fuel ctx items mp
               (if iid = ctx.data.root then ([], st)
                else emit_module_node ctx mp item st).2).1,
         (walk_items fuel ctx items mp
               (if iid = ctx.data.root then ([], st)
                else emit_module_node ctx mp item st).2).2) := by
  rw [walk_module, halo]
  dsimp only
  rw [hin]

theorem walk_item_succ_none (fuel : Nat) (ctx : Ctx) (iid mp : Str) (st : ExSt)
    (halo : alookup ctx.data.index iid = none) :
    walk_item (fuel + 1) ctx iid mp st = ([], st) := by
  rw [walk_item, halo]

theorem inv_of_quiet (ctx : Ctx) (p : Str) (lb : Nat) {out : List Emit} {st st' : ExSt}
    (hq : out.countP nsLike = 0) (hm : st'.mods = st.mods) :
    (∀ q, q ∈ st.mods → q ∈ st'.mods) ∧
    countNSP ctx p out = (if p ∈ st'.mods ∧ p ∉ st.mods then 1 else 0) ∧
    countPE ctx p out = (if (rsplitOnceSep p).isSome then countNSP ctx p out else 0) ∧
    out.count (pnsTriple ctx p) = countPE ctx p out ∧
    (∀ q, q ∈ st'.mods → q ∈ st.mods ∨ lb ≤ q.length) := by
  refine ⟨fun q hq2 => hm ▸ hq2, ?_, ?_, ?_, fun q hq2 => Or.inl (hm ▸ hq2)⟩
  · rw [countNSP_zero_of_quiet hq, hm]
    exact (if_neg (fun hc => hc.2 hc.1)).symm
  · rw [countPE_zero_of_quiet hq, countNSP_zero_of_quiet hq]
    exact (ite_self 0).symm
  · rw [countPns_zero_of_quiet hq, countPE_zero_of_quiet hq]

theorem inv_step
    (ctx : Ctx) (p : Str) (st st1 st2 : ExSt) (o1 o2 : List Emit) (lb : Nat)
    (m1 : ∀ q, q ∈ st.mods → q ∈ st1.mods)
    (n1 : countNSP ctx p o1 = if p ∈ st1.mods ∧ p ∉ st.mods then 1 else 0)
    (e1 : countPE ctx p o1 = if (rsplitOnceSep p).isSome then countNSP ctx p o1 else 0)
    (c1 : o1.count (pnsTriple ctx p) = countPE ctx p o1)
    (l1 : ∀ q, q ∈ st1.mods → q ∈ st.mods ∨ lb ≤ q.length)
    (m2 : ∀ q, q ∈ st1.mods → q ∈ st2.mods)
    (n2 : countNSP ctx p o2 = if p ∈ st2.mods ∧ p ∉ st1.mods then 1 else 0)
    (e2 : countPE ctx p o2 = if (rsplitOnceSep p).isSome then countNSP ctx p o2 else 0)
    (c2 : o2.count (pnsTriple ctx p) = countPE ctx p o2)
    (l2 : ∀ q, q ∈ st2.mods → q ∈ st1.mods ∨ lb ≤ q.length) :
    (∀ q, q ∈ st.mods → q ∈ st2.mods) ∧
    countNSP ctx p (o1 ++ o2) = (if p ∈ st2.mods ∧ p ∉ st.mods then 1 else 0) ∧
    countPE ctx p (o1 ++ o2)
      = (if (rsplitOnceSep p).isSome then countNSP ctx p (o1 ++ o2) else 0) ∧
    (o1 ++ o2).count (pnsTriple ctx p) = countPE ctx p (o1 ++ o2) ∧
    (∀ q, q ∈ st2.mods → q ∈ st.mods ∨ lb ≤ q.length) := by
  have hNapp : countNSP ctx p (o1 ++ o2) = countNSP ctx p o1 + countNSP ctx p o2 :=
    List.count_append _ _ _
  have hPapp : countPE ctx p (o1 ++ o2) = countPE ctx p o1 + countPE ctx p o2 :=
    List.countP_append _ _ _
  refine ⟨fun q hq => m2 q (m1 q hq), ?_, ?_, ?_,
    fun q hq => (l2 q hq).elim (fun h => (l1 q h).imp_left id) Or.inr⟩
  · rw [hNapp, n1, n2]
    by_cases h0 : p ∈ st.mods
    · have hA : p ∈ st1.mods := m1 p h0
      have hB : p ∈ st2.mods := m2 p hA
      simp [h0, hA, hB]
    · by_cases hA : p ∈ st1.mods
      · have hB : p ∈ st2.mods := m2 p hA
        simp [h0, hA, hB]
      · by_cases hB : p ∈ st2.mods
        · simp [h0, hA, hB]
        · simp [h0, hA, hB]
  · rw [hPapp, e1, e2, hNapp]
    by_cases hs : (rsplitOnceSep p).isSome
    · simp [hs]
    · simp [hs]
  · rw [show (o1 ++ o2).count (pnsTriple ctx p)
        = o1.count (pnsTriple ctx p) + o2.count (pnsTriple ctx p) from List.count_append _ _ _,
        hPapp, c1, c2]

theorem inv_emn (ctx : Ctx) (p mp : Str) (item : ItemR) (st : ExSt) (lb : Nat)
    (hlb : lb ≤ mp.length) :
    (∀ q, q ∈ st.mods → q ∈ (emit_module_node ctx mp item st).2.mods) ∧
    countNSP ctx p (emit_module_node ctx mp item st).1
      = (if p ∈ (emit_module_node ctx mp item st).2.mods ∧ p ∉ st.mods then 1 else 0) ∧
    countPE ctx p (emit_module_node ctx mp item st).1
      = (if (rsplitOnceSep p).isSome
         then countNSP ctx p (emit_module_node ctx mp item st).1 else 0) ∧
    (emit_module_node ctx mp item st).1.count (pnsTriple ctx p)
      = countPE ctx p (emit_module_node ctx mp item st).1 ∧
    (∀ q, q ∈ (emit_module_node ctx mp item st).2.mods →
       q ∈ st.mods ∨ lb ≤ q.length) := by
  by_cases hm : mp ∈ st.mods
  · rw [emn_skip hm]
    exact inv_of_quiet ctx p lb rfl rfl
  · obtain ⟨hN, hE, hC⟩ := emn_counts ctx mp item st p hm
    have hmods : (emit_module_node ctx mp item st).2.mods = mp :: st.mods := by
      rw [emn_unfold hm]
    refine ⟨?_, ?_, ?_, ?_, ?_⟩
    · intro q hq
      rw [hmods]
      exact List.mem_cons_of_mem _ hq
    · rw [hN, hmods]
      by_cases hpm : p = mp
      · subst hpm
        rw [if_pos rfl, if_pos ⟨List.mem_cons_self _ _, hm⟩]
      · rw [if_neg hpm, if_neg]
        rintro ⟨h1, h2⟩
        rcases List.mem_cons.mp h1 with h | h
        · exact hpm h
        · exact h2 h
    · rw [hE, hN]
      by_cases hpm : p = mp
      · subst hpm
        cases hs : rsplitOnceSep p with
        | none => simp
        | some x => simp
      · rw [if_neg (fun hc => hpm hc.1), if_neg hpm]
        exact (ite_self 0).symm
    · rw [hC, hE]
    · intro q hq
      rw [hmods] at hq
      rcases List.mem_cons.mp hq with h | h
      · exact Or.inr (h ▸ hlb)
      · exact Or.inl h

theorem walk_inv (ctx : Ctx) (p : Str) :
    ∀ fuel : Nat,
      (∀ (iid mp : Str) (st : ExSt),
         (∀ q, q ∈ st.mods → q ∈ (walk_module fuel ctx iid mp st).2.mods) ∧
         countNSP ctx p (walk_module fuel ctx iid mp st).1
           = (if p ∈ (walk_module fuel ctx iid mp st).2.mods ∧ p ∉ st.mods then 1 else 0) ∧
         countPE ctx p (walk_module fuel ctx iid mp st).1
           = (if (rsplitOnceSep p).isSome
              then countNSP ctx p (walk_module fuel ctx iid mp st).1 else 0) ∧
         (walk_module fuel ctx iid mp st).1.count (pnsTriple ctx p)
           = countPE ctx p (walk_module fuel ctx iid mp st).1 ∧
         (∀ q, q ∈ (walk_module fuel ctx iid mp st).2.mods →
            q ∈ st.mods ∨ mp.length ≤ q.length)) ∧
      (∀ (ids : List Str) (mp : Str) (st : ExSt),
         (∀ q, q ∈ st.mods → q ∈ (walk_items fuel ctx ids mp st).2.mods) ∧
         countNSP ctx p (walk_items fuel ctx ids mp st).1
           = (if p ∈ (walk_items fuel ctx ids mp st).2.mods ∧ p ∉ st.mods then 1 else 0) ∧
         countPE ctx p (walk_items fuel ctx ids mp st).1
           = (if (rsplitOnceSep p).isSome
              then countNSP ctx p (walk_items fuel ctx ids mp st).1 else 0) ∧
         (walk_items fuel ctx ids mp st).1.count (pnsTriple ctx p)
           = countPE ctx p (walk_items fuel ctx ids mp st).1 ∧
         (∀ q, q ∈ (walk_items fuel ctx ids mp st).2.mods →
            q ∈ st.mods ∨ mp.length + 2 ≤ q.length)) ∧
      (∀ (iid mp : Str) (st : ExSt),
         (∀ q, q ∈ st.mods → q ∈ (walk_item fuel ctx iid mp st).2.mods) ∧
         countNSP ctx p (walk_item fuel ctx iid mp st).1
           = (if p ∈ (walk_item fuel ctx iid mp st).2.mods ∧ p ∉ st.mods then 1 else 0) ∧
         countPE ctx p (walk_item fuel ctx iid mp st).1
           = (if (rsplitOnceSep p).isSome
              then countNSP ctx p (walk_item fuel ctx iid mp st).1 else 0) ∧
         (walk_item fuel ctx iid mp st).1.count (pnsTriple ctx p)
           = countPE ctx p (walk_item fuel ctx iid mp st).1 ∧
         (∀ q, q ∈ (walk_item fuel ctx iid mp st).2.mods →
            q ∈ st.mods ∨ mp.length + 2 ≤ q.length)) := by
  intro fuel
  induction fuel with
  | zero =>
      refine ⟨fun iid mp st => ?_, fun ids mp st => ?_, fun iid mp st => ?_⟩
      · rw [walk_module_zero]
        exact inv_of_quiet ctx p mp.length rfl rfl
      · rw [walk_items_zero]
        exact inv_of_quiet ctx p (mp.length + 2) rfl rfl
      · rw [walk_item_zero]
        exact inv_of_quiet ctx p (mp.length + 2) rfl rfl
  | succ fuel ih =>
      obtain ⟨IHm, IHs, IHi⟩ := ih
      refine ⟨fun iid mp st => ?_, fun ids mp st => ?_, fun iid mp st => ?_⟩
      · -- walk_module (fuel + 1)
        cases halo : alookup ctx.data.index iid with
        | none =>
            rw [walk_module_succ_none fuel ctx iid mp st halo]
            exact inv_of_quiet ctx p mp.length rfl rfl
        | some item =>
            cases hin : item.inner
            case module items strip =>
              rw [walk_module_succ_mod fuel ctx iid mp st item items strip halo hin]
              by_cases hr : iid = ctx.data.root
              · rw [if_pos hr]
                obtain ⟨m2, n2, e2, c2, l2⟩ := IHs items mp st
                exact ⟨m2, by rw [List.nil_append]; exact n2,
                  by rw [List.nil_append]; exact e2,
                  by rw [List.nil_append]; exact c2,
                  fun q hq => (l2 q hq).imp_right (fun h => by omega)⟩
              · rw [if_neg hr]
                obtain ⟨m1, n1, e1, c1, l1⟩ :=
                  inv_emn ctx p mp item st mp.length (le_refl _)
                obtain ⟨m2, n2, e2, c2, l2⟩ :=
                  IHs items mp (emit_module_node ctx mp item st).2
                exact inv_step ctx p st (emit_module_node ctx mp item st).2
                  (walk_items fuel ctx items mp (emit_module_node ctx mp item st).2).2
                  (emit_module_node ctx mp item st).1
                  (walk_items fuel ctx items mp (emit_module_node ctx mp item st).2).1
                  mp.length m1 n1 e1 c1 l1 m2 n2 e2 c2
                  (fun q hq => (l2 q hq).imp_right (fun h => by omega))
            all_goals
              have hunf : walk_module (fuel + 1) ctx iid mp st = ([], st) := by
                rw [walk_module, halo]
                dsimp only
                rw [hin]
              rw [hunf]
              exact inv_of_quiet ctx p mp.length rfl rfl
      · -- walk_items (fuel + 1)
        cases ids with
        | nil =>
            rw [walk_items_succ_nil]
            exact inv_of_quiet ctx p (mp.length + 2) rfl rfl
        | cons c rest =>
            rw [walk_items_succ_cons]
            obtain ⟨m1, n1, e1, c1, l1⟩ := IHi c mp st
            obtain ⟨m2, n2, e2, c2, l2⟩ := IHs rest mp (walk_item fuel ctx c mp st).2
            exact inv_step ctx p st (walk_item fuel ctx c mp st).2
              (walk_items fuel ctx rest mp (walk_item fuel ctx c mp st).2).2
              (walk_item fuel ctx c mp st).1
              (walk_items fuel ctx rest mp (walk_item fuel ctx c mp st).2).1
              (mp.length + 2) m1 n1 e1 c1 l1 m2 n2 e2 c2 l2
      · -- walk_item (fuel + 1)
        cases halo : alookup ctx.data.index iid with
        | none =>
            rw [walk_item_succ_none fuel ctx iid mp st halo]
            exact inv_of_quiet ctx p (mp.length + 2) rfl rfl
        | some item =>
            cases hin : item.inner
            case module items strip =>
              have hunf : walk_item (fuel + 1) ctx iid mp st
                  = walk_module fuel ctx iid
                      (mp ++ str "::" ++ item.name.getD (str "unnamed")) st := by
                rw [walk_item, halo]
                dsimp only
                rw [hin]
              rw [hunf]
              obtain ⟨m1, n1, e1, c1, l1⟩ :=
                IHm iid (mp ++ str "::" ++ item.name.getD (str "unnamed")) st
              have hlen : mp.length + 2
                  ≤ (mp ++ str "::" ++ item.name.getD (str "unnamed")).length := by
                rw [List.length_append, List.length_append]
                have h2 : (str "::").length = 2 := rfl
                omega
              exact ⟨m1, n1, e1, c1,
                fun q hq => (l1 q hq).imp_right (fun h => le_trans hlen h)⟩
            case struct kind generics impls =>
              have hunf : walk_item (fuel + 1) ctx iid mp st
                  = extract_struct ctx iid item mp st := by
                rw [walk_item, halo]
                dsimp only
                rw [hin]
              rw [hunf]
              exact inv_of_quiet ctx p (mp.length + 2)
                (quiet_extract_struct ctx iid item mp st).1
                (quiet_extract_struct ctx iid item mp st).2
            case enum generics variants stripped impls =>
              have hunf : walk_item (fuel + 1) ctx iid mp st
                  = extract_enum ctx iid item mp st := by
                rw [walk_item, halo]
                dsimp only
                rw [hin]
              rw [hunf]
              exact inv_of_quiet ctx p (mp.length + 2)
                (quiet_extract_enum ctx iid item mp st).1
                (quiet_extract_enum ctx iid item mp st).2
            case trait generics bounds titems impls auto tunsafe dyncomp =>
              have hunf : walk_item (fuel + 1) ctx iid mp st
                  = extract_trait ctx item mp st := by
                rw [walk_item, halo]
                dsimp only
                rw [hin]
              rw [hunf]
              exact inv_of_quiet ctx p (mp.length + 2)
                (quiet_extract_trait ctx item mp st).1
                (quiet_extract_trait ctx item mp st).2
            case function sig generics has_body header =>
              have hunf : walk_item (fuel + 1) ctx iid mp st
                  = extract_module_function ctx item mp st := by
                rw [walk_item, halo]
                dsimp only
                rw [hin]
              rw [hunf]
              exact inv_of_quiet ctx p (mp.length + 2)
                (quiet_extract_module_function ctx item mp st).1
                (quiet_extract_module_function ctx item mp st).2
            case constant cty cexpr =>
              have hunf : walk_item (fuel + 1) ctx iid mp st
                  = (extract_constant ctx item mp, st) := by
                rw [walk_item, halo]
                dsimp only
                rw [hin]
              rw [hunf]
              exact inv_of_quiet ctx p (mp.length + 2)
                (quiet_extract_constant ctx item mp) rfl
            case static sty smut sunsafe sexpr =>
              have hunf : walk_item (fuel + 1) ctx iid mp st
                  = (extract_static ctx item mp, st) := by
                rw [walk_item, halo]
                dsimp only
                rw [hin]
              rw [hunf]
              exact inv_of_quiet ctx p (mp.length + 2)
                (quiet_extract_static ctx item mp) rfl
            case typeAlias generics ot =>
              have hunf : walk_item (fuel + 1) ctx iid mp st
                  = extract_type_alias ctx item mp st := by
                rw [walk_item, halo]
                dsimp only
                rw [hin]
              rw [hunf]
              exact inv_of_quiet ctx p (mp.length + 2)
                (quiet_extract_type_alias ctx item mp st).1
                (quiet_extract_type_alias ctx item mp st).2
            case union generics fields stripped impls =>
              have hunf : walk_item (fuel + 1) ctx iid mp st
                  = extract_union ctx item mp st := by
                rw [walk_item, halo]
                dsimp only
                rw [hin]
              rw [hunf]
              exact inv_of_quiet ctx p (mp.length + 2)
                (quiet_extract_union ctx item mp st).1
                (quiet_extract_union ctx item mp st).2
            all_goals
              have hunf : walk_item (fuel + 1) ctx iid mp st = ([], st) := by
                rw [walk_item, halo]
                dsimp only
                rw [hin]
              rw [hunf]
              exact inv_of_quiet ctx p (mp.length + 2) rfl rfl

theorem root_not_in_walk_mods (ctx : Ctx) (fuel : Nat) :
    ctx.crateName ∉ (walk_module fuel ctx ctx.data.root ctx.crateName ⟨[], []⟩).2.mods := by
  cases fuel with
  | zero =>
      rw [walk_module_zero]
      exact List.not_mem_nil _
  | succ fuel =>
      cases halo : alookup ctx.data.index ctx.data.root with
      | none =>
          rw [walk_module_succ_none fuel ctx ctx.data.root ctx.crateName ⟨[], []⟩ halo]
          exact List.not_mem_nil _
      | some item =>
          cases hin : item.inner
          case module items strip =>
            rw [walk_module_succ_mod fuel ctx ctx.data.root ctx.crateName ⟨[], []⟩
                  item items strip halo hin]
            rw [if_pos rfl]
            intro hmem
            have l2 := ((walk_inv ctx ctx.crateName fuel).2.1 items ctx.crateName
              ⟨[], []⟩).2.2.2.2 ctx.crateName hmem
            rcases l2 with h | h
            · exact List.not_mem_nil _ h
            · omega
          all_goals
            have hunf : walk_module (fuel + 1) ctx ctx.data.root ctx.crateName ⟨[], []⟩
                = ([], ⟨[], []⟩) := by
              rw [walk_module, halo]
              dsimp only
              rw [hin]
            rw [hunf]
            exact List.not_mem_nil _

-- ---------------------------------------------------------------------------
-- Claim C9
-- ---------------------------------------------------------------------------

/-- Claim C9: throughout one extraction run, at most one namespace node is
emitted per distinct dotted module path (the `namespace_visited` guard); no
namespace node is emitted for the root module path itself; a module path
receives a parent-namespace edge exactly as often as its namespace node is
emitted when the path contains a `::` separator and never otherwise; and
every parent-namespace edge out of a module is the canonical edge whose
object is the module IRI minted from the path truncated at its last
separator. -/
theorem C9_namespace_nodes (data : CrateR) (opts : OptionsR) (fuel : Nat) (p : Str) :
    countNSP (mkCtx data opts) p (extract data opts fuel) ≤ 1 ∧
    countNSP (mkCtx data opts) (mkCtx data opts).crateName (extract data opts fuel) = 0 ∧
    countPE (mkCtx data opts) p (extract data opts fuel)
      = (if (rsplitOnceSep p).isSome
         then countNSP (mkCtx data opts) p (extract data opts fuel) else 0) ∧
    (extract data opts fuel).count (pnsTriple (mkCtx data opts) p)
      = countPE (mkCtx data opts) p (extract data opts fuel) := by
  have hunf : extract data opts fuel
      = ((register_prefixes ++ emit_crate_node (mkCtx data opts)
          ++ emit_external_crates (mkCtx data opts))
         ++ (walk_module fuel (mkCtx data opts) data.root
              (mkCtx data opts).crateName ⟨[], []⟩).1)
        ++ (if opts.include_impls = true
            then process_all_impls (mkCtx data opts)
              (walk_module fuel (mkCtx data opts) data.root
                (mkCtx data opts).crateName ⟨[], []⟩).2
            else ([], (walk_module fuel (mkCtx data opts) data.root
                (mkCtx data opts).crateName ⟨[], []⟩).2)).1 := rfl
  have hq3 : (register_prefixes ++ emit_crate_node (mkCtx data opts)
      ++ emit_external_crates (mkCtx data opts)).countP nsLike = 0 := by
    rw [List.countP_append, List.countP_append, quiet_register_prefixes,
        quiet_emit_crate_node, quiet_emit_external_crates]
  have hq5 : ((if opts.include_impls = true
      then process_all_impls (mkCtx data opts)
        (walk_module fuel (mkCtx data opts) data.root
          (mkCtx data opts).crateName ⟨[], []⟩).2
      else ([], (walk_module fuel (mkCtx data opts) data.root
          (mkCtx data opts).crateName ⟨[], []⟩).2)).1).countP nsLike = 0 := by
    by_cases h : opts.include_impls = true
    · rw [if_pos h]
      exact (quiet_process_all_impls _ _).1
    · rw [if_neg h]
      rfl
  have hN : ∀ q : Str, countNSP (mkCtx data opts) q (extract data opts fuel)
      = countNSP (mkCtx data opts) q
          (walk_module fuel (mkCtx data opts) data.root
            (mkCtx data opts).crateName ⟨[], []⟩).1 := by
    intro q
    have capp : ∀ a b : List Emit, countNSP (mkCtx data opts) q (a ++ b)
        = countNSP (mkCtx data opts) q a + countNSP (mkCtx data opts) q b :=
      fun a b => List.count_append _ _ _
    rw [hunf, capp, capp, countNSP_zero_of_quiet hq3, countNSP_zero_of_quiet hq5]
    omega
  have hP : ∀ q : Str, countPE (mkCtx data opts) q (extract data opts fuel)
      = countPE (mkCtx data opts) q
          (walk_module fuel (mkCtx data opts) data.root
            (mkCtx data opts).crateName ⟨[], []⟩).1 := by
    intro q
    have capp : ∀ a b : List Emit, countPE (mkCtx data opts) q (a ++ b)
        = countPE (mkCtx data opts) q a + countPE (mkCtx data opts) q b :=
      fun a b => List.countP_append _ _ _
    rw [hunf, capp, capp, countPE_zero_of_quiet hq3, countPE_zero_of_quiet hq5]
    omega
  have hC : ∀ q : Str, (extract data opts fuel).count (pnsTriple (mkCtx data opts) q)
      = (walk_module fuel (mkCtx data opts) data.root
          (mkCtx data opts).crateName ⟨[], []⟩).1.count (pnsTriple (mkCtx data opts) q) := by
    intro q
    have capp : ∀ a b : List Emit, (a ++ b).count (pnsTriple (mkCtx data opts) q)
        = a.count (pnsTriple (mkCtx data opts) q) + b.count (pnsTriple (mkCtx data opts) q) :=
      fun a b => List.count_append _ _ _
    rw [hunf, capp, capp, countPns_zero_of_quiet hq3, countPns_zero_of_quiet hq5]
    omega
  obtain ⟨hm, hn, he, hc, hl⟩ :=
    (walk_inv (mkCtx data opts) p fuel).1 data.root (mkCtx data opts).crateName ⟨[], []⟩
  refine ⟨?_, ?_, ?_, ?_⟩
  · rw [hN p, hn]
    split_ifs <;> omega
  · obtain ⟨hm2, hn2, he2, hc2, hl2⟩ :=
      (walk_inv (mkCtx data opts) (mkCtx data opts).crateName fuel).1 data.root
        (mkCtx data opts).crateName ⟨[], []⟩
    rw [hN _, hn2, if_neg]
    rintro ⟨h1, -⟩
    exact root_not_in_walk_mods (mkCtx data opts) fuel h1
  · rw [hP p, hN p, he]
  · rw [hC p, hP p, hc]
